import Mathlib

/-!
Veles network client: the connection state machine.

A shallow embedding of `src/client/networkclient.cc` (class `NetworkClient`).

* The member fields of `NetworkClient` form the state record `NetworkClient`.
* Every member function is a function from the state (and its arguments) to the new
  state together with the list of externally observable effects it performed, in
  program order: Qt signals emitted, calls made on the `QTcpSocket`, lines written to
  the optional diagnostic stream, calls made on the node tree.
* `QTcpSocket` is a Qt class.  The client only holds a pointer to it, so the state
  records the pointer (`none` is `nullptr`); calls on the socket are effects and the
  answers of its queries (`isValid()`, `errorString()`) are inputs of the function
  that asks.
* A null pointer dereference has no defined result: `socketConnected` returns `none`.
-/

namespace veles
namespace client

/-! ## Data model -/

/-- The enum `NetworkClient::ConnectionStatus`. -/
inductive ConnectionStatus where
  | NotConnected
  | Connecting
  | Connected
  deriving DecidableEq, Repr

/-- The function `NetworkClient::connStatusStr`. -/
def connStatusStr (status : ConnectionStatus) : String :=
  match status with
  | .Connected => "Connected"
  | .Connecting => "Connecting"
  | .NotConnected => "Not Connected"

/-- A `QByteArray` is a sequence of bytes. -/
abbrev QByteArray := List UInt8

/-- Modelled from the spec: `data::NodeID` (data/nodeid.h is not among the sources), a
fixed-size opaque identifier with two distinguished values, nil and root. -/
inductive NodeID where
  | nil
  | root
  | id (n : Nat)
  deriving DecidableEq, Repr

/-- Modelled from the spec: the value of a node attribute (string, integer or a
reference to binary data). -/
inductive AttrValue where
  | str (s : String)
  | int (i : Int)
  | bindata (ref : Nat)
  deriving DecidableEq, Repr

/-- Modelled from the spec: `Node` (client/node.h is not among the sources), one cached
mirror of a remote object, with the fields of the data model. -/
structure Node where
  id : NodeID
  parent : Option NodeID
  children : List NodeID
  attributes : List (String × AttrValue)
  span : Option (Int × Int)
  fetched : Bool
  deriving DecidableEq, Repr

/-- Modelled from the spec: `NodeTree` (client/nodetree.h is not among the sources), the
owner of all nodes through a mapping from id to node. -/
structure NodeTree where
  nodes : List Node
  deriving DecidableEq, Repr

/-- Modelled from the spec: a fresh, empty root node. -/
def Node.freshRoot : Node :=
  { id := NodeID.root, parent := none, children := [], attributes := [],
    span := none, fetched := false }

/-- Modelled from the spec: `NodeTree::node(id)`, which returns absent for unknown ids. -/
def NodeTree.node (t : NodeTree) (id : NodeID) : Option Node :=
  t.nodes.find? (fun n => decide (n.id = id))

/-- Modelled from the spec: `NodeTree::reset()`, which discards all nodes except a
fresh, empty root. -/
def NodeTree.reset (_t : NodeTree) : NodeTree :=
  { nodes := [Node.freshRoot] }

/-- The dynamic class of a protocol message with the fields the client reads (the
classes of namespace `proto` are declared outside the sources; a `pair_str` is an
optional string). -/
inductive MsgBody where
  | MsgConnect (proto_version : Nat) (client_name client_version client_description
      client_type : Option String) (quit_on_close : Bool)
  | MsgConnected
  | MsgProtoError (code msg : String)
  | MsgConnectionError (code msg : String)
  | MsgRequestAck (rid : Nat)
  | MsgQueryError (qid : Nat) (code msg : String)
  | MsgGetReply (qid : Nat)
  | MsgGetListReply (qid : Nat)
  | MsgGetDataReply (qid : Nat)
  | MsgGetBinDataReply (qid : Nat)
  | MsgOther
  deriving DecidableEq, Repr

/-- A message behind a `msg_ptr`: its public `object_type` tag and its dynamic class. -/
structure MsgpackMsg where
  object_type : String
  body : MsgBody
  deriving DecidableEq, Repr

/-- What a `write` call hands to the socket: a byte array as it is, or the buffer that
`MsgpackWrapper::dumpObject` fills for one message. -/
inductive WireData where
  | raw (bytes : QByteArray)
  | packed (msg : MsgpackMsg)
  deriving DecidableEq, Repr

/-- The observable effects of the member functions. -/
inductive Effect where
  | output (text : String)
  | connectionStatusChanged (status : ConnectionStatus)
  | messageReceived (msg : MsgpackMsg)
  | newSocket (sock : Nat)
  | connectSignal (sock : Nat) (signal slot : String) (queued : Bool)
  | connectToHost (sock : Nat) (host : String) (port : Int)
  | disconnectFromHost (sock : Nat)
  | write (sock : Nat) (data : WireData)
  | deleteLater (sock : Nat)
  | treeReset
  | getList (node : NodeID) (arg : Bool)
  deriving DecidableEq, Repr

/-- The member fields of `NetworkClient`.  `output_stream_` tells whether a text stream
is attached; `sockets_created` counts the `QTcpSocket` objects created so far and names
the next one. -/
structure NetworkClient where
  client_socket_ : Option Nat
  status_ : ConnectionStatus
  server_name_ : String
  server_port_ : Int
  client_interface_name_ : String
  protocol_version_ : Nat
  client_name_ : String
  client_version_ : String
  client_description_ : String
  client_type_ : String
  authentication_key_ : QByteArray
  quit_on_close_ : Bool
  output_stream_ : Bool
  qid_ : Nat
  node_tree_ : NodeTree
  sockets_created : Nat
  deriving DecidableEq, Repr

/-- The arguments of `NetworkClient::connect`. -/
structure ConnectArgs where
  server_name : String
  server_port : Int
  client_interface_name : String
  client_name : String
  client_version : String
  client_description : String
  client_type : String
  authentication_key : QByteArray
  quit_on_close : Bool
  deriving DecidableEq, Repr

/-! ## Member functions -/

/-- The constructor `NetworkClient::NetworkClient`; the content of the newly created
`NodeTree` is given by `tree`. -/
def NetworkClient.new (tree : NodeTree) : NetworkClient :=
  { client_socket_ := none
    status_ := ConnectionStatus.NotConnected
    server_name_ := "127.0.0.1"
    server_port_ := 3135
    client_interface_name_ := "127.0.0.1"
    protocol_version_ := 1
    client_name_ := ""
    client_version_ := "[unspecified version]"
    client_description_ := ""
    client_type_ := ""
    authentication_key_ := []
    quit_on_close_ := false
    output_stream_ := false
    qid_ := 0
    node_tree_ := tree
    sockets_created := 0 }

/-- The function `NetworkClient::connectionStatus`. -/
def connectionStatus (c : NetworkClient) : ConnectionStatus :=
  c.status_

/-- The function `NetworkClient::setOutput`. -/
def setOutput (c : NetworkClient) (stream : Bool) : NetworkClient :=
  { c with output_stream_ := stream }

/-- The statement `if (output()) *output() << text`. -/
def logLine (c : NetworkClient) (text : String) : List Effect :=
  if c.output_stream_ then [Effect.output text] else []

/-- The function `NetworkClient::nextQid` on the 64-bit counter: the new state and the
value returned. -/
def nextQid (c : NetworkClient) : NetworkClient × Nat :=
  let q := (c.qid_ + 1) % 2 ^ 64
  ({ c with qid_ := q }, q)

/-- The function `NetworkClient::setConnectionStatus`. -/
def setConnectionStatus (c : NetworkClient) (connection_status : ConnectionStatus) :
    NetworkClient × List Effect :=
  if c.status_ ≠ connection_status then
    let c1 := { c with status_ := connection_status }
    (c1, logLine c1 ("NetworkClient: New connection status: "
            ++ connStatusStr connection_status ++ ".\n")
          ++ [Effect.connectionStatusChanged c1.status_])
  else
    (c, [])

/-- The function `QByteArray::resize`: truncation, or extension by bytes that are not
initialised (`uninit i` is what happens to be at position `i`). -/
def QByteArray.resize (a : QByteArray) (size : Nat) (uninit : Nat → UInt8) : QByteArray :=
  if size ≤ a.length then a.take size
  else a ++ (List.range' a.length (size - a.length)).map uninit

/-- The loop `for (int i = key_size; i < target_size; ++i) key[i] = 0`. -/
def zeroFill (key : QByteArray) (key_size target_size : Nat) : QByteArray :=
  (List.range' key_size (target_size - key_size)).foldl (fun k i => k.set i 0) key

/-- The function `NetworkClient::connect`.  The stored parameters and the key are
assigned before the status is looked at; the branch `if (1)` around `connectToHost` is
always taken, and the stored `int` port is converted to the `quint16` parameter of
`connectToHost`. -/
def connect (c : NetworkClient) (a : ConnectArgs) (uninit : Nat → UInt8) :
    NetworkClient × List Effect :=
  let c1 := { c with
    server_name_ := a.server_name
    server_port_ := a.server_port
    client_interface_name_ := a.client_interface_name
    client_name_ := a.client_name
    client_version_ := a.client_version
    client_description_ := a.client_description
    client_type_ := a.client_type
    quit_on_close_ := a.quit_on_close }
  let target_size := 64
  let key_size := a.authentication_key.length
  let c2 := { c1 with
    authentication_key_ :=
      zeroFill (QByteArray.resize a.authentication_key target_size uninit)
        key_size target_size }
  if c2.status_ ≠ ConnectionStatus.Connected
      ∧ c2.status_ ≠ ConnectionStatus.Connecting then
    let sock := c2.sockets_created
    let c3 := { c2 with client_socket_ := some sock, sockets_created := sock + 1 }
    let e :=
      [ Effect.newSocket sock,
        Effect.connectSignal sock "connected" "socketConnected" true,
        Effect.connectSignal sock "disconnected" "socketDisconnected" true,
        Effect.connectSignal sock "readyRead" "newDataAvailable" false,
        Effect.connectSignal sock "error" "socketError" false ]
      ++ logLine c3 ("NetworkClient::connect\n"
          ++ "    client interface: " ++ c3.client_interface_name_ ++ "\n"
          ++ "    server host: " ++ c3.server_name_ ++ "\n"
          ++ "    server port: " ++ toString c3.server_port_ ++ "\n")
      ++ logLine c3 "NetworkClient: bind successful.\n"
      ++ [Effect.connectToHost sock c3.server_name_ (c3.server_port_ % 2 ^ 16)]
    let r := setConnectionStatus c3 ConnectionStatus.Connecting
    (r.1, e ++ r.2)
  else
    (c2, [])

/-- The function `NetworkClient::disconnect`. -/
def disconnect (c : NetworkClient) : NetworkClient × List Effect :=
  let e0 := logLine c "NetworkClient: Disconnect.\n"
  let r := setConnectionStatus c ConnectionStatus.NotConnected
  let e2 :=
    match r.1.client_socket_ with
    | some sock => [Effect.disconnectFromHost sock]
    | none => []
  (r.1, e0 ++ r.2 ++ e2)

/-- The function `NetworkClient::sendMessage`; `isValid` is the answer of
`client_socket_->isValid()`. -/
def sendMessage (c : NetworkClient) (msg : MsgpackMsg) (isValid : Bool) :
    NetworkClient × List Effect :=
  match c.client_socket_ with
  | some sock => if isValid then (c, [Effect.write sock (WireData.packed msg)]) else (c, [])
  | none => (c, [])

/-- The message built by `NetworkClient::sendMsgConnect`. -/
def msgConnect (c : NetworkClient) : MsgpackMsg :=
  { object_type := "connect"
    body := MsgBody.MsgConnect 1 (some c.client_name_) (some c.client_version_)
      (some c.client_description_) (some c.client_type_) c.quit_on_close_ }

/-- The function `NetworkClient::sendMsgConnect`. -/
def sendMsgConnect (c : NetworkClient) (isValid : Bool) : NetworkClient × List Effect :=
  sendMessage c (msgConnect c) isValid

/-- The function `NetworkClient::socketConnected`; the socket pointer is dereferenced
without a check. -/
def socketConnected (c : NetworkClient) (isValid : Bool) :
    Option (NetworkClient × List Effect) :=
  match c.client_socket_ with
  | none => none
  | some sock =>
    let e0 := logLine c ("NetworkClient: TCP socket connected - sending an "
      ++ "authentication key and \"connect\" message.\n")
    let e1 := [Effect.write sock (WireData.raw c.authentication_key_)]
    let r := sendMsgConnect c isValid
    let c2 := { r.1 with node_tree_ := r.1.node_tree_.reset }
    some (c2, e0 ++ e1 ++ r.2 ++ [Effect.treeReset])

/-- The function `NetworkClient::socketDisconnected`. -/
def socketDisconnected (c : NetworkClient) : NetworkClient × List Effect :=
  let r := setConnectionStatus c ConnectionStatus.NotConnected
  let e1 := logLine r.1 "NetworkClient: TCP socket disconnected.\n"
  match r.1.client_socket_ with
  | some sock =>
    ({ r.1 with client_socket_ := none }, r.2 ++ e1 ++ [Effect.deleteLater sock])
  | none => (r.1, r.2 ++ e1)

/-- The function `NetworkClient::socketError`; `errorString` is the answer of
`client_socket_->errorString()`. -/
def socketError (c : NetworkClient) (_socketError : Int) (errorString : String) :
    NetworkClient × List Effect :=
  let r := setConnectionStatus c ConnectionStatus.NotConnected
  let e1 :=
    if r.1.output_stream_ ∧ r.1.client_socket_.isSome then
      [Effect.output ("NetworkClient: Socket error - " ++ errorString ++ "\n")]
    else []
  (r.1, r.2 ++ e1)

/-- The handlers that `registerMessageHandlers` stores in `message_handlers_`. -/
inductive MessageHandler where
  | handleNodeTreeRelatedMessage
  | handleConnectedMessage
  | handleProtoErrorMessage
  | handleConnectionsMessage
  | handleRegistryReplyMessage
  | handleMthdResMessage
  | handlePluginTriggerRunMessage
  | handleConnErrorMessage
  | handlePluginMethodRunMessage
  | handlePluginQueryGetMessage
  | handleBroadcastRunMessage
  | handlePluginHandlerUnregisteredMessage
  deriving DecidableEq, Repr

/-- The map `message_handlers_` as `NetworkClient::registerMessageHandlers` fills it
(the keys are pairwise different). -/
def message_handlers_ : List (String × MessageHandler) :=
  [ ("subscription_cancelled", MessageHandler.handleNodeTreeRelatedMessage),
    ("get_reply", MessageHandler.handleNodeTreeRelatedMessage),
    ("connected", MessageHandler.handleConnectedMessage),
    ("proto_error", MessageHandler.handleProtoErrorMessage),
    ("connections_reply", MessageHandler.handleConnectionsMessage),
    ("registry_reply", MessageHandler.handleRegistryReplyMessage),
    ("method_result", MessageHandler.handleMthdResMessage),
    ("method_error", MessageHandler.handleMthdResMessage),
    ("broadcast_result", MessageHandler.handleMthdResMessage),
    ("plugin_trigger_run", MessageHandler.handlePluginTriggerRunMessage),
    ("request_error", MessageHandler.handleNodeTreeRelatedMessage),
    ("get_list_reply", MessageHandler.handleNodeTreeRelatedMessage),
    ("get_data_reply", MessageHandler.handleNodeTreeRelatedMessage),
    ("get_query_reply", MessageHandler.handleNodeTreeRelatedMessage),
    ("query_error", MessageHandler.handleNodeTreeRelatedMessage),
    ("request_ack", MessageHandler.handleNodeTreeRelatedMessage),
    ("get_bindata_reply", MessageHandler.handleNodeTreeRelatedMessage),
    ("connection_error", MessageHandler.handleConnErrorMessage),
    ("plugin_method_run", MessageHandler.handlePluginMethodRunMessage),
    ("plugin_query_get", MessageHandler.handlePluginQueryGetMessage),
    ("plugin_broadcast_run", MessageHandler.handleBroadcastRunMessage),
    ("plugin_handler_unregistered",
      MessageHandler.handlePluginHandlerUnregisteredMessage) ]

/-- The function `NetworkClient::handleNodeTreeRelatedMessage`, whose body is empty. -/
def handleNodeTreeRelatedMessage (c : NetworkClient) (_msg : MsgpackMsg) :
    NetworkClient × List Effect :=
  (c, [])

/-- The function `NetworkClient::handleConnectedMessage`. -/
def handleConnectedMessage (c : NetworkClient) (_msg : MsgpackMsg) :
    NetworkClient × List Effect :=
  if connectionStatus c ≠ ConnectionStatus.Connecting then
    (c, logLine c ("NetworkClient: Very confusing... "
      ++ "Received \"connected\" message while already connected.\n"))
  else
    let e0 := logLine c "NetworkClient: Received \"connected\" message.\n"
    let r := setConnectionStatus c ConnectionStatus.Connected
    let e2 :=
      match r.1.node_tree_.node NodeID.root with
      | some root => [Effect.getList root.id true]
      | none => []
    (r.1, e0 ++ r.2 ++ e2)

/-- The function `NetworkClient::handleProtoErrorMessage`. -/
def handleProtoErrorMessage (c : NetworkClient) (msg : MsgpackMsg) :
    NetworkClient × List Effect :=
  match msg.body with
  | MsgBody.MsgProtoError code text =>
    let e0 := logLine c ("Received protocol error message. Aborting connection...\n"
      ++ "    code: " ++ code ++ "  msg: " ++ text ++ "\n")
    let r := disconnect c
    (r.1, e0 ++ r.2)
  | _ => (c, [])

/-- The function `NetworkClient::handleConnErrorMessage`. -/
def handleConnErrorMessage (c : NetworkClient) (msg : MsgpackMsg) :
    NetworkClient × List Effect :=
  match msg.body with
  | MsgBody.MsgConnectionError code text =>
    let e0 := logLine c ("Received connection error message. Aborting connection...\n"
      ++ "    code: " ++ code ++ "  msg: " ++ text ++ "\n")
    let r := disconnect c
    (r.1, e0 ++ r.2)
  | _ => (c, [])

/-- The body shared by `handleConnectionsMessage`, `handleRegistryReplyMessage`,
`handleMthdResMessage` and the plugin handlers: one diagnostic line. -/
def handleLoggedMessage (c : NetworkClient) (msg : MsgpackMsg) :
    NetworkClient × List Effect :=
  (c, logLine c ("NetworkClient: Received \"" ++ msg.object_type ++ "\" message.\n"))

/-- The call `(this->*handler)(msg)`. -/
def invokeHandler (handler : MessageHandler) (c : NetworkClient) (msg : MsgpackMsg) :
    NetworkClient × List Effect :=
  match handler with
  | .handleNodeTreeRelatedMessage => handleNodeTreeRelatedMessage c msg
  | .handleConnectedMessage => handleConnectedMessage c msg
  | .handleProtoErrorMessage => handleProtoErrorMessage c msg
  | .handleConnErrorMessage => handleConnErrorMessage c msg
  | .handleConnectionsMessage => handleLoggedMessage c msg
  | .handleRegistryReplyMessage => handleLoggedMessage c msg
  | .handleMthdResMessage => handleLoggedMessage c msg
  | .handlePluginTriggerRunMessage => handleLoggedMessage c msg
  | .handlePluginMethodRunMessage => handleLoggedMessage c msg
  | .handlePluginQueryGetMessage => handleLoggedMessage c msg
  | .handleBroadcastRunMessage => handleLoggedMessage c msg
  | .handlePluginHandlerUnregisteredMessage => handleLoggedMessage c msg

/-- The branch `if (msg)` of `NetworkClient::newDataAvailable`: the dispatch of one
decoded message. -/
def dispatch (c : NetworkClient) (msg : MsgpackMsg) : NetworkClient × List Effect :=
  match message_handlers_.lookup msg.object_type with
  | some handler =>
    let r := invokeHandler handler c msg
    (r.1, r.2 ++ [Effect.messageReceived msg])
  | none =>
    (c, logLine c ("NetworkClient: Received message of not handled type: \""
        ++ msg.object_type ++ "\".\n")
      ++ [Effect.messageReceived msg])

/-- What one call of `msgpack_wrapper_.loadMessage(client_socket_)` gives: a decoded
message, a `SchemaError` with its text, or a null pointer. -/
inductive LoadResult where
  | message (msg : MsgpackMsg)
  | schemaError (text : String)
  | null
  deriving DecidableEq, Repr

/-- The function `NetworkClient::newDataAvailable`; `loads` lists what the successive
calls of `loadMessage` give, and a call beyond the list gives a null pointer. -/
def newDataAvailable (c : NetworkClient) (loads : List LoadResult) :
    NetworkClient × List Effect :=
  match loads with
  | [] => (c, [])
  | l :: rest =>
    if c.client_socket_.isSome then
      match l with
      | LoadResult.message msg =>
        let r := dispatch c msg
        let r2 := newDataAvailable r.1 rest
        (r2.1, r.2 ++ r2.2)
      | LoadResult.schemaError text =>
        (c, logLine c ("NetworkClient: SchemaError - " ++ text ++ "\n"))
      | LoadResult.null => (c, [])
    else (c, [])

/-! ## Events -/

/-- The events that drive the client: the two public calls, the three socket slots and
the dispatch of one decoded message. -/
inductive Event where
  | connect (a : ConnectArgs) (uninit : Nat → UInt8)
  | disconnect
  | socketConnected (isValid : Bool)
  | socketDisconnected
  | socketError (code : Int) (errorString : String)
  | message (msg : MsgpackMsg)

/-- One event applied to a client state. -/
def step (c : NetworkClient) (ev : Event) : Option (NetworkClient × List Effect) :=
  match ev with
  | .connect a uninit => some (connect c a uninit)
  | .disconnect => some (disconnect c)
  | .socketConnected isValid => socketConnected c isValid
  | .socketDisconnected => some (socketDisconnected c)
  | .socketError code errorString => some (socketError c code errorString)
  | .message msg => some (dispatch c msg)

/-- A sequence of events applied in order, with the effects of all of them. -/
def run (c : NetworkClient) (evs : List Event) : Option (NetworkClient × List Effect) :=
  match evs with
  | [] => some (c, [])
  | ev :: rest =>
    match step c ev with
    | none => none
    | some r =>
      match run r.1 rest with
      | none => none
      | some r2 => some (r2.1, r.2 ++ r2.2)

/-- The statuses carried by the `connectionStatusChanged` signals among the effects. -/
def statusSignals (effs : List Effect) : List ConnectionStatus :=
  effs.filterMap (fun e =>
    match e with
    | Effect.connectionStatusChanged s => some s
    | _ => none)

/-- The calls of `Node::getList` among the effects: the node and the argument. -/
def getListCalls (effs : List Effect) : List (NodeID × Bool) :=
  effs.filterMap (fun e =>
    match e with
    | Effect.getList n b => some (n, b)
    | _ => none)

/-- The `write` calls among the effects: the socket and what was written. -/
def socketWrites (effs : List Effect) : List (Nat × WireData) :=
  effs.filterMap (fun e =>
    match e with
    | Effect.write sock data => some (sock, data)
    | _ => none)

/-- The number of events of a sequence across which the status differs. -/
def statusChanges (c : NetworkClient) (evs : List Event) : Nat :=
  match evs with
  | [] => 0
  | ev :: rest =>
    match step c ev with
    | none => 0
    | some r => (if r.1.status_ ≠ c.status_ then 1 else 0) + statusChanges r.1 rest

/-- The `messageReceived` signals among the effects, in order. -/
def messageSignals (effs : List Effect) : List MsgpackMsg :=
  effs.filterMap (fun e =>
    match e with
    | Effect.messageReceived msg => some msg
    | _ => none)

/-- The client after `k` successive calls of `nextQid`. -/
def nextQidCalls (c : NetworkClient) : Nat → NetworkClient
  | 0 => c
  | k + 1 => (nextQid (nextQidCalls c k)).1

/-- The value that call number `k` of `nextQid` returns (calls are counted from 1). -/
def kthQid (c : NetworkClient) (k : Nat) : Nat :=
  (nextQid (nextQidCalls c (k - 1))).2

/-! ## Request promises -/

/-- The signals `done` and `failed` of `RequestPromise`. -/
inductive PromiseSignal where
  | done (qid : Nat)
  | failed (qid : Nat)
  deriving DecidableEq, Repr

/-- The member field of `RequestPromise`. -/
structure RequestPromise where
  qid_ : Nat
  deriving DecidableEq, Repr

/-- The constructor `RequestPromise::RequestPromise`, which stores the qid and connects
the slot `messageReceived` to the signal `NetworkClient::messageReceived`. -/
def RequestPromise.new (qid : Nat) : RequestPromise :=
  { qid_ := qid }

/-- The slot `RequestPromise::messageReceived`: the signals it emits for one message.
Each `dynamic_pointer_cast` is a match on the dynamic class of the message. -/
def RequestPromise.messageReceived (p : RequestPromise) (message : MsgpackMsg) :
    List PromiseSignal :=
  if message.object_type = "request_ack" then
    match message.body with
    | MsgBody.MsgRequestAck rid =>
      if rid = p.qid_ then [PromiseSignal.done p.qid_] else []
    | _ => []
  else if message.object_type = "query_error" then
    match message.body with
    | MsgBody.MsgQueryError qid _ _ =>
      if qid = p.qid_ then [PromiseSignal.failed p.qid_] else []
    | _ => []
  else if message.object_type = "get_reply" then
    match message.body with
    | MsgBody.MsgGetReply qid =>
      if qid = p.qid_ then [PromiseSignal.done p.qid_] else []
    | _ => []
  else if message.object_type = "get_list_reply" then
    match message.body with
    | MsgBody.MsgGetListReply qid =>
      if qid = p.qid_ then [PromiseSignal.done p.qid_] else []
    | _ => []
  else if message.object_type = "get_data_reply" then
    match message.body with
    | MsgBody.MsgGetDataReply qid =>
      if qid = p.qid_ then [PromiseSignal.done p.qid_] else []
    | _ => []
  else if message.object_type = "get_bindata_reply" then
    match message.body with
    | MsgBody.MsgGetBinDataReply qid =>
      if qid = p.qid_ then [PromiseSignal.done p.qid_] else []
    | _ => []
  else []

/-- The signals a promise emits over a sequence of `messageReceived` signals of the
client: the slot runs once for each message, in order. -/
def RequestPromise.receiveAll (p : RequestPromise) : List MsgpackMsg → List PromiseSignal
  | [] => []
  | message :: rest => p.messageReceived message ++ p.receiveAll rest

/-- Whether a message is a terminal reply for the request `q`: one of the five success
replies or the failure reply, of the class of its tag and carrying `q`. -/
def terminalFor (q : Nat) (m : MsgpackMsg) : Bool :=
  match m.body with
  | MsgBody.MsgRequestAck rid => decide (m.object_type = "request_ack" ∧ rid = q)
  | MsgBody.MsgGetReply qid => decide (m.object_type = "get_reply" ∧ qid = q)
  | MsgBody.MsgGetListReply qid => decide (m.object_type = "get_list_reply" ∧ qid = q)
  | MsgBody.MsgGetDataReply qid => decide (m.object_type = "get_data_reply" ∧ qid = q)
  | MsgBody.MsgGetBinDataReply qid =>
    decide (m.object_type = "get_bindata_reply" ∧ qid = q)
  | MsgBody.MsgQueryError qid _ _ => decide (m.object_type = "query_error" ∧ qid = q)
  | _ => false

/-! ## Item models over the node tree (`src/client/models.cc`)

A `Node*` is the id of the node it points to, and reading through the pointer is the
lookup of that id in the node tree; a function that reads through a pointer to no node
has no defined result (`none`).  The class `Node` is not among the sources: its
accessors `id()`, `parent()` and `childrenVect()` are the fields of the data model,
`start()` and `end()` are taken from the span, and the answers of `index()` are a
parameter, `nodeIndex`. -/

/-- A `QModelIndex` of Qt: row, column, internal pointer, and whether it names a model.
`P` is what the internal pointer points to. -/
structure QModelIndex (P : Type) where
  row : Int
  column : Int
  internalPointer : Option P
  hasModel : Bool
  deriving DecidableEq, Repr

/-- The default constructor `QModelIndex()`: the invalid index. -/
def QModelIndex.invalid {P : Type} : QModelIndex P :=
  { row := -1, column := -1, internalPointer := none, hasModel := false }

/-- The function `QModelIndex::isValid`. -/
def QModelIndex.isValid {P : Type} (i : QModelIndex P) : Bool :=
  decide (0 ≤ i.row) && decide (0 ≤ i.column) && i.hasModel

/-- The function `QAbstractItemModel::createIndex`. -/
def createIndex {P : Type} (row column : Int) (ptr : Option P) : QModelIndex P :=
  { row := row, column := column, internalPointer := ptr, hasModel := true }

/-- The cast `(unsigned)` of an `int`. -/
def toUnsigned (i : Int) : Int :=
  i % 2 ^ 32

/-- The conversion of a size to `int`. -/
def toInt (size : Nat) : Int :=
  ((size : Int) + 2 ^ 31) % 2 ^ 32 - 2 ^ 31

/-- Modelled from the spec: `Node::start()`, the start offset of the span (0 is taken
for a node without span, about which the spec says nothing). -/
def Node.start (n : Node) : Int :=
  match n.span with
  | some s => s.1
  | none => 0

/-- Modelled from the spec: `Node::end()`, the end offset of the span, exclusive (0 is
taken for a node without span, about which the spec says nothing). -/
def Node.end_ (n : Node) : Int :=
  match n.span with
  | some s => s.2
  | none => 0

/-- The member fields of `NodeTreeModelBase`. -/
structure NodeTreeModelBase where
  node_tree_ : NodeTree
  root_ : NodeID
  deriving DecidableEq, Repr

/-- The function `NodeTreeModelBase::nodeFromIndex`. -/
def NodeTreeModelBase.nodeFromIndex (_m : NodeTreeModelBase) (index : QModelIndex NodeID) :
    Option NodeID :=
  if index.isValid then index.internalPointer else none

/-- The function `NodeTreeModelBase::parentNodeFromIndex`: the result pointer, when
defined. -/
def NodeTreeModelBase.parentNodeFromIndex (m : NodeTreeModelBase)
    (index : QModelIndex NodeID) : Option (Option NodeID) :=
  match m.nodeFromIndex index with
  | none => some none
  | some ptr =>
    match m.node_tree_.node ptr with
    | none => none
    | some node => some node.parent

/-- The function `NodeTreeModelBase::hasChildren`. -/
def NodeTreeModelBase.hasChildren (m : NodeTreeModelBase) (parent : QModelIndex NodeID) :
    Option Bool :=
  if parent.isValid then
    match m.nodeFromIndex parent with
    | none => some false
    | some ptr =>
      match m.node_tree_.node ptr with
      | none => none
      | some node => some (!node.children.isEmpty)
  else some false

/-- The function `NodeTreeModelBase::index`.  The row is compared as an `unsigned`; the
element access is out of bounds, so without defined result, when the row is not a
position of the vector. -/
def NodeTreeModelBase.index (m : NodeTreeModelBase) (row column : Int)
    (parent : QModelIndex NodeID) : Option (QModelIndex NodeID) :=
  match m.nodeFromIndex parent with
  | none => some QModelIndex.invalid
  | some ptr =>
    match m.node_tree_.node ptr with
    | none => none
    | some node =>
      if (node.children.length : Int) > toUnsigned row then
        if 0 ≤ row then
          match node.children[row.toNat]? with
          | some child => some (createIndex row column (some child))
          | none => none
        else none
      else some QModelIndex.invalid

/-- The function `NodeTreeModelBase::parent`. -/
def NodeTreeModelBase.parent (m : NodeTreeModelBase) (nodeIndex : Node → Int)
    (index : QModelIndex NodeID) : Option (QModelIndex NodeID) :=
  if index.isValid then
    match m.parentNodeFromIndex index with
    | none => none
    | some none => some QModelIndex.invalid
    | some (some ptr) =>
      match m.node_tree_.node ptr with
      | none => none
      | some node => some (createIndex (nodeIndex node) 0 (some ptr))
  else some QModelIndex.invalid

/-- The function `NodeTreeModelBase::rowCount`. -/
def NodeTreeModelBase.rowCount (m : NodeTreeModelBase) (parent : QModelIndex NodeID) :
    Option Int :=
  match m.nodeFromIndex parent with
  | none => some 0
  | some ptr =>
    match m.node_tree_.node ptr with
    | none => none
    | some node => some (toInt node.children.length)

/-- The function `NodeTreeModelBase::indexFromId`. -/
def NodeTreeModelBase.indexFromId (m : NodeTreeModelBase) (nodeIndex : Node → Int)
    (id : NodeID) : QModelIndex NodeID :=
  match m.node_tree_.node id with
  | some node => createIndex (nodeIndex node) 0 (some id)
  | none => QModelIndex.invalid

/-- The function `NodeTreeModelBase::idFromIndex`. -/
def NodeTreeModelBase.idFromIndex (m : NodeTreeModelBase) (index : QModelIndex NodeID) :
    Option NodeID :=
  match m.nodeFromIndex index with
  | none => some NodeID.nil
  | some ptr =>
    match m.node_tree_.node ptr with
    | none => none
    | some node => some node.id

/-- The loop of `NodeTreeModel::indexFromPos` over the children, in order (the counter
is an `unsigned`, so this is the loop for fewer than 2^32 children). -/
def NodeTreeModel.indexFromPosLoop (m : NodeTreeModelBase) (nodeIndex : Node → Int)
    (pos : Int) : List NodeID → Option (QModelIndex NodeID)
  | [] => some QModelIndex.invalid
  | child :: rest =>
    match m.node_tree_.node child with
    | none => none
    | some c =>
      if pos ≥ c.start ∧ pos < c.end_ then some (m.indexFromId nodeIndex c.id)
      else NodeTreeModel.indexFromPosLoop m nodeIndex pos rest

/-- The function `NodeTreeModel::indexFromPos`. -/
def NodeTreeModel.indexFromPos (m : NodeTreeModelBase) (nodeIndex : Node → Int)
    (pos : Int) (parent : QModelIndex NodeID) : Option (QModelIndex NodeID) :=
  match m.nodeFromIndex parent with
  | none => some QModelIndex.invalid
  | some ptr =>
    match m.node_tree_.node ptr with
    | none => none
    | some node => NodeTreeModel.indexFromPosLoop m nodeIndex pos node.children

/-- The function `TopLevelResourcesModel::hasChildren`. -/
def TopLevelResourcesModel.hasChildren (m : NodeTreeModelBase)
    (parent : QModelIndex NodeID) : Option Bool :=
  if parent.isValid then
    match m.nodeFromIndex parent with
    | none => some false
    | some ptr =>
      match m.node_tree_.node ptr with
      | none => none
      | some node => some (decide (node.id = NodeID.root) && !node.children.isEmpty)
  else some false

/-- The function `TopLevelResourcesModel::rowCount`. -/
def TopLevelResourcesModel.rowCount (m : NodeTreeModelBase) (parent : QModelIndex NodeID) :
    Option Int :=
  match m.nodeFromIndex parent with
  | none => some 0
  | some ptr =>
    match m.node_tree_.node ptr with
    | none => none
    | some node =>
      if node.id = NodeID.root then some (toInt node.children.length) else some 0

/-- The characters of `QString::number(number, 16)` of Qt: the hexadecimal digits of the
number, most significant first, lowercase, without leading zeros; `fuel` bounds the
number of digits. -/
def hexDigits : Nat → Nat → List Char
  | 0, _ => []
  | fuel + 1, n =>
    if n < 16 then [Nat.digitChar n]
    else hexDigits fuel (n / 16) ++ [Nat.digitChar (n % 16)]

/-- The call `QString::number(number, 16)` on a `uint64_t`, which has at most 16
hexadecimal digits. -/
def number16 (number : Nat) : List Char :=
  hexDigits 16 number

/-- The loop `while (num.length() < 4) num = "0" + num` of `zeroPaddedHexNumber`; `fuel`
bounds the number of rounds. -/
def zeroPadLoop : Nat → List Char → List Char
  | 0, num => num
  | fuel + 1, num => if num.length < 4 then zeroPadLoop fuel ('0' :: num) else num

/-- The function `zeroPaddedHexNumber` on a `uint64_t`; four rounds of the loop are
enough. -/
def zeroPaddedHexNumber (number : Nat) : String :=
  String.mk (zeroPadLoop 4 (number16 number))

/-- The conversion of an `int64_t` to `uint64_t`. -/
def toUInt64 (i : Int) : Nat :=
  (i % 2 ^ 64).toNat

/-- The branch `Qt::DisplayRole` of `NodeTreeModel::positionColumnData`. -/
def positionColumnDisplay (node : Node) : String :=
  zeroPaddedHexNumber (toUInt64 node.start) ++ ":"
    ++ zeroPaddedHexNumber (toUInt64 node.end_)

/-- The value of a lowercase hexadecimal digit. -/
def hexValue (c : Char) : Option Nat :=
  if 48 ≤ c.toNat ∧ c.toNat ≤ 57 then some (c.toNat - 48)
  else if 97 ≤ c.toNat ∧ c.toNat ≤ 102 then some (c.toNat - 87)
  else none

/-- The number that a string of lowercase hexadecimal digits denotes, if it is one. -/
def parseHex (s : List Char) : Option Nat :=
  s.foldl (fun acc c =>
    match acc, hexValue c with
    | some a, some d => some (a * 16 + d)
    | _, _ => none) (some 0)

/-! ## The node tree cache updater (spec 4.4)

`NetworkClient::handleNodeTreeRelatedMessage` has an empty body: the client forwards a
tree-relevant message only through the signal `messageReceived`.  The node tree that
receives it is declared in `client/nodetree.h`, which is not among the sources. -/

/-- Modelled from the spec: a stub node, known to exist because the listing of its
parent named it, but not yet fetched. -/
def Node.stub (id parent : NodeID) : Node :=
  { id := id, parent := some parent, children := [], attributes := [], span := none,
    fetched := false }

/-- Modelled from the spec: `applyChildren(parentId, orderedChildDescriptors)`, which
replaces the children of the parent with the new ordered set, creates stub nodes for
the ids not already cached, marks the parent fetched, and detaches (removes from the
map) the nodes previously under this parent that are absent from the new set. A
descriptor is taken to be the id of the child. The spec does not say what happens for
a parent that is not cached; the tree is left as it is then. -/
def NodeTree.applyChildren (t : NodeTree) (parentId : NodeID) (children : List NodeID) :
    NodeTree :=
  match t.node parentId with
  | none => t
  | some p =>
    let detached := p.children.filter (fun id => decide (id ∉ children))
    let kept := t.nodes.filter (fun n => decide (n.id ∉ detached))
    let updated := kept.map (fun n =>
      if n.id = parentId then { n with children := children, fetched := true } else n)
    let stubs := (children.dedup.filter (fun id => (t.node id).isNone)).map
      (fun id => Node.stub id parentId)
    { nodes := updated ++ stubs }

/-- Modelled from the spec: the NodeTree cache updater, to which a tree-relevant message
is forwarded. For a `get_list_reply` it applies the listing that the message carries
(`listing`: the id of the parent and the ordered children, fields that the client
itself never reads); the other messages are not modelled and leave the tree as it
is. -/
def NodeTree.cacheUpdater (t : NodeTree) (listing : NodeID × List NodeID)
    (msg : MsgpackMsg) : NodeTree :=
  match msg.body with
  | MsgBody.MsgGetListReply _ => t.applyChildren listing.1 listing.2
  | _ => t

/-- Modelled from the spec: the client after the dispatch of one message, with every
message that the dispatch forwards through `messageReceived` applied to the node tree
by the cache updater. -/
def dispatchToTree (c : NetworkClient) (listing : NodeID × List NodeID)
    (msg : MsgpackMsg) : NetworkClient :=
  let r := dispatch c msg
  { r.1 with
    node_tree_ :=
      (messageSignals r.2).foldl (fun t m => t.cacheUpdater listing m) r.1.node_tree_ }

/-! ## Sample values -/

/-- Sample arguments of connect: the server 127.0.0.1:4000, the client veles-test and a
key of three bytes. -/
def sampleArgs : ConnectArgs :=
  { server_name := "127.0.0.1"
    server_port := 4000
    client_interface_name := "127.0.0.1"
    client_name := "veles-test"
    client_version := "1.0"
    client_description := "test client"
    client_type := "test"
    authentication_key := [1, 2, 3]
    quit_on_close := false }

/-- A freshly constructed client whose node tree holds no node yet. -/
def sampleFresh : NetworkClient :=
  NetworkClient.new { nodes := [] }

/-- The fresh client after `connect`: status Connecting, socket 0. -/
def sampleConnecting : NetworkClient :=
  (connect sampleFresh sampleArgs (fun _ => 170)).1

/-- The client after the socket connected and the connected message arrived: status
Connected, socket 0. -/
def sampleConnected : NetworkClient :=
  match socketConnected sampleConnecting true with
  | some r => (dispatch r.1 { object_type := "connected", body := MsgBody.MsgConnected }).1
  | none => sampleConnecting

/-- A sample session: connect, the socket connects, the connected message arrives, and
later the socket reports an error, the client disconnects and the socket is gone. -/
def sampleSession : List Event :=
  [ Event.connect sampleArgs (fun _ => 170),
    Event.socketConnected true,
    Event.message { object_type := "connected", body := MsgBody.MsgConnected },
    Event.socketError 1 "Connection reset",
    Event.disconnect,
    Event.socketDisconnected ]

/-- A node tree left by an earlier session: the root with one child, node 1. -/
def sampleStaleTree : NodeTree :=
  { nodes :=
      [ { Node.freshRoot with children := [NodeID.id 1], fetched := true },
        { id := NodeID.id 1, parent := some NodeID.root, children := [],
          attributes := [("name", AttrValue.str "chunk1")], span := some (0, 16),
          fetched := false } ] }

/-- The sample client after a new `connect` while its node tree still holds the nodes of
the earlier session. -/
def sampleReconnecting : NetworkClient :=
  { sampleConnecting with node_tree_ := sampleStaleTree }

/-- The root of the sample tree, with the children node 1 and node 2. -/
def sampleRootNode : Node :=
  { Node.freshRoot with children := [NodeID.id 1, NodeID.id 2], fetched := true }

/-- Node 1 of the sample tree: bytes 0 to 16, with the child node 3. -/
def sampleNode1 : Node :=
  { id := NodeID.id 1, parent := some NodeID.root, children := [NodeID.id 3],
    attributes := [("name", AttrValue.str "chunk1")], span := some (0, 16),
    fetched := true }

/-- Node 2 of the sample tree: bytes 16 to 65536. -/
def sampleNode2 : Node :=
  { id := NodeID.id 2, parent := some NodeID.root, children := [], attributes := [],
    span := some (16, 65536), fetched := false }

/-- Node 3 of the sample tree: bytes 4 to 8, under node 1. -/
def sampleNode3 : Node :=
  { id := NodeID.id 3, parent := some (NodeID.id 1), children := [], attributes := [],
    span := some (4, 8), fetched := false }

/-- The sample node tree: the root, node 1 and node 2 under it, node 3 under node 1. -/
def sampleTree : NodeTree :=
  { nodes := [sampleRootNode, sampleNode1, sampleNode2, sampleNode3] }

/-- The answers of `Node::index()` on the sample tree: the position of each node among
the children of its parent. -/
def samplePosition (n : Node) : Int :=
  if n.id = NodeID.id 2 then 1 else 0

/-- A model over the sample tree. -/
def sampleModel : NodeTreeModelBase :=
  { node_tree_ := sampleTree, root_ := NodeID.root }

end client

namespace util
namespace settings
namespace shortcuts

/-! ## Keyboard shortcuts (`src/util/settings/shortcuts.cc`)

A `ShortcutsItem*` is an address; the model holds the item that lives at each address.
The items are never freed while the model lives.  The strings shown for the shortcuts,
the `QAction` lists and the `dataChanged` signals take no part in the functions below and
are left out. -/

/-- The enum `ShortcutType` (util/settings/shortcuts.h is not among the sources): the
enumerators that the source file names. -/
inductive ShortcutType where
  | EXIT_APPLICATION | OPEN_FILE | NEW_FILE | SHOW_DATABASE | SHOW_LOG | SHOW_OPTIONS
  | SHOW_SHORTCUT_OPTIONS | DOCK_MOVE_TO_TOP | DOCK_MOVE_TO_TOP_MAX | DOCK_SPLIT_HORIZ
  | DOCK_SPLIT_VERT | OPEN_VISUALIZATION | OPEN_HEX | SHOW_NODE_TREE | SHOW_MINIMAP | COPY
  | SHOW_CONNECT_DIALOG | DISCONNECT_FROM_SERVER | KILL_LOCAL_SERVER | SHOW_ABOUT
  | SHOW_ABOUT_QT | CREATE_CHUNK | CREATE_CHILD_CHUNK | GO_TO_ADDRESS | REMOVE_CHUNK
  | SAVE_SELECTION_TO_FILE | HEX_FIND | HEX_FIND_NEXT | VISUALIZATION_DIGRAM
  | VISUALIZATION_TRIGRAM | VISUALIZATION_LAYERED_DIGRAM | VISUALIZATION_OPTIONS
  | TRIGRAM_CUBE | TRIGRAM_CYLINDER | TRIGRAM_SPHERE | VISUALIZATION_MANIPULATOR_SPIN
  | VISUALIZATION_MANIPULATOR_TRACKBALL | VISUALIZATION_MANIPULATOR_FREE
  deriving DecidableEq, Repr

/-- A `QKeySequence` of Qt: the key codes of the sequence; the empty sequence has none. -/
abbrev QKeySequence := List Nat

/-- The member fields of `ShortcutsItem` that the model functions read; `type_` is not
set in a category. -/
structure ShortcutsItem where
  name_ : String
  display_name_ : String
  parent_ : Option Nat
  children : List Nat
  shortcuts_ : List QKeySequence
  conflict_ : Bool
  type_ : Option ShortcutType
  is_category_ : Bool
  deriving DecidableEq, Repr

/-- The constructor `ShortcutsItem(display_name, parent)` of a category; the root is
made by it without a name and without a parent. -/
def ShortcutsItem.category (display_name : String) (parent : Option Nat) : ShortcutsItem :=
  { name_ := "", display_name_ := display_name, parent_ := parent, children := [],
    shortcuts_ := [], conflict_ := false, type_ := none, is_category_ := true }

/-- The constructor `ShortcutsItem(name, display_name, parent, type)`. -/
def ShortcutsItem.shortcut (name display_name : String) (parent : Option Nat)
    (type : ShortcutType) : ShortcutsItem :=
  { name_ := name, display_name_ := display_name, parent_ := parent, children := [],
    shortcuts_ := [], conflict_ := false, type_ := some type, is_category_ := false }

/-- The function `ShortcutsItem::deleteShortcut`: the item afterwards and the value
returned. -/
def ShortcutsItem.deleteShortcut (it : ShortcutsItem) (shortcut : QKeySequence) :
    ShortcutsItem × Bool :=
  ({ it with shortcuts_ := it.shortcuts_.filter (fun s => decide (s ≠ shortcut)) },
    decide (shortcut ∈ it.shortcuts_))

/-- The function `ShortcutsItem::addShortcut`: the item afterwards and the value
returned. -/
def ShortcutsItem.addShortcut (it : ShortcutsItem) (shortcut : QKeySequence) :
    ShortcutsItem × Bool :=
  if shortcut ∉ it.shortcuts_ then
    ({ it with shortcuts_ := it.shortcuts_ ++ [shortcut] }, true)
  else (it, false)

/-- The member fields of `ShortcutsModel`, with the items behind the pointers: `items`
gives the item at each address and `allocated` counts the items created. -/
structure ShortcutsModel where
  items : Nat → ShortcutsItem
  allocated : Nat
  root_ : Nat
  type_to_shortcut_ : ShortcutType → Option Nat
  sequence_to_shortcut_ : QKeySequence → Option (List Nat)

/-- The model with the item at one address replaced. -/
def ShortcutsModel.setItem (m : ShortcutsModel) (p : Nat) (it : ShortcutsItem) :
    ShortcutsModel :=
  { m with items := fun q => if q = p then it else m.items q }

/-- The call `item->setConflict(conflict)` on the item at address `p`. -/
def ShortcutsModel.setConflict (m : ShortcutsModel) (p : Nat) (conflict : Bool) :
    ShortcutsModel :=
  m.setItem p { m.items p with conflict_ := conflict }

/-- The list `sequence_to_shortcut_[shortcut]`, empty when the map has no such key. -/
def ShortcutsModel.seq (m : ShortcutsModel) (shortcut : QKeySequence) : List Nat :=
  (m.sequence_to_shortcut_ shortcut).getD []

/-- The assignment of a list to `sequence_to_shortcut_[shortcut]`. -/
def ShortcutsModel.setSeq (m : ShortcutsModel) (shortcut : QKeySequence) (l : List Nat) :
    ShortcutsModel :=
  { m with sequence_to_shortcut_ :=
      fun s => if s = shortcut then some l else m.sequence_to_shortcut_ s }

/-- The function `ShortcutsModel::checkIfConflicts`. -/
def ShortcutsModel.checkIfConflicts (m : ShortcutsModel) (item : Nat) : Bool :=
  (m.items item).shortcuts_.any (fun s => decide ((m.seq s).length > 1))

/-- The function `ShortcutsModel::addShortcut`. -/
def ShortcutsModel.addShortcut (m : ShortcutsModel) (type : ShortcutType)
    (shortcut : QKeySequence) : ShortcutsModel :=
  if shortcut.isEmpty then m
  else
    match m.type_to_shortcut_ type with
    | none => m
    | some item =>
      let r := (m.items item).addShortcut shortcut
      if r.2 then
        let m1 := m.setItem item r.1
        let m2 :=
          if (m1.sequence_to_shortcut_ shortcut).isSome ∧ item ∉ m1.seq shortcut then
            if (m1.seq shortcut).length > 0 then
              let m3 :=
                match m1.seq shortcut with
                | [first] => m1.setConflict first true
                | _ => m1
              m3.setConflict item true
            else m1
          else m1
        m2.setSeq shortcut (m2.seq shortcut ++ [item])
      else m

/-- The function `ShortcutsModel::removeShortcut`. -/
def ShortcutsModel.removeShortcut (m : ShortcutsModel) (type : ShortcutType)
    (shortcut : QKeySequence) : ShortcutsModel :=
  if shortcut.isEmpty then m
  else
    match m.type_to_shortcut_ type with
    | none => m
    | some item =>
      let r := (m.items item).deleteShortcut shortcut
      let m1 := m.setItem item r.1
      if r.2 then
        let m2 := m1.setSeq shortcut ((m1.seq shortcut).filter (fun p => decide (p ≠ item)))
        let m3 :=
          match m2.seq shortcut with
          | [first] => if !m2.checkIfConflicts first then m2.setConflict first false else m2
          | _ => m2
        if !m3.checkIfConflicts item then m3.setConflict item false else m3
      else m1

/-- The function `QList::indexOf` of Qt: the first position of the value, or -1. -/
def qIndexOf (l : List Nat) (x : Nat) : Int :=
  if x ∈ l then (l.indexOf x : Int) else -1

/-- The function `ShortcutsModel::itemFromIndex`. -/
def ShortcutsModel.itemFromIndex (m : ShortcutsModel) (index : client.QModelIndex Nat) :
    Option Nat :=
  if !index.isValid then some m.root_ else index.internalPointer

/-- The function `ShortcutsModel::rowCount`; the item pointer is dereferenced without a
check. -/
def ShortcutsModel.rowCount (m : ShortcutsModel) (parent : client.QModelIndex Nat) :
    Option Int :=
  if parent.column > 0 then some 0
  else
    match m.itemFromIndex parent with
    | none => none
    | some parentItem => some (client.toInt (m.items parentItem).children.length)

/-- The function `ShortcutsModel::columnCount`. -/
def ShortcutsModel.columnCount (_m : ShortcutsModel) (_parent : client.QModelIndex Nat) :
    Int :=
  2

/-- The function `QAbstractItemModel::hasIndex` of Qt. -/
def ShortcutsModel.hasIndex (m : ShortcutsModel) (row column : Int)
    (parent : client.QModelIndex Nat) : Option Bool :=
  if row < 0 ∨ column < 0 then some false
  else
    match m.rowCount parent with
    | none => none
    | some rows => some (decide (row < rows) && decide (column < m.columnCount parent))

/-- The function `ShortcutsModel::index`; `QList::value(row)` is the null pointer when
the row is not a position of the list. -/
def ShortcutsModel.index (m : ShortcutsModel) (row column : Int)
    (parent : client.QModelIndex Nat) : Option (client.QModelIndex Nat) :=
  match m.hasIndex row column parent with
  | none => none
  | some false => some client.QModelIndex.invalid
  | some true =>
    match m.itemFromIndex parent with
    | none => none
    | some parentItem =>
      match (m.items parentItem).children[row.toNat]? with
      | some child => some (client.createIndex row column (some child))
      | none => some client.QModelIndex.invalid

/-- The function `ShortcutsModel::parent`; the pointers `child` and `parentItem` are
dereferenced without a check. -/
def ShortcutsModel.parent (m : ShortcutsModel) (index : client.QModelIndex Nat) :
    Option (client.QModelIndex Nat) :=
  if !index.isValid then some client.QModelIndex.invalid
  else
    match index.internalPointer with
    | none => none
    | some child =>
      if (m.items child).parent_ = some m.root_ then some client.QModelIndex.invalid
      else
        match (m.items child).parent_ with
        | none => none
        | some parentItem =>
          some (client.createIndex (qIndexOf (m.items parentItem).children child) 0
            (some parentItem))

/-- The function `ShortcutsModel::indexFromItem`. -/
def ShortcutsModel.indexFromItem (m : ShortcutsModel) (item : Nat) :
    Option (client.QModelIndex Nat) :=
  match (m.items item).parent_ with
  | none => none
  | some parent =>
    some (client.createIndex (qIndexOf (m.items parent).children item) 0 (some parent))

/-- The expression `new ShortcutsItem(...)`: the model with the new item and its
address. -/
def ShortcutsModel.newItem (m : ShortcutsModel) (it : ShortcutsItem) :
    ShortcutsModel × Nat :=
  ({ m.setItem m.allocated it with allocated := m.allocated + 1 }, m.allocated)

/-- The statement `parent->children.append(item)`. -/
def ShortcutsModel.appendChild (m : ShortcutsModel) (parent item : Nat) : ShortcutsModel :=
  m.setItem parent { m.items parent with children := (m.items parent).children ++ [item] }

/-- The function `ShortcutsModel::addCategory`. -/
def ShortcutsModel.addCategory (m : ShortcutsModel) (name : String) (parent : Nat) :
    ShortcutsModel × Nat :=
  let r := m.newItem (ShortcutsItem.category name (some parent))
  (r.1.appendChild parent r.2, r.2)

/-- The function `ShortcutsModel::addShortcutType`; `getShortcuts` gives the key
sequences that the settings hold for each type. -/
def ShortcutsModel.addShortcutType (m : ShortcutsModel)
    (getShortcuts : ShortcutType → List QKeySequence) (type : ShortcutType) (parent : Nat)
    (name display_name : String) : ShortcutsModel × Nat :=
  let r := m.newItem
    (if display_name.isEmpty then ShortcutsItem.shortcut name name (some parent) type
     else ShortcutsItem.shortcut name display_name (some parent) type)
  let m1 : ShortcutsModel :=
    { r.1 with type_to_shortcut_ :=
        fun t => if t = type then some r.2 else r.1.type_to_shortcut_ t }
  let m2 := (getShortcuts type).foldl (fun acc shortcut => acc.addShortcut type shortcut) m1
  (m2.appendChild parent r.2, r.2)

/-- The model in which only the root item exists, at address 0. -/
def ShortcutsModel.rootOnly : ShortcutsModel :=
  { items := fun _ => ShortcutsItem.category "" none
    allocated := 1
    root_ := 0
    type_to_shortcut_ := fun _ => none
    sequence_to_shortcut_ := fun _ => none }

/-- The constructor `ShortcutsModel::ShortcutsModel`. -/
def ShortcutsModel.new (gs : ShortcutType → List QKeySequence) : ShortcutsModel :=
  let m := ShortcutsModel.rootOnly
  let root := m.root_
  let g := m.addCategory "Global" root
  let global := g.2
  let m := g.1
  let m := (m.addShortcutType gs .EXIT_APPLICATION global "E&xit" "Exit").1
  let m := (m.addShortcutType gs .OPEN_FILE global "&Open..." "Open file").1
  let m := (m.addShortcutType gs .SHOW_DATABASE global "Show database view" "").1
  let m := (m.addShortcutType gs .SHOW_LOG global "Show log view" "").1
  let m := (m.addShortcutType gs .SHOW_OPTIONS global "&Options"
    "Show the dialog to select applications options").1
  let m := (m.addShortcutType gs .SHOW_SHORTCUT_OPTIONS global "Keyboard shortcuts"
    "Show the dialog to customize keyboard shortcuts").1
  let d := m.addCategory "Docks" global
  let docks := d.2
  let m := d.1
  let m := (m.addShortcutType gs .DOCK_MOVE_TO_TOP docks "Move to new top level window"
    "").1
  let m := (m.addShortcutType gs .DOCK_MOVE_TO_TOP_MAX docks
    "Move to new top level window and maximize" "").1
  let m := (m.addShortcutType gs .DOCK_SPLIT_HORIZ docks "Split horizontally" "").1
  let m := (m.addShortcutType gs .DOCK_SPLIT_VERT docks "Split vertically" "").1
  let m := (m.addShortcutType gs .OPEN_VISUALIZATION global "&Visualization"
    "Open visualization for current file").1
  let m := (m.addShortcutType gs .OPEN_HEX global "Show &hex editor"
    "Open hex editor for current file").1
  let m := (m.addShortcutType gs .SHOW_NODE_TREE global "&Node tree"
    "Open/close node tree for current dock").1
  let m := (m.addShortcutType gs .SHOW_MINIMAP global "&Minimap"
    "Open/close minimap for current dock").1
  let m := (m.addShortcutType gs .COPY global "&Copy" "Copy").1
  let n := m.addCategory "Network" root
  let network := n.2
  let m := n.1
  let m := (m.addShortcutType gs .SHOW_CONNECT_DIALOG network "Connect..."
    "Show connect dialog").1
  let m := (m.addShortcutType gs .DISCONNECT_FROM_SERVER network "Disconnect"
    "Disconnect from current server").1
  let m := (m.addShortcutType gs .KILL_LOCAL_SERVER network "Kill locally created server"
    "").1
  let c := m.addCategory "Miscellaneous" root
  let misc := c.2
  let m := c.1
  let m := (m.addShortcutType gs .SHOW_ABOUT misc "&About"
    "Show the application's About box").1
  let m := (m.addShortcutType gs .SHOW_ABOUT_QT misc "About &Qt"
    "Show the Qt library's About box").1
  let h := m.addCategory "HexEdit" root
  let hex := h.2
  let m := h.1
  let m := (m.addShortcutType gs .CREATE_CHUNK hex "&Create chunk" "Create chunk").1
  let m := (m.addShortcutType gs .CREATE_CHILD_CHUNK hex "&Create child chunk"
    "Create child chunk").1
  let m := (m.addShortcutType gs .GO_TO_ADDRESS hex "&Go to address" "Go to address").1
  let m := (m.addShortcutType gs .REMOVE_CHUNK hex "Remove chunk" "").1
  let m := (m.addShortcutType gs .SAVE_SELECTION_TO_FILE hex "&Save to file"
    "Save selection to file").1
  let m := (m.addShortcutType gs .HEX_FIND hex "&Find/Replace"
    "Show the dialog for finding and replacing").1
  let m := (m.addShortcutType gs .HEX_FIND_NEXT hex "Find &next" "Find next").1
  let v := m.addCategory "Visualization" root
  let visualization := v.2
  let m := v.1
  let m := (m.addShortcutType gs .VISUALIZATION_DIGRAM visualization "&Digram"
    "Change visualizaton mode to digram").1
  let m := (m.addShortcutType gs .VISUALIZATION_TRIGRAM visualization "&Trigram"
    "Change visualizaton mode to trigram").1
  let m := (m.addShortcutType gs .VISUALIZATION_LAYERED_DIGRAM visualization
    "&Layered Digram" "Change visualizaton mode to layered digram").1
  let m := (m.addShortcutType gs .VISUALIZATION_OPTIONS visualization "More options"
    "Show visualization options").1
  let t := m.addCategory "3D Visualization" visualization
  let three_d := t.2
  let m := t.1
  let m := (m.addShortcutType gs .TRIGRAM_CUBE three_d
    "Change 3D visualization display mode to cube" "").1
  let m := (m.addShortcutType gs .TRIGRAM_CYLINDER three_d
    "Change 3D visualization display mode to cylinder" "").1
  let m := (m.addShortcutType gs .TRIGRAM_SPHERE three_d
    "Change 3D visualization display mode to sphere" "").1
  let m := (m.addShortcutType gs .VISUALIZATION_MANIPULATOR_SPIN three_d "Spin manipulator"
    "Switch to spin manipulator").1
  let m := (m.addShortcutType gs .VISUALIZATION_MANIPULATOR_TRACKBALL three_d
    "Trackball manipulator" "Switch to trackball manipulator").1
  let m := (m.addShortcutType gs .VISUALIZATION_MANIPULATOR_FREE three_d "Free manipulator"
    "Switch to free manipulator").1
  m

/-- One call of `addShortcut` or `removeShortcut`. -/
inductive ShortcutsCall where
  | addShortcut (type : ShortcutType) (shortcut : QKeySequence)
  | removeShortcut (type : ShortcutType) (shortcut : QKeySequence)
  deriving DecidableEq, Repr

/-- The model after one call. -/
def ShortcutsModel.call (m : ShortcutsModel) : ShortcutsCall → ShortcutsModel
  | .addShortcut type shortcut => m.addShortcut type shortcut
  | .removeShortcut type shortcut => m.removeShortcut type shortcut

/-- The model after a sequence of calls, in order. -/
def ShortcutsModel.calls (m : ShortcutsModel) (cs : List ShortcutsCall) : ShortcutsModel :=
  cs.foldl ShortcutsModel.call m

/-- No shortcut is assigned: every item has an empty shortcut list and no conflict flag,
and no key sequence is mapped to an item. -/
def ShortcutsModel.Unassigned (m : ShortcutsModel) : Prop :=
  (∀ i, (m.items i).shortcuts_ = [] ∧ (m.items i).conflict_ = false)
  ∧ ∀ s, m.seq s = []

/-- An item conflicts: a key sequence of its shortcut list is also in the shortcut list
of a different item. -/
def ShortcutsModel.Conflicts (m : ShortcutsModel) (i : Nat) : Prop :=
  ∃ s ∈ (m.items i).shortcuts_, ∃ j, j ≠ i ∧ s ∈ (m.items j).shortcuts_

/-- The map from key sequences to items agrees with the shortcut lists of the items,
without repetition, and the conflict flags are exact; `sh` gives the shortcut list and
`flag` the conflict flag of the item at each address. -/
def ConsistentData (sh : Nat → List QKeySequence) (seq : QKeySequence → List Nat)
    (flag : Nat → Bool) : Prop :=
  (∀ s i, i ∈ seq s ↔ s ∈ sh i)
  ∧ (∀ s, (seq s).Nodup)
  ∧ ∀ i, flag i = true ↔ ∃ s ∈ sh i, ∃ j, j ≠ i ∧ s ∈ sh j

/-- The consistency of the data of a model. -/
def ShortcutsModel.Consistent (m : ShortcutsModel) : Prop :=
  ConsistentData (fun i => (m.items i).shortcuts_) m.seq (fun i => (m.items i).conflict_)

/-- The settings with no shortcut saved, and the model constructed from them. -/
def sampleShortcuts : ShortcutsModel :=
  ShortcutsModel.new (fun _ => [])

/-- Sample settings: Ctrl+C (key code 67108931) is saved both for COPY and for
CREATE_CHUNK, and nothing else. -/
def sampleSettings (type : ShortcutType) : List QKeySequence :=
  if type = ShortcutType.COPY ∨ type = ShortcutType.CREATE_CHUNK then [[67108931]] else []

end shortcuts
end settings
end util

namespace client

/-! ## Basic facts -/

theorem statusSignals_append (xs ys : List Effect) :
    statusSignals (xs ++ ys) = statusSignals xs ++ statusSignals ys := by
  simp [statusSignals, List.filterMap_append]

theorem statusSignals_nil : statusSignals [] = [] := rfl

theorem statusSignals_cons_signal (s : ConnectionStatus) (xs : List Effect) :
    statusSignals (Effect.connectionStatusChanged s :: xs) = s :: statusSignals xs := rfl

theorem statusSignals_cons_other (e : Effect) (xs : List Effect)
    (h : ∀ s, e ≠ Effect.connectionStatusChanged s) :
    statusSignals (e :: xs) = statusSignals xs := by
  cases e <;> first | rfl | exact absurd rfl (h _)

theorem getListCalls_nil : getListCalls [] = [] := rfl

theorem getListCalls_append (xs ys : List Effect) :
    getListCalls (xs ++ ys) = getListCalls xs ++ getListCalls ys := by
  simp [getListCalls, List.filterMap_append]

theorem getListCalls_cons_call (n : NodeID) (b : Bool) (xs : List Effect) :
    getListCalls (Effect.getList n b :: xs) = (n, b) :: getListCalls xs := rfl

theorem getListCalls_cons_other (e : Effect) (xs : List Effect)
    (h : ∀ n b, e ≠ Effect.getList n b) :
    getListCalls (e :: xs) = getListCalls xs := by
  cases e <;> first | rfl | exact absurd rfl (h _ _)

theorem getListCalls_logLine (c : NetworkClient) (text : String) :
    getListCalls (logLine c text) = [] := by
  unfold logLine
  split <;> rfl

theorem getListCalls_setConnectionStatus (c : NetworkClient) (t : ConnectionStatus) :
    getListCalls (setConnectionStatus c t).2 = [] := by
  unfold setConnectionStatus
  split
  · simp only [getListCalls_append, getListCalls_logLine]
    rfl
  · rfl

theorem statusSignals_logLine (c : NetworkClient) (text : String) :
    statusSignals (logLine c text) = [] := by
  unfold logLine
  split <;> rfl

theorem setConnectionStatus_status (c : NetworkClient) (t : ConnectionStatus) :
    (setConnectionStatus c t).1.status_ = t := by
  unfold setConnectionStatus
  split
  · rfl
  · rename_i h
    simpa using h

theorem setConnectionStatus_state (c : NetworkClient) (t : ConnectionStatus) :
    (setConnectionStatus c t).1 = { c with status_ := t } := by
  unfold setConnectionStatus
  split
  · rfl
  · rename_i h
    have h2 : c.status_ = t := by simpa using h
    cases c
    simp_all

theorem setConnectionStatus_signals (c : NetworkClient) (t : ConnectionStatus) :
    statusSignals (setConnectionStatus c t).2 = if c.status_ ≠ t then [t] else [] := by
  unfold setConnectionStatus
  split
  · simp only [statusSignals_append, statusSignals_logLine]
    rfl
  · rfl

theorem lookup_connected :
    message_handlers_.lookup "connected" = some MessageHandler.handleConnectedMessage := by
  decide

theorem lookup_proto_error :
    message_handlers_.lookup "proto_error" = some MessageHandler.handleProtoErrorMessage := by
  decide

theorem lookup_connection_error :
    message_handlers_.lookup "connection_error"
      = some MessageHandler.handleConnErrorMessage := by
  decide

theorem disconnect_state (c : NetworkClient) :
    (disconnect c).1 = { c with status_ := ConnectionStatus.NotConnected } := by
  simp [disconnect, setConnectionStatus_state]

theorem disconnect_signals (c : NetworkClient) :
    statusSignals (disconnect c).2
      = if c.status_ ≠ ConnectionStatus.NotConnected then [ConnectionStatus.NotConnected]
        else [] := by
  unfold disconnect
  simp only [statusSignals_append, statusSignals_logLine, setConnectionStatus_signals]
  cases (setConnectionStatus c ConnectionStatus.NotConnected).1.client_socket_ <;>
    simp [statusSignals]

theorem handleProtoErrorMessage_state (c : NetworkClient) (tag code text : String) :
    (handleProtoErrorMessage c ⟨tag, MsgBody.MsgProtoError code text⟩).1
      = (disconnect c).1 := rfl

theorem handleConnErrorMessage_state (c : NetworkClient) (tag code text : String) :
    (handleConnErrorMessage c ⟨tag, MsgBody.MsgConnectionError code text⟩).1
      = (disconnect c).1 := rfl

theorem dispatch_proto_error (c : NetworkClient) (code text : String) :
    dispatch c ⟨"proto_error", MsgBody.MsgProtoError code text⟩
      = ((handleProtoErrorMessage c ⟨"proto_error", MsgBody.MsgProtoError code text⟩).1,
         (handleProtoErrorMessage c ⟨"proto_error", MsgBody.MsgProtoError code text⟩).2
           ++ [Effect.messageReceived ⟨"proto_error", MsgBody.MsgProtoError code text⟩]) := by
  simp only [dispatch, lookup_proto_error, invokeHandler]

theorem dispatch_connection_error (c : NetworkClient) (code text : String) :
    dispatch c ⟨"connection_error", MsgBody.MsgConnectionError code text⟩
      = ((handleConnErrorMessage c
            ⟨"connection_error", MsgBody.MsgConnectionError code text⟩).1,
         (handleConnErrorMessage c
            ⟨"connection_error", MsgBody.MsgConnectionError code text⟩).2
           ++ [Effect.messageReceived
                ⟨"connection_error", MsgBody.MsgConnectionError code text⟩]) := by
  simp only [dispatch, lookup_connection_error, invokeHandler]

theorem dispatch_connected (c : NetworkClient) (msg : MsgpackMsg)
    (h : msg.object_type = "connected") :
    dispatch c msg
      = ((handleConnectedMessage c msg).1,
         (handleConnectedMessage c msg).2 ++ [Effect.messageReceived msg]) := by
  simp only [dispatch, h, lookup_connected, invokeHandler]

theorem socketDisconnected_status (c : NetworkClient) :
    (socketDisconnected c).1.status_ = ConnectionStatus.NotConnected := by
  unfold socketDisconnected
  simp only [setConnectionStatus_state]
  split <;> rfl

theorem socketError_state (c : NetworkClient) (code : Int) (err : String) :
    (socketError c code err).1 = { c with status_ := ConnectionStatus.NotConnected } := by
  simp [socketError, setConnectionStatus_state]

/-! ## Claims -/

/-- C1: from every client state, each of the five session-ending events (a call of
disconnect, the socketError slot, the socketDisconnected slot, the dispatch of a
proto_error message, the dispatch of a connection_error message) leaves
connectionStatus equal to NotConnected. -/
theorem C1_session_end_not_connected (c : NetworkClient) :
    connectionStatus (disconnect c).1 = ConnectionStatus.NotConnected
    ∧ (∀ (code : Int) (err : String),
        connectionStatus (socketError c code err).1 = ConnectionStatus.NotConnected)
    ∧ connectionStatus (socketDisconnected c).1 = ConnectionStatus.NotConnected
    ∧ (∀ code text : String,
        connectionStatus (dispatch c ⟨"proto_error", MsgBody.MsgProtoError code text⟩).1
          = ConnectionStatus.NotConnected)
    ∧ (∀ code text : String,
        connectionStatus
            (dispatch c ⟨"connection_error", MsgBody.MsgConnectionError code text⟩).1
          = ConnectionStatus.NotConnected) := by
  refine ⟨?_, ?_, ?_, ?_, ?_⟩
  · simp [connectionStatus, disconnect_state]
  · intro code err
    simp [connectionStatus, socketError_state]
  · exact socketDisconnected_status c
  · intro code text
    simp [connectionStatus, dispatch_proto_error, handleProtoErrorMessage_state,
      disconnect_state]
  · intro code text
    simp [connectionStatus, dispatch_connection_error, handleConnErrorMessage_state,
      disconnect_state]

theorem connect_notConnected_state (c : NetworkClient) (a : ConnectArgs) (uninit : Nat → UInt8)
    (h : c.status_ = ConnectionStatus.NotConnected) :
    (connect c a uninit).1 =
      { c with
        server_name_ := a.server_name
        server_port_ := a.server_port
        client_interface_name_ := a.client_interface_name
        client_name_ := a.client_name
        client_version_ := a.client_version
        client_description_ := a.client_description
        client_type_ := a.client_type
        quit_on_close_ := a.quit_on_close
        authentication_key_ :=
          zeroFill (QByteArray.resize a.authentication_key 64 uninit)
            a.authentication_key.length 64
        client_socket_ := some c.sockets_created
        sockets_created := c.sockets_created + 1
        status_ := ConnectionStatus.Connecting } := by
  simp [connect, h, setConnectionStatus_state]

theorem connect_notConnected_signals (c : NetworkClient) (a : ConnectArgs)
    (uninit : Nat → UInt8) (h : c.status_ = ConnectionStatus.NotConnected) :
    statusSignals (connect c a uninit).2 = [ConnectionStatus.Connecting] := by
  simp [connect, h, statusSignals_append, statusSignals_logLine,
    setConnectionStatus_signals, statusSignals_cons_other, statusSignals_nil]

theorem connect_getListCalls (c : NetworkClient) (a : ConnectArgs) (uninit : Nat → UInt8) :
    getListCalls (connect c a uninit).2 = [] := by
  unfold connect
  simp only []
  split
  · simp [getListCalls_append, getListCalls_logLine, getListCalls_setConnectionStatus,
      getListCalls_cons_other, getListCalls_nil]
  · rfl

theorem sendMessage_state (c : NetworkClient) (msg : MsgpackMsg) (isValid : Bool) :
    (sendMessage c msg isValid).1 = c := by
  unfold sendMessage
  split
  · split <;> rfl
  · rfl

theorem sendMessage_signals (c : NetworkClient) (msg : MsgpackMsg) (isValid : Bool) :
    statusSignals (sendMessage c msg isValid).2 = [] := by
  unfold sendMessage
  split
  · split <;> rfl
  · rfl

theorem sendMessage_getListCalls (c : NetworkClient) (msg : MsgpackMsg) (isValid : Bool) :
    getListCalls (sendMessage c msg isValid).2 = [] := by
  unfold sendMessage
  split
  · split <;> rfl
  · rfl

theorem socketConnected_of_socket (c : NetworkClient) (isValid : Bool) (sock : Nat)
    (h : c.client_socket_ = some sock) :
    socketConnected c isValid
      = some ({ c with node_tree_ := c.node_tree_.reset },
          logLine c ("NetworkClient: TCP socket connected - sending an "
              ++ "authentication key and \"connect\" message.\n")
            ++ [Effect.write sock (WireData.raw c.authentication_key_)]
            ++ (if isValid then [Effect.write sock (WireData.packed (msgConnect c))] else [])
            ++ [Effect.treeReset]) := by
  cases isValid <;> simp [socketConnected, h, sendMsgConnect, sendMessage]

theorem socketConnected_quiet (c : NetworkClient) (isValid : Bool)
    (r : NetworkClient × List Effect) (h : socketConnected c isValid = some r) :
    r.1 = { c with node_tree_ := c.node_tree_.reset }
    ∧ statusSignals r.2 = [] ∧ getListCalls r.2 = [] := by
  rcases Option.eq_none_or_eq_some c.client_socket_ with hs | ⟨sock, hs⟩
  · simp [socketConnected, hs] at h
  · rw [socketConnected_of_socket c isValid sock hs] at h
    injection h with h
    subst h
    refine ⟨rfl, ?_, ?_⟩
    · cases isValid <;>
        simp [statusSignals_append, statusSignals_logLine, statusSignals_cons_other,
          statusSignals_nil]
    · cases isValid <;>
        simp [getListCalls_append, getListCalls_logLine, getListCalls_cons_other,
          getListCalls_nil]

theorem run_nil (c : NetworkClient) : run c [] = some (c, []) := rfl

theorem run_cons_some (c : NetworkClient) (ev : Event) (rest : List Event)
    (r r2 : NetworkClient × List Effect)
    (h : step c ev = some r) (h2 : run r.1 rest = some r2) :
    run c (ev :: rest) = some (r2.1, r.2 ++ r2.2) := by
  simp only [run, h, h2]

theorem handleConnectedMessage_connecting (c : NetworkClient) (msg : MsgpackMsg)
    (h : c.status_ = ConnectionStatus.Connecting) :
    (handleConnectedMessage c msg).1 = { c with status_ := ConnectionStatus.Connected }
    ∧ statusSignals (handleConnectedMessage c msg).2 = [ConnectionStatus.Connected]
    ∧ getListCalls (handleConnectedMessage c msg).2
        = match c.node_tree_.node NodeID.root with
          | some root => [(root.id, true)]
          | none => [] := by
  refine ⟨?_, ?_, ?_⟩
  · simp [handleConnectedMessage, connectionStatus, h, setConnectionStatus_state]
  · simp only [handleConnectedMessage, connectionStatus, h, ne_eq, not_true_eq_false,
      if_false, statusSignals_append, statusSignals_logLine, setConnectionStatus_signals]
    cases (NodeTree.node (setConnectionStatus c ConnectionStatus.Connected).1.node_tree_
      NodeID.root) <;> simp [statusSignals_cons_other, statusSignals_nil]
  · simp only [handleConnectedMessage, connectionStatus, h, ne_eq, not_true_eq_false,
      if_false, getListCalls_append, getListCalls_logLine,
      getListCalls_setConnectionStatus, setConnectionStatus_state]
    cases (NodeTree.node c.node_tree_ NodeID.root) <;>
      simp [getListCalls_cons_call, getListCalls_nil]

theorem reset_node_root (t : NodeTree) :
    t.reset.node NodeID.root = some Node.freshRoot := by
  simp [NodeTree.reset, NodeTree.node, Node.freshRoot]

/-- C2: from a client whose status is NotConnected (as a freshly constructed one is),
the events connect, socketConnected and the dispatch of a connected message are all
defined and end with status Connected; connectionStatusChanged is emitted exactly
twice, first with Connecting and then with Connected, and getList(true) is called
exactly once, on the root node. -/
theorem C2_handshake_reaches_connected (c : NetworkClient) (a : ConnectArgs)
    (uninit : Nat → UInt8) (isValid : Bool) (msg : MsgpackMsg)
    (hc : c.status_ = ConnectionStatus.NotConnected)
    (hm : msg.object_type = "connected") :
    ∃ c3 effs,
      run c [Event.connect a uninit, Event.socketConnected isValid, Event.message msg]
        = some (c3, effs)
      ∧ connectionStatus c3 = ConnectionStatus.Connected
      ∧ statusSignals effs = [ConnectionStatus.Connecting, ConnectionStatus.Connected]
      ∧ getListCalls effs = [(NodeID.root, true)] := by
  have h1 := connect_notConnected_state c a uninit hc
  have h2 := connect_notConnected_signals c a uninit hc
  have h3 := connect_getListCalls c a uninit
  have hs : (connect c a uninit).1.client_socket_ = some c.sockets_created := by
    rw [h1]
  have hst : (connect c a uninit).1.status_ = ConnectionStatus.Connecting := by
    rw [h1]
  have hsc := socketConnected_of_socket (connect c a uninit).1 isValid _ hs
  obtain ⟨-, hsig2, hget2⟩ := socketConnected_quiet _ _ _ hsc
  obtain ⟨hd1, hd2, hd3⟩ := handleConnectedMessage_connecting
    { (connect c a uninit).1 with node_tree_ := (connect c a uninit).1.node_tree_.reset }
    msg hst
  have hrun := run_cons_some c (Event.connect a uninit) _ _ _ rfl
    (run_cons_some _ (Event.socketConnected isValid) _ _ _ hsc
      (run_cons_some _ (Event.message msg) [] _ _ rfl (run_nil _)))
  refine ⟨_, _, hrun, ?_, ?_, ?_⟩
  · simp only [dispatch_connected _ _ hm, hd1, connectionStatus]
  · simp only [dispatch_connected _ _ hm, statusSignals_append, h2, hsig2, hd2]
    simp [statusSignals_cons_other, statusSignals_nil]
  · simp only [dispatch_connected _ _ hm, getListCalls_append, h3, hget2, hd3,
      reset_node_root]
    simp [getListCalls_cons_other, getListCalls_nil, Node.freshRoot]


/-- Witness of C2: the fresh client with an empty node tree, the sample arguments and a
connected message. -/
theorem C2_handshake_reaches_connected_witness :
    sampleFresh.status_ = ConnectionStatus.NotConnected
    ∧ ∃ c3 effs,
      run sampleFresh [Event.connect sampleArgs (fun _ => 170), Event.socketConnected true,
          Event.message { object_type := "connected", body := MsgBody.MsgConnected }]
        = some (c3, effs)
      ∧ connectionStatus c3 = ConnectionStatus.Connected
      ∧ statusSignals effs = [ConnectionStatus.Connecting, ConnectionStatus.Connected]
      ∧ getListCalls effs = [(NodeID.root, true)] :=
  ⟨rfl, C2_handshake_reaches_connected sampleFresh sampleArgs (fun _ => 170) true
    { object_type := "connected", body := MsgBody.MsgConnected } rfl rfl⟩

theorem handleConnectedMessage_not_connecting (c : NetworkClient) (msg : MsgpackMsg)
    (h : c.status_ ≠ ConnectionStatus.Connecting) :
    handleConnectedMessage c msg
      = (c, logLine c ("NetworkClient: Very confusing... "
          ++ "Received \"connected\" message while already connected.\n")) := by
  simp [handleConnectedMessage, connectionStatus, h]

/-- C3: when the status is not Connecting (it is NotConnected or Connected), the
dispatch of a connected message leaves the whole client state, and so the status,
as it was, emits no connectionStatusChanged and calls getList on no node. -/
theorem C3_connected_message_ignored (c : NetworkClient) (msg : MsgpackMsg)
    (hc : c.status_ ≠ ConnectionStatus.Connecting)
    (hm : msg.object_type = "connected") :
    (dispatch c msg).1 = c
    ∧ connectionStatus (dispatch c msg).1 = connectionStatus c
    ∧ statusSignals (dispatch c msg).2 = []
    ∧ getListCalls (dispatch c msg).2 = [] := by
  rw [dispatch_connected c msg hm, handleConnectedMessage_not_connecting c msg hc]
  refine ⟨rfl, rfl, ?_, ?_⟩
  · simp [statusSignals_append, statusSignals_logLine, statusSignals_cons_other,
      statusSignals_nil]
  · simp [getListCalls_append, getListCalls_logLine, getListCalls_cons_other,
      getListCalls_nil]

/-- Witness of C3: a connected message dispatched to the sample client that is already
Connected. -/
theorem C3_connected_message_ignored_witness :
    sampleConnected.status_ ≠ ConnectionStatus.Connecting
    ∧ (dispatch sampleConnected
        { object_type := "connected", body := MsgBody.MsgConnected }).1 = sampleConnected
    ∧ connectionStatus (dispatch sampleConnected
        { object_type := "connected", body := MsgBody.MsgConnected }).1
        = connectionStatus sampleConnected
    ∧ statusSignals (dispatch sampleConnected
        { object_type := "connected", body := MsgBody.MsgConnected }).2 = []
    ∧ getListCalls (dispatch sampleConnected
        { object_type := "connected", body := MsgBody.MsgConnected }).2 = [] :=
  ⟨by decide, C3_connected_message_ignored sampleConnected
    { object_type := "connected", body := MsgBody.MsgConnected } (by decide) rfl⟩


theorem foldl_set_cons (x : UInt8) (is : List Nat) (l : QByteArray) :
    (is.map Nat.succ).foldl (fun k i => k.set i 0) (x :: l)
      = x :: is.foldl (fun k i => k.set i 0) l := by
  induction is generalizing l with
  | nil => rfl
  | cons i is ih => simp only [List.map_cons, List.foldl_cons, List.set_cons_succ, ih]

theorem range'_succ_start (s n : Nat) :
    List.range' (s + 1) n = (List.range' s n).map Nat.succ := by
  induction n generalizing s with
  | zero => rfl
  | succ n ih => simp only [List.range'_succ, List.map_cons, ih (s + 1)]

theorem zeroFill_junk (junk : QByteArray) :
    (List.range' 0 junk.length).foldl (fun k i => k.set i 0) junk
      = List.replicate junk.length 0 := by
  induction junk with
  | nil => rfl
  | cons j js ih =>
    simp only [List.length_cons, List.range'_succ, List.foldl_cons, List.set_cons_zero,
      List.replicate_succ]
    rw [range'_succ_start 0 js.length, foldl_set_cons, ih]

theorem zeroFill_append (k junk : QByteArray) :
    (List.range' k.length junk.length).foldl (fun k i => k.set i 0) (k ++ junk)
      = k ++ List.replicate junk.length 0 := by
  induction k with
  | nil => simpa using zeroFill_junk junk
  | cons x k ih =>
    simp only [List.length_cons, List.cons_append]
    rw [range'_succ_start k.length junk.length, foldl_set_cons, ih]

theorem padded_key (k : QByteArray) (uninit : Nat → UInt8) :
    zeroFill (QByteArray.resize k 64 uninit) k.length 64
      = (k ++ List.replicate 64 0).take 64 := by
  unfold zeroFill QByteArray.resize
  by_cases h : 64 ≤ k.length
  · have h0 : 64 - k.length = 0 := by omega
    simp only [h, if_true, h0, List.range'_zero, List.foldl_nil]
    rw [List.take_append_of_le_length h]
  · simp only [h, if_false]
    have hl : ((List.range' k.length (64 - k.length)).map uninit).length = 64 - k.length := by
      simp
    have := zeroFill_append k ((List.range' k.length (64 - k.length)).map uninit)
    rw [hl] at this
    rw [this]
    have h1 : k.length ≤ 64 := by omega
    rw [List.take_append_eq_append_take, List.take_of_length_le h1, List.take_replicate]
    congr 2
    omega

theorem connect_while_connected (c : NetworkClient) (a : ConnectArgs) (uninit : Nat → UInt8)
    (h : c.status_ = ConnectionStatus.Connected ∨ c.status_ = ConnectionStatus.Connecting) :
    connect c a uninit =
      ({ c with
          server_name_ := a.server_name
          server_port_ := a.server_port
          client_interface_name_ := a.client_interface_name
          client_name_ := a.client_name
          client_version_ := a.client_version
          client_description_ := a.client_description
          client_type_ := a.client_type
          quit_on_close_ := a.quit_on_close
          authentication_key_ :=
            zeroFill (QByteArray.resize a.authentication_key 64 uninit)
              a.authentication_key.length 64 }, []) := by
  rcases h with h | h <;> simp [connect, h]

/-- C4: when the status is Connected or Connecting, connect with any arguments creates
no socket (no QTcpSocket is constructed, the socket pointer and the number of sockets
created stay as they were), leaves the status unchanged and emits no
connectionStatusChanged. -/
theorem C4_connect_no_duplicate_socket (c : NetworkClient) (a : ConnectArgs)
    (uninit : Nat → UInt8)
    (h : c.status_ = ConnectionStatus.Connected ∨ c.status_ = ConnectionStatus.Connecting) :
    (∀ sock, Effect.newSocket sock ∉ (connect c a uninit).2)
    ∧ (connect c a uninit).1.client_socket_ = c.client_socket_
    ∧ (connect c a uninit).1.sockets_created = c.sockets_created
    ∧ connectionStatus (connect c a uninit).1 = connectionStatus c
    ∧ statusSignals (connect c a uninit).2 = [] := by
  rw [connect_while_connected c a uninit h]
  exact ⟨fun _ => List.not_mem_nil _, rfl, rfl, rfl, rfl⟩

/-- Witness of C4: connect called again on the sample client that is Connected. -/
theorem C4_connect_no_duplicate_socket_witness :
    (sampleConnected.status_ = ConnectionStatus.Connected
      ∨ sampleConnected.status_ = ConnectionStatus.Connecting)
    ∧ (∀ sock, Effect.newSocket sock ∉ (connect sampleConnected sampleArgs (fun _ => 0)).2)
    ∧ (connect sampleConnected sampleArgs (fun _ => 0)).1.client_socket_
        = sampleConnected.client_socket_
    ∧ (connect sampleConnected sampleArgs (fun _ => 0)).1.sockets_created
        = sampleConnected.sockets_created
    ∧ connectionStatus (connect sampleConnected sampleArgs (fun _ => 0)).1
        = connectionStatus sampleConnected
    ∧ statusSignals (connect sampleConnected sampleArgs (fun _ => 0)).2 = [] :=
  ⟨by decide, C4_connect_no_duplicate_socket sampleConnected sampleArgs (fun _ => 0)
    (by decide)⟩

/-- Counterexample to C5: on the sample client that is Connected to 127.0.0.1, connect
with another server name stores that name, so the client state after the call is not
the state before it. -/
theorem C5_connect_noop_counterexample :
    sampleConnected.status_ = ConnectionStatus.Connected
    ∧ sampleConnected.server_name_ = "127.0.0.1"
    ∧ (connect sampleConnected { sampleArgs with server_name := "10.0.0.1" }
        (fun _ => 0)).1.server_name_ = "10.0.0.1"
    ∧ (connect sampleConnected { sampleArgs with server_name := "10.0.0.1" }
        (fun _ => 0)).1 ≠ sampleConnected := by
  refine ⟨by decide, by decide, rfl, ?_⟩
  intro h
  have h2 := congrArg NetworkClient.server_name_ h
  revert h2
  decide

/-- C5 as amended: when the status is Connecting or Connected, connect performs no
effect at all (no socket call, no signal, no output) and changes neither the status,
the socket pointer, the request counter, the node tree nor any other field except the
stored arguments: server name and port, client interface, the four client identity
strings and the quit-on-close flag are overwritten by the arguments and the stored key
by the padded key argument. -/
theorem C5_connect_while_connected_stores_arguments (c : NetworkClient) (a : ConnectArgs)
    (uninit : Nat → UInt8)
    (h : c.status_ = ConnectionStatus.Connecting ∨ c.status_ = ConnectionStatus.Connected) :
    (connect c a uninit).2 = []
    ∧ (connect c a uninit).1 =
      { c with
        server_name_ := a.server_name
        server_port_ := a.server_port
        client_interface_name_ := a.client_interface_name
        client_name_ := a.client_name
        client_version_ := a.client_version
        client_description_ := a.client_description
        client_type_ := a.client_type
        quit_on_close_ := a.quit_on_close
        authentication_key_ := (a.authentication_key ++ List.replicate 64 0).take 64 } := by
  rw [connect_while_connected c a uninit h.symm, padded_key]
  exact ⟨rfl, rfl⟩

/-- Witness of C5 as amended: connect with another server name on the sample client
that is Connected. -/
theorem C5_connect_while_connected_stores_arguments_witness :
    (sampleConnected.status_ = ConnectionStatus.Connecting
      ∨ sampleConnected.status_ = ConnectionStatus.Connected)
    ∧ (connect sampleConnected { sampleArgs with server_name := "10.0.0.1" }
        (fun _ => 0)).2 = []
    ∧ (connect sampleConnected { sampleArgs with server_name := "10.0.0.1" }
        (fun _ => 0)).1 =
      { sampleConnected with
        server_name_ := "10.0.0.1"
        server_port_ := sampleArgs.server_port
        client_interface_name_ := sampleArgs.client_interface_name
        client_name_ := sampleArgs.client_name
        client_version_ := sampleArgs.client_version
        client_description_ := sampleArgs.client_description
        client_type_ := sampleArgs.client_type
        quit_on_close_ := sampleArgs.quit_on_close
        authentication_key_ :=
          (sampleArgs.authentication_key ++ List.replicate 64 0).take 64 } :=
  ⟨by decide, C5_connect_while_connected_stores_arguments sampleConnected
    { sampleArgs with server_name := "10.0.0.1" } (fun _ => 0) (by decide)⟩

theorem connect_key (c : NetworkClient) (a : ConnectArgs) (uninit : Nat → UInt8) :
    (connect c a uninit).1.authentication_key_
      = (a.authentication_key ++ List.replicate 64 0).take 64 := by
  rw [← padded_key a.authentication_key uninit]
  unfold connect
  simp only []
  split
  · rw [setConnectionStatus_state]
  · rfl

/-- C6: for every client state and every byte string k given to connect as the
authentication key, the key stored afterwards has length exactly 64, its first
min(|k|, 64) bytes are those of k, every later byte is 0, and it is the first 64 bytes
of k followed by 64 zero bytes, whatever the bytes brought in by the resize were. -/
theorem C6_authentication_key_padded (c : NetworkClient) (a : ConnectArgs)
    (uninit : Nat → UInt8) :
    (connect c a uninit).1.authentication_key_.length = 64
    ∧ (connect c a uninit).1.authentication_key_.take (min a.authentication_key.length 64)
        = a.authentication_key.take (min a.authentication_key.length 64)
    ∧ (∀ i, min a.authentication_key.length 64 ≤ i → i < 64 →
        (connect c a uninit).1.authentication_key_[i]? = some 0)
    ∧ (connect c a uninit).1.authentication_key_
        = (a.authentication_key ++ List.replicate 64 0).take 64 := by
  rw [connect_key]
  refine ⟨?_, ?_, ?_, rfl⟩
  · simp
  · rw [List.take_take, List.take_append_eq_append_take]
    simp
  · intro i h1 h2
    rw [List.getElem?_take]
    simp only [h2, if_true]
    rw [List.getElem?_append_right (by omega)]
    rw [List.getElem?_replicate]
    simp
    omega

theorem socketWrites_append (xs ys : List Effect) :
    socketWrites (xs ++ ys) = socketWrites xs ++ socketWrites ys := by
  simp [socketWrites, List.filterMap_append]

theorem socketWrites_logLine (c : NetworkClient) (text : String) :
    socketWrites (logLine c text) = [] := by
  unfold logLine
  split <;> rfl

/-- Counterexample to C7: on the sample client after connect, whose socket is socket 0,
a socketConnected event that finds the socket not valid writes the stored key and
nothing after it: no connect message is written. -/
theorem C7_no_hello_counterexample :
    sampleConnecting.client_socket_ = some 0
    ∧ (∃ r, socketConnected sampleConnecting false = some r
        ∧ socketWrites r.2 = [(0, WireData.raw sampleConnecting.authentication_key_)]) :=
  ⟨by decide, _, rfl, by decide⟩

/-- C7 as amended: on every socketConnected event of a client that has a socket the slot
is defined and its first write call on that socket is the stored authentication key;
when the socket answers isValid() with true the key is followed, with nothing written
in between, by exactly one connect message, which carries protocol version 1, the
stored client name, version, description and type strings and the stored quit-on-close
flag, and when the socket answers false the key is the only write call.  When the state
is the one that connect left, the stored key has 64 bytes and the strings and the flag
are the arguments of that call. -/
theorem C7_key_then_hello_if_valid (c : NetworkClient) (sock : Nat) (isValid : Bool)
    (h : c.client_socket_ = some sock) :
    (∃ r, socketConnected c isValid = some r
      ∧ socketWrites r.2
          = (sock, WireData.raw c.authentication_key_)
            :: (if isValid then
                [(sock, WireData.packed
                  { object_type := "connect"
                    body := MsgBody.MsgConnect 1 (some c.client_name_)
                      (some c.client_version_) (some c.client_description_)
                      (some c.client_type_) c.quit_on_close_ })]
               else []))
    ∧ (∀ (c0 : NetworkClient) (a : ConnectArgs) (uninit : Nat → UInt8),
        c = (connect c0 a uninit).1 →
          c.authentication_key_.length = 64
          ∧ c.authentication_key_ = (a.authentication_key ++ List.replicate 64 0).take 64
          ∧ c.client_name_ = a.client_name
          ∧ c.client_version_ = a.client_version
          ∧ c.client_description_ = a.client_description
          ∧ c.client_type_ = a.client_type
          ∧ c.quit_on_close_ = a.quit_on_close) := by
  constructor
  · refine ⟨_, socketConnected_of_socket c isValid sock h, ?_⟩
    cases isValid
    · simp only [socketWrites_append, socketWrites_logLine]
      rfl
    · simp only [socketWrites_append, socketWrites_logLine, if_true]
      rfl
  · intro c0 a uninit hc
    subst hc
    refine ⟨?_, connect_key c0 a uninit, ?_⟩
    · rw [connect_key]
      simp
    · unfold connect
      simp only []
      split
      · rw [setConnectionStatus_state]
        exact ⟨rfl, rfl, rfl, rfl, rfl⟩
      · exact ⟨rfl, rfl, rfl, rfl, rfl⟩

/-- Witness of C7 as amended: the sample client after connect, whose socket is socket 0,
with a socket that is valid. -/
theorem C7_key_then_hello_if_valid_witness :
    sampleConnecting.client_socket_ = some 0
    ∧ (∃ r, socketConnected sampleConnecting true = some r
      ∧ socketWrites r.2
          = (0, WireData.raw sampleConnecting.authentication_key_)
            :: (if true = true then
                [(0, WireData.packed
                  { object_type := "connect"
                    body := MsgBody.MsgConnect 1 (some sampleConnecting.client_name_)
                      (some sampleConnecting.client_version_)
                      (some sampleConnecting.client_description_)
                      (some sampleConnecting.client_type_)
                      sampleConnecting.quit_on_close_ })]
               else []))
    ∧ sampleConnecting.authentication_key_.length = 64
    ∧ sampleConnecting.client_name_ = "veles-test" :=
  ⟨by decide,
   (C7_key_then_hello_if_valid sampleConnecting 0 true (by decide)).1,
   ((C7_key_then_hello_if_valid sampleConnecting 0 true (by decide)).2 sampleFresh
      sampleArgs (fun _ => 170) rfl).1,
   ((C7_key_then_hello_if_valid sampleConnecting 0 true (by decide)).2 sampleFresh
      sampleArgs (fun _ => 170) rfl).2.2.1⟩

/-- The signals among the effects `r.2` tell the change of status from `c` to `r.1`:
one signal carrying the new status when the status differs, none otherwise. -/
theorem tracks_setConnectionStatus (c : NetworkClient) (t : ConnectionStatus) :
    statusSignals (setConnectionStatus c t).2
      = if (setConnectionStatus c t).1.status_ ≠ c.status_ then
          [(setConnectionStatus c t).1.status_] else [] := by
  rw [setConnectionStatus_signals, setConnectionStatus_status]
  by_cases h : c.status_ = t
  · simp [h]
  · have h2 : t ≠ c.status_ := fun e => h e.symm
    simp [h, h2]

theorem tracks_disconnect (c : NetworkClient) :
    statusSignals (disconnect c).2
      = if (disconnect c).1.status_ ≠ c.status_ then [(disconnect c).1.status_] else [] := by
  rw [disconnect_signals, disconnect_state]
  by_cases h : c.status_ = ConnectionStatus.NotConnected
  · simp [h]
  · have h2 : ConnectionStatus.NotConnected ≠ c.status_ := fun e => h e.symm
    simp [h, h2]

theorem tracks_connect (c : NetworkClient) (a : ConnectArgs) (uninit : Nat → UInt8) :
    statusSignals (connect c a uninit).2
      = if (connect c a uninit).1.status_ ≠ c.status_ then
          [(connect c a uninit).1.status_] else [] := by
  cases hs : c.status_ with
  | NotConnected =>
    rw [connect_notConnected_signals c a uninit hs, connect_notConnected_state c a uninit hs]
    simp
  | Connecting =>
    rw [connect_while_connected c a uninit (Or.inr hs)]
    simp [hs, statusSignals_nil]
  | Connected =>
    rw [connect_while_connected c a uninit (Or.inl hs)]
    simp [hs, statusSignals_nil]

theorem tracks_socketDisconnected (c : NetworkClient) :
    statusSignals (socketDisconnected c).2
      = if (socketDisconnected c).1.status_ ≠ c.status_ then
          [(socketDisconnected c).1.status_] else [] := by
  rw [socketDisconnected_status]
  unfold socketDisconnected
  simp only []
  split <;>
  · simp only [statusSignals_append, statusSignals_logLine, setConnectionStatus_signals]
    by_cases h : c.status_ = ConnectionStatus.NotConnected
    · simp [h, statusSignals_cons_other, statusSignals_nil]
    · have h2 : ConnectionStatus.NotConnected ≠ c.status_ := fun e => h e.symm
      simp [h, h2, statusSignals_cons_other, statusSignals_nil]

theorem tracks_socketError (c : NetworkClient) (code : Int) (err : String) :
    statusSignals (socketError c code err).2
      = if (socketError c code err).1.status_ ≠ c.status_ then
          [(socketError c code err).1.status_] else [] := by
  rw [socketError_state]
  unfold socketError
  simp only [statusSignals_append, setConnectionStatus_signals]
  have h0 : ∀ (b : Prop) [Decidable b] (text : String),
      statusSignals (if b then [Effect.output text] else []) = [] := by
    intro b _ text
    split <;> rfl
  rw [h0]
  by_cases h : c.status_ = ConnectionStatus.NotConnected
  · simp [h]
  · have h2 : ConnectionStatus.NotConnected ≠ c.status_ := fun e => h e.symm
    simp [h, h2]

theorem tracks_handleConnectedMessage (c : NetworkClient) (msg : MsgpackMsg) :
    statusSignals (handleConnectedMessage c msg).2
      = if (handleConnectedMessage c msg).1.status_ ≠ c.status_ then
          [(handleConnectedMessage c msg).1.status_] else [] := by
  by_cases h : c.status_ = ConnectionStatus.Connecting
  · obtain ⟨h1, h2, -⟩ := handleConnectedMessage_connecting c msg h
    rw [h2, h1]
    simp [h]
  · rw [handleConnectedMessage_not_connecting c msg h]
    simp [statusSignals_logLine]

theorem tracks_handleProtoErrorMessage (c : NetworkClient) (msg : MsgpackMsg) :
    statusSignals (handleProtoErrorMessage c msg).2
      = if (handleProtoErrorMessage c msg).1.status_ ≠ c.status_ then
          [(handleProtoErrorMessage c msg).1.status_] else [] := by
  unfold handleProtoErrorMessage
  split
  · simp only [statusSignals_append, statusSignals_logLine, List.nil_append]
    exact tracks_disconnect c
  · simp [statusSignals_nil]

theorem tracks_handleConnErrorMessage (c : NetworkClient) (msg : MsgpackMsg) :
    statusSignals (handleConnErrorMessage c msg).2
      = if (handleConnErrorMessage c msg).1.status_ ≠ c.status_ then
          [(handleConnErrorMessage c msg).1.status_] else [] := by
  unfold handleConnErrorMessage
  split
  · simp only [statusSignals_append, statusSignals_logLine, List.nil_append]
    exact tracks_disconnect c
  · simp [statusSignals_nil]

theorem tracks_invokeHandler (handler : MessageHandler) (c : NetworkClient)
    (msg : MsgpackMsg) :
    statusSignals (invokeHandler handler c msg).2
      = if (invokeHandler handler c msg).1.status_ ≠ c.status_ then
          [(invokeHandler handler c msg).1.status_] else [] := by
  cases handler
  case handleConnectedMessage => exact tracks_handleConnectedMessage c msg
  case handleProtoErrorMessage => exact tracks_handleProtoErrorMessage c msg
  case handleConnErrorMessage => exact tracks_handleConnErrorMessage c msg
  all_goals
    simp [invokeHandler, handleNodeTreeRelatedMessage, handleLoggedMessage,
      statusSignals_logLine, statusSignals_nil]

theorem tracks_dispatch (c : NetworkClient) (msg : MsgpackMsg) :
    statusSignals (dispatch c msg).2
      = if (dispatch c msg).1.status_ ≠ c.status_ then [(dispatch c msg).1.status_]
        else [] := by
  unfold dispatch
  split
  · simp only [statusSignals_append]
    rw [tracks_invokeHandler]
    simp [statusSignals_cons_other, statusSignals_nil]
  · simp [statusSignals_append, statusSignals_logLine, statusSignals_cons_other,
      statusSignals_nil]

theorem tracks_step (c : NetworkClient) (ev : Event) (r : NetworkClient × List Effect)
    (h : step c ev = some r) :
    statusSignals r.2 = if r.1.status_ ≠ c.status_ then [r.1.status_] else [] := by
  cases ev with
  | connect a uninit =>
    simp only [step, Option.some.injEq] at h
    subst h
    exact tracks_connect c a uninit
  | disconnect =>
    simp only [step, Option.some.injEq] at h
    subst h
    exact tracks_disconnect c
  | socketConnected isValid =>
    obtain ⟨h1, h2, -⟩ := socketConnected_quiet c isValid r h
    rw [h2, h1]
    simp
  | socketDisconnected =>
    simp only [step, Option.some.injEq] at h
    subst h
    exact tracks_socketDisconnected c
  | socketError code err =>
    simp only [step, Option.some.injEq] at h
    subst h
    exact tracks_socketError c code err
  | message msg =>
    simp only [step, Option.some.injEq] at h
    subst h
    exact tracks_dispatch c msg

theorem signals_count_run (evs : List Event) :
    ∀ (c : NetworkClient) (r : NetworkClient × List Effect), run c evs = some r →
      (statusSignals r.2).length = statusChanges c evs := by
  induction evs with
  | nil =>
    intro c r h
    simp only [run, Option.some.injEq] at h
    subst h
    rfl
  | cons ev rest ih =>
    intro c r h
    unfold run at h
    unfold statusChanges
    cases hs : step c ev with
    | none => simp [hs] at h
    | some r1 =>
      simp only [hs] at h ⊢
      cases hr : run r1.1 rest with
      | none => simp [hr] at h
      | some r2 =>
        simp only [hr, Option.some.injEq] at h
        subst h
        simp only [statusSignals_append, List.length_append, ih r1.1 r2 hr,
          tracks_step c ev r1 hs]
        split <;> simp

/-- C8: for every state and every requested status t, setConnectionStatus(t) leaves the
status equal to t and emits connectionStatusChanged(t) exactly once when t differs from
the status before and nothing when it equals it; and over every sequence of events that
is defined, the number of connectionStatusChanged signals emitted equals the number of
events across which the status changed. -/
theorem C8_signal_on_every_change (c : NetworkClient) (t : ConnectionStatus)
    (evs : List Event) (r : NetworkClient × List Effect) (h : run c evs = some r) :
    connectionStatus (setConnectionStatus c t).1 = t
    ∧ (c.status_ ≠ t → statusSignals (setConnectionStatus c t).2 = [t])
    ∧ (c.status_ = t → setConnectionStatus c t = (c, []))
    ∧ (statusSignals r.2).length = statusChanges c evs := by
  refine ⟨setConnectionStatus_status c t, ?_, ?_, signals_count_run evs c r h⟩
  · intro hne
    rw [setConnectionStatus_signals]
    simp [hne]
  · intro he
    simp [setConnectionStatus, he]

/-- Witness of C8: the sample session on the fresh client, in which the status changes
three times. -/
theorem C8_signal_on_every_change_witness :
    ∃ r, run sampleFresh sampleSession = some r
      ∧ statusChanges sampleFresh sampleSession = 3
      ∧ connectionStatus (setConnectionStatus sampleFresh ConnectionStatus.Connecting).1
          = ConnectionStatus.Connecting
      ∧ (statusSignals r.2).length = statusChanges sampleFresh sampleSession := by
  obtain ⟨r, hr⟩ := Option.isSome_iff_exists.mp
    (show (run sampleFresh sampleSession).isSome = true by decide)
  have h := C8_signal_on_every_change sampleFresh ConnectionStatus.Connecting
    sampleSession r hr
  exact ⟨r, hr, by decide, h.1, h.2.2.2⟩

/-- C9: for every client state, a second disconnect right after a first leaves the
client state that the first one left, and the second call emits no
connectionStatusChanged. -/
theorem C9_disconnect_idempotent (c : NetworkClient) :
    (disconnect (disconnect c).1).1 = (disconnect c).1
    ∧ statusSignals (disconnect (disconnect c).1).2 = [] := by
  constructor
  · simp only [disconnect_state]
  · rw [disconnect_signals, disconnect_state]
    simp

/-- Counterexample to C10: the sample client after connect holds socket 0; the
socketError slot leaves the pointer on that socket and requests neither
disconnectFromHost nor deleteLater on it. -/
theorem C10_socket_teardown_counterexample :
    sampleConnecting.client_socket_ = some 0
    ∧ (socketError sampleConnecting 0 "Connection refused").1.client_socket_ = some 0
    ∧ Effect.disconnectFromHost 0
        ∉ (socketError sampleConnecting 0 "Connection refused").2
    ∧ Effect.deleteLater 0 ∉ (socketError sampleConnecting 0 "Connection refused").2 := by
  decide

theorem disconnect_closes (c : NetworkClient) (sock : Nat)
    (h : c.client_socket_ = some sock) :
    Effect.disconnectFromHost sock ∈ (disconnect c).2 := by
  unfold disconnect
  simp only [setConnectionStatus_state, h]
  simp

/-- C10 as amended: in every state in which a socket exists, disconnect and the dispatch
of a proto_error or connection_error message request disconnectFromHost on that socket,
and the socketDisconnected slot requests deleteLater on it and clears the pointer; the
socketError slot leaves the pointer on the socket and makes no call that closes or
releases a socket. -/
theorem C10_socket_teardown_but_socket_error (c : NetworkClient) (sock : Nat)
    (h : c.client_socket_ = some sock) :
    Effect.disconnectFromHost sock ∈ (disconnect c).2
    ∧ ((socketDisconnected c).1.client_socket_ = none
        ∧ Effect.deleteLater sock ∈ (socketDisconnected c).2)
    ∧ (∀ code text : String, Effect.disconnectFromHost sock
        ∈ (dispatch c ⟨"proto_error", MsgBody.MsgProtoError code text⟩).2)
    ∧ (∀ code text : String, Effect.disconnectFromHost sock
        ∈ (dispatch c ⟨"connection_error", MsgBody.MsgConnectionError code text⟩).2)
    ∧ (∀ (code : Int) (err : String),
        (socketError c code err).1.client_socket_ = some sock
        ∧ ∀ s, Effect.disconnectFromHost s ∉ (socketError c code err).2
            ∧ Effect.deleteLater s ∉ (socketError c code err).2) := by
  refine ⟨disconnect_closes c sock h, ?_, ?_, ?_, ?_⟩
  · unfold socketDisconnected
    simp only [setConnectionStatus_state, h]
    simp
  · intro code text
    rw [dispatch_proto_error]
    simp only [handleProtoErrorMessage]
    have := disconnect_closes c sock h
    simp [this]
  · intro code text
    rw [dispatch_connection_error]
    simp only [handleConnErrorMessage]
    have := disconnect_closes c sock h
    simp [this]
  · intro code err
    refine ⟨?_, ?_⟩
    · rw [socketError_state]
      exact h
    · intro s
      unfold socketError setConnectionStatus logLine
      simp only []
      split_ifs <;> simp

/-- Witness of C10 as amended: the sample client after connect, whose socket is
socket 0. -/
theorem C10_socket_teardown_but_socket_error_witness :
    sampleConnecting.client_socket_ = some 0
    ∧ Effect.disconnectFromHost 0 ∈ (disconnect sampleConnecting).2
    ∧ (socketDisconnected sampleConnecting).1.client_socket_ = none
    ∧ (socketError sampleConnecting 0 "Connection refused").1.client_socket_ = some 0 :=
  ⟨by decide,
   (C10_socket_teardown_but_socket_error sampleConnecting 0 (by decide)).1,
   (C10_socket_teardown_but_socket_error sampleConnecting 0 (by decide)).2.1.1,
   ((C10_socket_teardown_but_socket_error sampleConnecting 0 (by decide)).2.2.2.2
      0 "Connection refused").1⟩

/-- Counterexample to C11: the sample client after connect has status Connecting, not
Connected, and sendMessage with a valid socket writes the message (this is how the
connect message itself is sent); the sample client that is Connected writes nothing
when its socket is not valid. -/
theorem C11_send_when_not_connected_counterexample :
    sampleConnecting.status_ ≠ ConnectionStatus.Connected
    ∧ socketWrites (sendMessage sampleConnecting (msgConnect sampleConnecting) true).2
        = [(0, WireData.packed (msgConnect sampleConnecting))]
    ∧ sampleConnected.status_ = ConnectionStatus.Connected
    ∧ socketWrites (sendMessage sampleConnected (msgConnect sampleConnected) false).2
        = [] := by
  decide

/-- C11 as amended: sendMessage never changes the client state and looks at the socket,
not at the status.  In every state that has a socket, whatever the status, it makes
exactly one call on the socket, the write of the encoding of that one message, when the
socket is valid, and no call when the socket is not valid; without a socket it makes
no call. -/
theorem C11_send_depends_on_socket (c : NetworkClient) (msg : MsgpackMsg) (sock : Nat)
    (h : c.client_socket_ = some sock) :
    sendMessage c msg true = (c, [Effect.write sock (WireData.packed msg)])
    ∧ sendMessage c msg false = (c, [])
    ∧ ∀ isValid, sendMessage { c with client_socket_ := none } msg isValid
        = ({ c with client_socket_ := none }, []) := by
  refine ⟨?_, ?_, ?_⟩
  · simp [sendMessage, h]
  · simp [sendMessage, h]
  · intro isValid
    simp [sendMessage]

/-- Witness of C11 as amended: the sample client after connect, whose socket is
socket 0. -/
theorem C11_send_depends_on_socket_witness :
    sampleConnecting.client_socket_ = some 0
    ∧ sendMessage sampleConnecting (msgConnect sampleConnecting) true
        = (sampleConnecting,
            [Effect.write 0 (WireData.packed (msgConnect sampleConnecting))])
    ∧ sendMessage sampleConnecting (msgConnect sampleConnecting) false
        = (sampleConnecting, []) :=
  ⟨by decide,
   (C11_send_depends_on_socket sampleConnecting (msgConnect sampleConnecting) 0
      (by decide)).1,
   (C11_send_depends_on_socket sampleConnecting (msgConnect sampleConnecting) 0
      (by decide)).2.1⟩

theorem lookup_mem (l : List (String × MessageHandler)) (tag : String)
    (handler : MessageHandler) (h : l.lookup tag = some handler) : (tag, handler) ∈ l := by
  induction l with
  | nil => simp [List.lookup] at h
  | cons kv rest ih =>
    obtain ⟨k, v⟩ := kv
    by_cases hk : tag = k
    · subst hk
      simp only [List.lookup, beq_self_eq_true, Option.some.injEq] at h
      subst h
      exact List.mem_cons_self _ _
    · have hb : (tag == k) = false := by simpa using hk
      simp only [List.lookup, hb] at h
      exact List.mem_cons_of_mem _ (ih h)

theorem lookup_handleConnectedMessage_tag (tag : String)
    (h : message_handlers_.lookup tag = some MessageHandler.handleConnectedMessage) :
    tag = "connected" := by
  have hm := lookup_mem _ _ _ h
  simp [message_handlers_] at hm
  exact hm

theorem connect_status (c : NetworkClient) (a : ConnectArgs) (uninit : Nat → UInt8) :
    (connect c a uninit).1.status_
      = if c.status_ = ConnectionStatus.NotConnected then ConnectionStatus.Connecting
        else c.status_ := by
  cases hs : c.status_ with
  | NotConnected => rw [connect_notConnected_state c a uninit hs]; simp
  | Connecting => rw [connect_while_connected c a uninit (Or.inr hs)]; simp [hs]
  | Connected => rw [connect_while_connected c a uninit (Or.inl hs)]; simp [hs]

theorem handleConnectedMessage_status (c : NetworkClient) (msg : MsgpackMsg) :
    (handleConnectedMessage c msg).1.status_
      = if c.status_ = ConnectionStatus.Connecting then ConnectionStatus.Connected
        else c.status_ := by
  by_cases h : c.status_ = ConnectionStatus.Connecting
  · rw [(handleConnectedMessage_connecting c msg h).1]
    simp [h]
  · rw [handleConnectedMessage_not_connecting c msg h]
    simp [h]

theorem handleProtoErrorMessage_status (c : NetworkClient) (msg : MsgpackMsg) :
    (handleProtoErrorMessage c msg).1.status_ = c.status_
    ∨ (handleProtoErrorMessage c msg).1.status_ = ConnectionStatus.NotConnected := by
  unfold handleProtoErrorMessage
  split
  · right
    simp [disconnect_state]
  · left
    rfl

theorem handleConnErrorMessage_status (c : NetworkClient) (msg : MsgpackMsg) :
    (handleConnErrorMessage c msg).1.status_ = c.status_
    ∨ (handleConnErrorMessage c msg).1.status_ = ConnectionStatus.NotConnected := by
  unfold handleConnErrorMessage
  split
  · right
    simp [disconnect_state]
  · left
    rfl

/-- The status after a handler ran: unchanged, or NotConnected, or Connected reached
from Connecting by the handler of the connected message. -/
theorem invokeHandler_status (handler : MessageHandler) (c : NetworkClient)
    (msg : MsgpackMsg) :
    (invokeHandler handler c msg).1.status_ = c.status_
    ∨ (invokeHandler handler c msg).1.status_ = ConnectionStatus.NotConnected
    ∨ ((invokeHandler handler c msg).1.status_ = ConnectionStatus.Connected
        ∧ c.status_ = ConnectionStatus.Connecting
        ∧ handler = MessageHandler.handleConnectedMessage) := by
  cases handler
  case handleConnectedMessage =>
    simp only [invokeHandler, handleConnectedMessage_status]
    by_cases h : c.status_ = ConnectionStatus.Connecting
    · simp [h]
    · simp [h]
  case handleProtoErrorMessage =>
    rcases handleProtoErrorMessage_status c msg with h | h
    · exact Or.inl h
    · exact Or.inr (Or.inl h)
  case handleConnErrorMessage =>
    rcases handleConnErrorMessage_status c msg with h | h
    · exact Or.inl h
    · exact Or.inr (Or.inl h)
  all_goals
    left
    simp [invokeHandler, handleNodeTreeRelatedMessage, handleLoggedMessage]

theorem dispatch_status (c : NetworkClient) (msg : MsgpackMsg) :
    (dispatch c msg).1.status_ = c.status_
    ∨ (dispatch c msg).1.status_ = ConnectionStatus.NotConnected
    ∨ ((dispatch c msg).1.status_ = ConnectionStatus.Connected
        ∧ c.status_ = ConnectionStatus.Connecting
        ∧ msg.object_type = "connected") := by
  unfold dispatch
  split
  · rename_i handler hl
    rcases invokeHandler_status handler c msg with h | h | ⟨h1, h2, h3⟩
    · exact Or.inl h
    · exact Or.inr (Or.inl h)
    · subst h3
      exact Or.inr (Or.inr ⟨h1, h2, lookup_handleConnectedMessage_tag _ hl⟩)
  · left
    rfl

/-- The transitions of one event, from any state: Connecting is entered only by connect
in NotConnected, Connected only by a connected message in Connecting. -/
theorem step_transitions (c : NetworkClient) (ev : Event) (r : NetworkClient × List Effect)
    (h : step c ev = some r) :
    (r.1.status_ = ConnectionStatus.Connecting → c.status_ ≠ ConnectionStatus.Connecting →
      c.status_ = ConnectionStatus.NotConnected ∧ ∃ a uninit, ev = Event.connect a uninit)
    ∧ (r.1.status_ = ConnectionStatus.Connected → c.status_ ≠ ConnectionStatus.Connected →
      c.status_ = ConnectionStatus.Connecting
        ∧ ∃ msg, ev = Event.message msg ∧ msg.object_type = "connected") := by
  cases ev with
  | connect a uninit =>
    simp only [step, Option.some.injEq] at h
    subst h
    rw [connect_status]
    cases hs : c.status_ <;> simp
  | disconnect =>
    simp only [step, Option.some.injEq] at h
    subst h
    rw [disconnect_state]
    simp
  | socketConnected isValid =>
    obtain ⟨h1, -, -⟩ := socketConnected_quiet c isValid r h
    rw [h1]
    constructor
    · intro h2 h3
      exact absurd h2 h3
    · intro h2 h3
      exact absurd h2 h3
  | socketDisconnected =>
    simp only [step, Option.some.injEq] at h
    subst h
    rw [socketDisconnected_status]
    simp
  | socketError code err =>
    simp only [step, Option.some.injEq] at h
    subst h
    rw [socketError_state]
    simp
  | message msg =>
    simp only [step, Option.some.injEq] at h
    subst h
    rcases dispatch_status c msg with h | h | ⟨h1, h2, h3⟩
    · rw [h]
      constructor
      · intro h1 h2
        exact absurd h1 h2
      · intro h1 h2
        exact absurd h1 h2
    · rw [h]
      simp
    · rw [h1]
      simp [h2, h3]

/-- C12: over every sequence of events applied to a freshly constructed client, and for
every event that follows it, the status becomes Connecting only if the event is a call
of connect and the status before was NotConnected, and becomes Connected only if the
event is the dispatch of a message tagged connected and the status before was
Connecting; Connected is never entered from NotConnected. -/
theorem C12_transitions_from_fresh (tree : NodeTree) (evs : List Event) (ev : Event)
    (r0 r1 : NetworkClient × List Effect)
    (_h0 : run (NetworkClient.new tree) evs = some r0) (h1 : step r0.1 ev = some r1) :
    (r1.1.status_ = ConnectionStatus.Connecting →
      r0.1.status_ ≠ ConnectionStatus.Connecting →
        r0.1.status_ = ConnectionStatus.NotConnected
          ∧ ∃ a uninit, ev = Event.connect a uninit)
    ∧ (r1.1.status_ = ConnectionStatus.Connected →
      r0.1.status_ ≠ ConnectionStatus.Connected →
        r0.1.status_ = ConnectionStatus.Connecting
          ∧ ∃ msg, ev = Event.message msg ∧ msg.object_type = "connected")
    ∧ ¬ (r0.1.status_ = ConnectionStatus.NotConnected
          ∧ r1.1.status_ = ConnectionStatus.Connected) := by
  obtain ⟨ha, hb⟩ := step_transitions r0.1 ev r1 h1
  refine ⟨ha, hb, ?_⟩
  rintro ⟨hn, hc⟩
  have := (hb hc (by rw [hn]; decide)).1
  rw [hn] at this
  exact absurd this (by decide)

/-- Witness of C12: the fresh client after connect and socketConnected is Connecting; the
dispatch of a connected message is the event that enters Connected. -/
theorem C12_transitions_from_fresh_witness :
    ∃ r0 r1,
      run sampleFresh [Event.connect sampleArgs (fun _ => 170), Event.socketConnected true]
        = some r0
      ∧ step r0.1 (Event.message { object_type := "connected", body := MsgBody.MsgConnected })
        = some r1
      ∧ r0.1.status_ = ConnectionStatus.Connecting
      ∧ r1.1.status_ = ConnectionStatus.Connected
      ∧ ¬ (r0.1.status_ = ConnectionStatus.NotConnected
            ∧ r1.1.status_ = ConnectionStatus.Connected) := by
  obtain ⟨r0, h0⟩ := Option.isSome_iff_exists.mp
    (show (run sampleFresh
      [Event.connect sampleArgs (fun _ => 170), Event.socketConnected true]).isSome = true
      by decide)
  have hs : r0.1.status_ = ConnectionStatus.Connecting := by
    have : (run sampleFresh
        [Event.connect sampleArgs (fun _ => 170), Event.socketConnected true]).map
          (fun r => r.1.status_) = some ConnectionStatus.Connecting := by decide
    rw [h0] at this
    simpa using this
  have h1 : step r0.1
      (Event.message { object_type := "connected", body := MsgBody.MsgConnected })
        = some (dispatch r0.1 { object_type := "connected", body := MsgBody.MsgConnected }) :=
    rfl
  have hd : (dispatch r0.1
      { object_type := "connected", body := MsgBody.MsgConnected }).1.status_
        = ConnectionStatus.Connected := by
    rw [dispatch_connected _ _ rfl, handleConnectedMessage_status]
    simp [hs]
  exact ⟨r0, _, h0, h1, hs, hd,
    (C12_transitions_from_fresh { nodes := [] }
      [Event.connect sampleArgs (fun _ => 170), Event.socketConnected true]
      (Event.message { object_type := "connected", body := MsgBody.MsgConnected })
      r0 _ h0 h1).2.2⟩

theorem nextQidCalls_fresh_qid (tree : NodeTree) (k : Nat) :
    (nextQidCalls (NetworkClient.new tree) k).qid_ = k % 2 ^ 64 := by
  induction k with
  | zero => rfl
  | succ k ih =>
    simp only [nextQidCalls, nextQid, ih]
    omega

theorem kthQid_fresh (tree : NodeTree) (k : Nat) (hk : 1 ≤ k) :
    kthQid (NetworkClient.new tree) k = k % 2 ^ 64 := by
  obtain ⟨j, rfl⟩ : ∃ j, k = j + 1 := ⟨k - 1, by omega⟩
  simp only [kthQid, Nat.add_sub_cancel, nextQid, nextQidCalls_fresh_qid]
  omega

/-- Counterexample to C13: on the fresh client the call number 2^64 of nextQid returns 0,
not 2^64, and the same value is returned again later, so the results are neither all
nonzero nor pairwise distinct. -/
theorem C13_qid_wraps_counterexample :
    kthQid sampleFresh (2 ^ 64) = 0
    ∧ kthQid sampleFresh (2 ^ 64 + 1) = kthQid sampleFresh 1 := by
  unfold sampleFresh
  rw [kthQid_fresh _ _ (by norm_num), kthQid_fresh _ _ (by norm_num),
    kthQid_fresh _ _ (by norm_num)]
  constructor <;> norm_num

/-- C13 as amended: on a freshly constructed client the call number k of nextQid
returns k for every k with 1 <= k < 2^64; within that range the first result is 1, the
results are nonzero, strictly increasing and pairwise distinct.  Beyond it the 64-bit
counter wraps: call number k returns k modulo 2^64. -/
theorem C13_qid_counts_below_wrap (tree : NodeTree) (k : Nat) (h1 : 1 ≤ k)
    (h2 : k < 2 ^ 64) :
    kthQid (NetworkClient.new tree) k = k
    ∧ kthQid (NetworkClient.new tree) 1 = 1
    ∧ kthQid (NetworkClient.new tree) k ≠ 0
    ∧ (∀ j, 1 ≤ j → j < k →
        kthQid (NetworkClient.new tree) j < kthQid (NetworkClient.new tree) k)
    ∧ (∀ j, 1 ≤ j → j < 2 ^ 64 → j ≠ k →
        kthQid (NetworkClient.new tree) j ≠ kthQid (NetworkClient.new tree) k)
    ∧ (∀ n, 1 ≤ n → kthQid (NetworkClient.new tree) n = n % 2 ^ 64) := by
  have hk : kthQid (NetworkClient.new tree) k = k := by
    rw [kthQid_fresh tree k h1]
    exact Nat.mod_eq_of_lt h2
  refine ⟨hk, ?_, ?_, ?_, ?_, fun n hn => kthQid_fresh tree n hn⟩
  · rw [kthQid_fresh tree 1 (le_refl 1)]
    norm_num
  · rw [hk]
    omega
  · intro j hj1 hj2
    rw [hk, kthQid_fresh tree j hj1, Nat.mod_eq_of_lt (by omega)]
    exact hj2
  · intro j hj1 hj2 hne
    rw [hk, kthQid_fresh tree j hj1, Nat.mod_eq_of_lt hj2]
    exact hne

/-- Witness of C13 as amended: the fifth call on the fresh sample client. -/
theorem C13_qid_counts_below_wrap_witness :
    1 ≤ 5 ∧ 5 < 2 ^ 64 ∧ kthQid sampleFresh 5 = 5 ∧ kthQid sampleFresh 1 = 1 :=
  ⟨by decide, by norm_num,
   (C13_qid_counts_below_wrap { nodes := [] } 5 (by decide) (by norm_num)).1,
   (C13_qid_counts_below_wrap { nodes := [] } 5 (by decide) (by norm_num)).2.1⟩

/-- Counterexample to C14: on the fresh client one id is issued (it is 1), then
disconnect and a new connect follow; the first nextQid of the new session returns 2. -/
theorem C14_qid_not_restarted_counterexample :
    (nextQid sampleFresh).2 = 1
    ∧ (nextQid
        (connect (disconnect (nextQid sampleFresh).1).1 sampleArgs (fun _ => 170)).1).2
        = 2 := by
  decide

theorem connect_qid (c : NetworkClient) (a : ConnectArgs) (uninit : Nat → UInt8) :
    (connect c a uninit).1.qid_ = c.qid_ := by
  unfold connect
  simp only []
  split
  · rw [setConnectionStatus_state]
  · rfl

/-- C14 as amended: the request-id counter belongs to the client, not to the session.
Neither disconnect nor connect changes it, so after disconnect followed by connect the
first nextQid returns the successor (modulo 2^64) of the counter the client had before,
the value that nextQid would have returned without the new session.  On a client that
has issued k ids since it was constructed, the first id of the new session is
(k + 1) modulo 2^64; it is 1 exactly when k is a multiple of 2^64: when no id was
issued, or when the counter has wrapped back to 0. -/
theorem C14_qid_survives_reconnect (c : NetworkClient) (a : ConnectArgs)
    (uninit : Nat → UInt8) :
    (disconnect c).1.qid_ = c.qid_
    ∧ (connect (disconnect c).1 a uninit).1.qid_ = c.qid_
    ∧ (nextQid (connect (disconnect c).1 a uninit).1).2 = (c.qid_ + 1) % 2 ^ 64
    ∧ (nextQid (connect (disconnect c).1 a uninit).1).2 = (nextQid c).2
    ∧ (∀ (tree : NodeTree) (k : Nat),
        (nextQid (connect (disconnect (nextQidCalls (NetworkClient.new tree) k)).1
            a uninit).1).2 = (k + 1) % 2 ^ 64)
    ∧ (∀ (tree : NodeTree) (k : Nat),
        (nextQid (connect (disconnect (nextQidCalls (NetworkClient.new tree) k)).1
            a uninit).1).2 = 1 ↔ k % 2 ^ 64 = 0)
    ∧ (connect c a uninit).1.qid_ = c.qid_ := by
  have h1 : ∀ c : NetworkClient, (disconnect c).1.qid_ = c.qid_ := by
    intro c
    rw [disconnect_state]
  have h2 : ∀ c : NetworkClient, (connect (disconnect c).1 a uninit).1.qid_ = c.qid_ := by
    intro c
    rw [connect_qid, h1]
  have h3 : ∀ (tree : NodeTree) (k : Nat),
      (nextQid (connect (disconnect (nextQidCalls (NetworkClient.new tree) k)).1
          a uninit).1).2 = (k + 1) % 2 ^ 64 := by
    intro tree k
    simp only [nextQid, h2, nextQidCalls_fresh_qid]
    omega
  refine ⟨h1 c, h2 c, ?_, ?_, h3, ?_, connect_qid c a uninit⟩
  · simp only [nextQid, h2]
  · simp only [nextQid, h2]
  · intro tree k
    rw [h3]
    omega

/-- C15: for every promise tracking qid q and every inbound message m, the slot emits
exactly done(q) iff m is one of the five success replies (tag request_ack, get_reply,
get_list_reply, get_data_reply or get_bindata_reply, of the class of that tag) and
carries q; it emits exactly failed(q) iff m is a query_error reply carrying q; in every
other case (another id or another tag) it emits nothing. -/
theorem C15_promise_matches_own_qid (p : RequestPromise) (m : MsgpackMsg) :
    (p.messageReceived m = [PromiseSignal.done p.qid_] ↔
      ((m.object_type = "request_ack" ∧ m.body = MsgBody.MsgRequestAck p.qid_)
        ∨ (m.object_type = "get_reply" ∧ m.body = MsgBody.MsgGetReply p.qid_)
        ∨ (m.object_type = "get_list_reply" ∧ m.body = MsgBody.MsgGetListReply p.qid_)
        ∨ (m.object_type = "get_data_reply" ∧ m.body = MsgBody.MsgGetDataReply p.qid_)
        ∨ (m.object_type = "get_bindata_reply"
            ∧ m.body = MsgBody.MsgGetBinDataReply p.qid_)))
    ∧ (p.messageReceived m = [PromiseSignal.failed p.qid_] ↔
      (m.object_type = "query_error"
        ∧ ∃ code text : String, m.body = MsgBody.MsgQueryError p.qid_ code text))
    ∧ (p.messageReceived m = [PromiseSignal.done p.qid_]
        ∨ p.messageReceived m = [PromiseSignal.failed p.qid_]
        ∨ p.messageReceived m = []) := by
  obtain ⟨tag, body⟩ := m
  unfold RequestPromise.messageReceived
  simp only []
  refine ⟨?_, ?_, ?_⟩
  · constructor
    · intro h
      split_ifs at h with h1 h2 h3 h4 h5 h6 <;> cases body <;>
        simp only [] at h <;> (try split_ifs at h) <;> simp_all
    · rintro (⟨h1, h2⟩ | ⟨h1, h2⟩ | ⟨h1, h2⟩ | ⟨h1, h2⟩ | ⟨h1, h2⟩) <;>
        subst h1 <;> subst h2 <;> simp
  · constructor
    · intro h
      split_ifs at h with h1 h2 h3 h4 h5 h6 <;> cases body <;>
        simp only [] at h <;> (try split_ifs at h) <;> simp_all
    · rintro ⟨h1, code, text, h2⟩
      subst h1
      subst h2
      simp
  · split_ifs with h1 h2 h3 h4 h5 h6 <;> cases body <;> simp only [] <;>
      (try split_ifs) <;> simp

theorem messageReceived_length (p : RequestPromise) (m : MsgpackMsg) :
    (p.messageReceived m).length = if terminalFor p.qid_ m then 1 else 0 := by
  obtain ⟨tag, body⟩ := m
  unfold RequestPromise.messageReceived terminalFor
  simp only []
  split_ifs with h1 h2 h3 h4 h5 h6 h7 <;> cases body <;> simp only [] at * <;>
    (try split_ifs at *) <;> simp_all

/-- Counterexample to C16: a promise tracking qid 7 that sees two get_reply messages
carrying 7 emits done twice, and one that sees a get_reply and then a query_error
carrying 7 emits done and then failed. -/
theorem C16_promise_fires_again_counterexample :
    (RequestPromise.new 7).receiveAll
        [ { object_type := "get_reply", body := MsgBody.MsgGetReply 7 },
          { object_type := "get_reply", body := MsgBody.MsgGetReply 7 } ]
      = [PromiseSignal.done 7, PromiseSignal.done 7]
    ∧ (RequestPromise.new 7).receiveAll
        [ { object_type := "get_reply", body := MsgBody.MsgGetReply 7 },
          { object_type := "query_error"
            body := MsgBody.MsgQueryError 7 "E_NOENT" "not found" } ]
      = [PromiseSignal.done 7, PromiseSignal.failed 7] := by
  decide

/-- C16 as amended: a promise emits at most one event for each inbound message, and it
emits one for every terminal reply that carries the tracked qid; over a sequence of
inbound messages the number of done and failed events equals the number of such
replies in the sequence, so it is at most 1 only when at most one such reply arrives. -/
theorem C16_promise_fires_per_reply (p : RequestPromise) (msgs : List MsgpackMsg) :
    (∀ m, (p.messageReceived m).length ≤ 1)
    ∧ (p.receiveAll msgs).length = msgs.countP (terminalFor p.qid_) := by
  constructor
  · intro m
    rw [messageReceived_length]
    split <;> simp
  · induction msgs with
    | nil => rfl
    | cons m rest ih =>
      simp only [RequestPromise.receiveAll, List.length_append, ih,
        messageReceived_length, List.countP_cons]
      omega

theorem messageSignals_nil : messageSignals [] = [] := rfl

theorem messageSignals_append (xs ys : List Effect) :
    messageSignals (xs ++ ys) = messageSignals xs ++ messageSignals ys := by
  simp [messageSignals, List.filterMap_append]

theorem messageSignals_cons_other (e : Effect) (xs : List Effect)
    (h : ∀ m, e ≠ Effect.messageReceived m) :
    messageSignals (e :: xs) = messageSignals xs := by
  cases e <;> first | rfl | exact absurd rfl (h _)

theorem messageSignals_logLine (c : NetworkClient) (text : String) :
    messageSignals (logLine c text) = [] := by
  unfold logLine
  split <;> rfl

theorem messageSignals_setConnectionStatus (c : NetworkClient) (t : ConnectionStatus) :
    messageSignals (setConnectionStatus c t).2 = [] := by
  unfold setConnectionStatus
  split
  · simp only [messageSignals_append, messageSignals_logLine]
    rfl
  · rfl

theorem messageSignals_disconnect (c : NetworkClient) :
    messageSignals (disconnect c).2 = [] := by
  unfold disconnect
  simp only [messageSignals_append, messageSignals_logLine,
    messageSignals_setConnectionStatus]
  cases (setConnectionStatus c ConnectionStatus.NotConnected).1.client_socket_ <;> rfl

theorem messageSignals_invokeHandler (handler : MessageHandler) (c : NetworkClient)
    (msg : MsgpackMsg) : messageSignals (invokeHandler handler c msg).2 = [] := by
  cases handler
  case handleConnectedMessage =>
    simp only [invokeHandler, handleConnectedMessage]
    split
    · exact messageSignals_logLine _ _
    · simp only [messageSignals_append, messageSignals_logLine,
        messageSignals_setConnectionStatus]
      cases (NodeTree.node (setConnectionStatus c ConnectionStatus.Connected).1.node_tree_
        NodeID.root) <;> rfl
  case handleProtoErrorMessage =>
    simp only [invokeHandler, handleProtoErrorMessage]
    split
    · simp only [messageSignals_append, messageSignals_logLine, messageSignals_disconnect,
        List.append_nil]
    · rfl
  case handleConnErrorMessage =>
    simp only [invokeHandler, handleConnErrorMessage]
    split
    · simp only [messageSignals_append, messageSignals_logLine, messageSignals_disconnect,
        List.append_nil]
    · rfl
  all_goals
    simp [invokeHandler, handleNodeTreeRelatedMessage, handleLoggedMessage,
      messageSignals_logLine, messageSignals_nil]

theorem messageSignals_dispatch (c : NetworkClient) (msg : MsgpackMsg) :
    messageSignals (dispatch c msg).2 = [msg] := by
  unfold dispatch
  split
  · simp only [messageSignals_append, messageSignals_invokeHandler]
    rfl
  · simp only [messageSignals_append, messageSignals_logLine]
    rfl

theorem invokeHandler_socket (handler : MessageHandler) (c : NetworkClient)
    (msg : MsgpackMsg) :
    (invokeHandler handler c msg).1.client_socket_ = c.client_socket_ := by
  cases handler
  case handleConnectedMessage =>
    simp only [invokeHandler, handleConnectedMessage]
    split
    · rfl
    · simp only [setConnectionStatus_state]
  case handleProtoErrorMessage =>
    simp only [invokeHandler, handleProtoErrorMessage]
    split
    · simp only [disconnect_state]
    · rfl
  case handleConnErrorMessage =>
    simp only [invokeHandler, handleConnErrorMessage]
    split
    · simp only [disconnect_state]
    · rfl
  all_goals
    simp [invokeHandler, handleNodeTreeRelatedMessage, handleLoggedMessage]

theorem dispatch_socket (c : NetworkClient) (msg : MsgpackMsg) :
    (dispatch c msg).1.client_socket_ = c.client_socket_ := by
  unfold dispatch
  split
  · exact invokeHandler_socket _ c msg
  · rfl

theorem newDataAvailable_message (c : NetworkClient) (sock : Nat) (msg : MsgpackMsg)
    (rest : List LoadResult) (h : c.client_socket_ = some sock) :
    newDataAvailable c (LoadResult.message msg :: rest)
      = ((newDataAvailable (dispatch c msg).1 rest).1,
         (dispatch c msg).2 ++ (newDataAvailable (dispatch c msg).1 rest).2) := by
  simp [newDataAvailable, h]

theorem messageSignals_newDataAvailable (msgs : List MsgpackMsg) :
    ∀ (c : NetworkClient) (sock : Nat), c.client_socket_ = some sock →
      messageSignals (newDataAvailable c (msgs.map LoadResult.message)).2 = msgs := by
  induction msgs with
  | nil =>
    intro c sock _
    rfl
  | cons m rest ih =>
    intro c sock h
    rw [List.map_cons, newDataAvailable_message c sock m _ h]
    simp only [messageSignals_append, messageSignals_dispatch]
    rw [ih (dispatch c m).1 sock (by rw [dispatch_socket, h])]
    rfl

/-- C17: for every message m that newDataAvailable decodes (so the client has a socket),
the call continues as the dispatch of m followed by the rest of the loop; the dispatch is
exactly one call of the handler registered for the tag of m followed by the signal
messageReceived(m) when a handler is registered, and leaves the state alone, logs and
emits messageReceived(m) when none is; in both cases messageReceived(m) is emitted
exactly once, and over a run of decoded messages the messageReceived signals are those
messages, each once, in order. -/
theorem C17_handler_once_then_signal (c : NetworkClient) (sock : Nat) (m : MsgpackMsg)
    (h : c.client_socket_ = some sock) :
    (∀ rest, newDataAvailable c (LoadResult.message m :: rest)
        = ((newDataAvailable (dispatch c m).1 rest).1,
           (dispatch c m).2 ++ (newDataAvailable (dispatch c m).1 rest).2))
    ∧ newDataAvailable c [LoadResult.message m] = ((dispatch c m).1, (dispatch c m).2 ++ [])
    ∧ (∀ handler, message_handlers_.lookup m.object_type = some handler →
        dispatch c m = ((invokeHandler handler c m).1,
          (invokeHandler handler c m).2 ++ [Effect.messageReceived m]))
    ∧ (message_handlers_.lookup m.object_type = none →
        dispatch c m = (c, logLine c ("NetworkClient: Received message of not handled type: \""
            ++ m.object_type ++ "\".\n") ++ [Effect.messageReceived m]))
    ∧ messageSignals (dispatch c m).2 = [m]
    ∧ (∀ msgs, messageSignals (newDataAvailable c (msgs.map LoadResult.message)).2
        = msgs) := by
  refine ⟨fun rest => newDataAvailable_message c sock m rest h, ?_, ?_, ?_,
    messageSignals_dispatch c m, fun msgs => messageSignals_newDataAvailable msgs c sock h⟩
  · rw [newDataAvailable_message c sock m [] h]
    rfl
  · intro handler hl
    simp only [dispatch, hl]
  · intro hl
    simp only [dispatch, hl]

/-- Witness of C17: a get_list_reply message decoded by the sample client that is
Connected, whose socket is socket 0. -/
theorem C17_handler_once_then_signal_witness :
    sampleConnected.client_socket_ = some 0
    ∧ newDataAvailable sampleConnected
        [LoadResult.message
          { object_type := "get_list_reply", body := MsgBody.MsgGetListReply 3 }]
      = ((dispatch sampleConnected
            { object_type := "get_list_reply", body := MsgBody.MsgGetListReply 3 }).1,
         (dispatch sampleConnected
            { object_type := "get_list_reply", body := MsgBody.MsgGetListReply 3 }).2 ++ [])
    ∧ messageSignals (dispatch sampleConnected
        { object_type := "get_list_reply", body := MsgBody.MsgGetListReply 3 }).2
      = [{ object_type := "get_list_reply", body := MsgBody.MsgGetListReply 3 }] :=
  ⟨by decide,
   (C17_handler_once_then_signal sampleConnected 0
      { object_type := "get_list_reply", body := MsgBody.MsgGetListReply 3 }
      (by decide)).2.1,
   (C17_handler_once_then_signal sampleConnected 0
      { object_type := "get_list_reply", body := MsgBody.MsgGetListReply 3 }
      (by decide)).2.2.2.2.1⟩

theorem lookup_query_error :
    message_handlers_.lookup "query_error"
      = some MessageHandler.handleNodeTreeRelatedMessage := by
  decide

/-- C18: for every client state, the dispatch of a message tagged query_error, or of a
message whose tag has no registered handler, leaves the whole client state unchanged,
in particular the connection status, the socket and the qid counter, and emits no
connectionStatusChanged. -/
theorem C18_no_global_effect (c : NetworkClient) (m : MsgpackMsg)
    (h : m.object_type = "query_error" ∨ message_handlers_.lookup m.object_type = none) :
    (dispatch c m).1 = c
    ∧ connectionStatus (dispatch c m).1 = connectionStatus c
    ∧ (dispatch c m).1.client_socket_ = c.client_socket_
    ∧ (dispatch c m).1.qid_ = c.qid_
    ∧ statusSignals (dispatch c m).2 = [] := by
  have hs : (dispatch c m).1 = c ∧ statusSignals (dispatch c m).2 = [] := by
    rcases h with h | h
    · simp only [dispatch, h, lookup_query_error, invokeHandler,
        handleNodeTreeRelatedMessage]
      exact ⟨trivial, rfl⟩
    · simp only [dispatch, h, statusSignals_append, statusSignals_logLine]
      exact ⟨trivial, rfl⟩
  obtain ⟨h1, h2⟩ := hs
  rw [h1]
  exact ⟨rfl, rfl, rfl, rfl, h2⟩

/-- Witness of C18: a query_error message and a message of an unregistered type
dispatched to the sample client that is Connected. -/
theorem C18_no_global_effect_witness :
    (dispatch sampleConnected
        { object_type := "query_error"
          body := MsgBody.MsgQueryError 7 "E_NOENT" "not found" }).1 = sampleConnected
    ∧ message_handlers_.lookup "no_such_type" = none
    ∧ (dispatch sampleConnected
        { object_type := "no_such_type", body := MsgBody.MsgOther }).1 = sampleConnected :=
  ⟨(C18_no_global_effect sampleConnected
      { object_type := "query_error"
        body := MsgBody.MsgQueryError 7 "E_NOENT" "not found" } (Or.inl rfl)).1,
   by decide,
   (C18_no_global_effect sampleConnected
      { object_type := "no_such_type", body := MsgBody.MsgOther }
      (Or.inr (by decide))).1⟩

/-- After a SchemaError the call of newDataAvailable ends: the client state is
unchanged, the error is logged, and nothing behind the failed frame is dispatched. -/
theorem newDataAvailable_schemaError (c : NetworkClient) (sock : Nat) (text : String)
    (rest : List LoadResult) (h : c.client_socket_ = some sock) :
    newDataAvailable c (LoadResult.schemaError text :: rest)
      = (c, logLine c ("NetworkClient: SchemaError - " ++ text ++ "\n")) := by
  simp [newDataAvailable, h]

/-- C19 evaluated on the code: the sample client that is Connected reads a malformed
frame followed by a valid get_list_reply message.  The status and the socket stay as
they were, but the call ends at the SchemaError: no messageReceived is emitted and the
valid message is not dispatched, while without the malformed frame it is. -/
theorem C19_decode_failure_ends_loop :
    sampleConnected.client_socket_ = some 0
    ∧ (newDataAvailable sampleConnected
        [ LoadResult.schemaError "malformed frame",
          LoadResult.message
            { object_type := "get_list_reply", body := MsgBody.MsgGetListReply 3 } ]).1
      = sampleConnected
    ∧ messageSignals (newDataAvailable sampleConnected
        [ LoadResult.schemaError "malformed frame",
          LoadResult.message
            { object_type := "get_list_reply", body := MsgBody.MsgGetListReply 3 } ]).2
      = []
    ∧ messageSignals (newDataAvailable sampleConnected
        [ LoadResult.message
            { object_type := "get_list_reply", body := MsgBody.MsgGetListReply 3 } ]).2
      = [{ object_type := "get_list_reply", body := MsgBody.MsgGetListReply 3 }] := by
  decide

theorem reset_node_other (t : NodeTree) (id : NodeID) (h : id ≠ NodeID.root) :
    t.reset.node id = none := by
  have h2 : ¬ NodeID.root = id := fun e => h e.symm
  simp [NodeTree.reset, NodeTree.node, Node.freshRoot, h2]

/-- C20: every socketConnected event on a client that has a socket is defined, calls
NodeTree::reset() exactly once, after the key and the connect message were handed to
the socket, and leaves the node tree reset: the lookup of every id other than the root
returns absent, the root is a fresh root without children, and no node of the tree
before the event remains. -/
theorem C20_tree_reset_on_connection (c : NetworkClient) (sock : Nat) (isValid : Bool)
    (h : c.client_socket_ = some sock) :
    ∃ r, socketConnected c isValid = some r
      ∧ r.2.count Effect.treeReset = 1
      ∧ r.2.getLast? = some Effect.treeReset
      ∧ r.1.node_tree_ = c.node_tree_.reset
      ∧ (∀ id, id ≠ NodeID.root → r.1.node_tree_.node id = none)
      ∧ r.1.node_tree_.node NodeID.root = some Node.freshRoot
      ∧ r.1.node_tree_.nodes = [Node.freshRoot] := by
  refine ⟨_, socketConnected_of_socket c isValid sock h, ?_, ?_, rfl,
    fun id hid => reset_node_other c.node_tree_ id hid, reset_node_root c.node_tree_, rfl⟩
  · unfold logLine
    cases isValid <;> split <;> simp
  · cases isValid <;> simp

/-- Witness of C20: the sample client that connects again while its tree still holds
node 1 of the earlier session; after socketConnected the lookup of node 1 is absent. -/
theorem C20_tree_reset_on_connection_witness :
    sampleReconnecting.client_socket_ = some 0
    ∧ (sampleReconnecting.node_tree_.node (NodeID.id 1)).isSome = true
    ∧ ∃ r, socketConnected sampleReconnecting true = some r
      ∧ r.1.node_tree_.node (NodeID.id 1) = none
      ∧ r.1.node_tree_.nodes = [Node.freshRoot] := by
  obtain ⟨r, h1, -, -, -, h5, -, h7⟩ :=
    C20_tree_reset_on_connection sampleReconnecting 0 true (by decide)
  exact ⟨by decide, by decide, r, h1, h5 (NodeID.id 1) (by decide), h7⟩

/-! ## Item models over the node tree -/

theorem node_id_eq (t : NodeTree) (id : NodeID) (n : Node) (h : t.node id = some n) :
    n.id = id := by
  have := List.find?_some h
  simpa using this

theorem isValid_createIndex {P : Type} (row column : Int) (ptr : Option P) :
    (createIndex row column ptr).isValid = (decide (0 ≤ row) && decide (0 ≤ column)) := by
  simp [createIndex, QModelIndex.isValid]

theorem isValid_invalid {P : Type} : (QModelIndex.invalid : QModelIndex P).isValid = false := by
  simp [QModelIndex.invalid, QModelIndex.isValid]

theorem nodeFromIndex_createIndex (m : NodeTreeModelBase) (row column : Int)
    (ptr : Option NodeID) (hr : 0 ≤ row) (hc : 0 ≤ column) :
    m.nodeFromIndex (createIndex row column ptr) = ptr := by
  simp [NodeTreeModelBase.nodeFromIndex, isValid_createIndex, hr, hc]
  rfl

theorem nodeFromIndex_not_valid (m : NodeTreeModelBase) (i : QModelIndex NodeID)
    (h : i.isValid = false) : m.nodeFromIndex i = none := by
  simp [NodeTreeModelBase.nodeFromIndex, h]

/-- C22: for every id that is in the tree, when Node::index() of its node is not
negative, idFromIndex(indexFromId(id)) is defined and is id; for every id that is not
in the tree indexFromId is the invalid index; and idFromIndex of the invalid index is
the nil id. -/
theorem C22_index_id_round_trip (m : NodeTreeModelBase) (nodeIndex : Node → Int)
    (id : NodeID) (n : Node) (h : m.node_tree_.node id = some n) (hidx : 0 ≤ nodeIndex n) :
    m.idFromIndex (m.indexFromId nodeIndex id) = some id
    ∧ (m.indexFromId nodeIndex id).isValid = true
    ∧ (∀ absent, m.node_tree_.node absent = none →
        m.indexFromId nodeIndex absent = QModelIndex.invalid)
    ∧ m.idFromIndex QModelIndex.invalid = some NodeID.nil := by
  refine ⟨?_, ?_, ?_, ?_⟩
  · simp only [NodeTreeModelBase.idFromIndex, NodeTreeModelBase.indexFromId, h,
      nodeFromIndex_createIndex m _ _ _ hidx (le_refl 0), node_id_eq _ _ _ h]
  · simp [NodeTreeModelBase.indexFromId, h, isValid_createIndex, hidx]
  · intro absent ha
    simp [NodeTreeModelBase.indexFromId, ha]
  · simp only [NodeTreeModelBase.idFromIndex,
      nodeFromIndex_not_valid m _ isValid_invalid]

theorem toInt_small (n : Nat) (h : n < 2 ^ 31) : toInt n = (n : Int) := by
  unfold toInt
  norm_num at h ⊢
  omega

theorem toUnsigned_nonneg (row : Int) (h0 : 0 ≤ row) (h1 : row < 2 ^ 31) :
    toUnsigned row = row := by
  unfold toUnsigned
  norm_num at h1 ⊢
  omega

theorem toUnsigned_neg (row : Int) (h0 : row < 0) (h1 : -2 ^ 31 ≤ row) :
    2 ^ 31 ≤ toUnsigned row := by
  unfold toUnsigned
  norm_num at h1 ⊢
  omega

/-- Counterexample to C23: under the root of the sample tree, which has two rows,
index(0, -1, root index) is createIndex(0, -1, node 1): row 0 is a row of the parent,
yet the index is not valid (its column is negative), it is not the invalid index
either, and idFromIndex of it is the nil id, not the id of the child at row 0. -/
theorem C23_negative_column_counterexample :
    sampleModel.rowCount (createIndex 0 0 (some NodeID.root)) = some 2
    ∧ sampleModel.index 0 (-1) (createIndex 0 0 (some NodeID.root))
        = some (createIndex 0 (-1) (some (NodeID.id 1)))
    ∧ (createIndex 0 (-1) (some (NodeID.id 1)) : QModelIndex NodeID).isValid = false
    ∧ (createIndex 0 (-1) (some (NodeID.id 1)) : QModelIndex NodeID) ≠ QModelIndex.invalid
    ∧ sampleModel.idFromIndex (createIndex 0 (-1) (some (NodeID.id 1)))
        = some NodeID.nil := by
  decide

/-- C23 as amended: for every valid parent index p whose node is in the tree and has n
children (fewer than 2^31, so that the count is an int), for every int row and every int
column: rowCount(p) is n; when 0 <= row < n, index(row, column, p) is
createIndex(row, column, child at position row), with that row and column; it is a valid
index exactly when the column is not negative, and then idFromIndex of it is the id of
that child; when the column is negative it is not valid, it is not the invalid index
either, and idFromIndex of it is the nil id; for every other row, every negative one
included, index(row, column, p) is the invalid index. -/
theorem C23_rows_address_children (m : NodeTreeModelBase) (p : QModelIndex NodeID)
    (ptr : NodeID) (node : Node) (row column : Int)
    (hp : m.nodeFromIndex p = some ptr) (hn : m.node_tree_.node ptr = some node)
    (hsize : node.children.length < 2 ^ 31)
    (hrow : -2 ^ 31 ≤ row ∧ row < 2 ^ 31) :
    m.rowCount p = some (node.children.length : Int)
    ∧ (0 ≤ row ∧ row < node.children.length →
        ∃ child, node.children[row.toNat]? = some child
          ∧ m.index row column p = some (createIndex row column (some child))
          ∧ (createIndex row column (some child)).row = row
          ∧ (createIndex row column (some child)).column = column
          ∧ ((createIndex row column (some child)).isValid = true ↔ 0 ≤ column)
          ∧ (0 ≤ column → ∀ cn, m.node_tree_.node child = some cn →
              m.idFromIndex (createIndex row column (some child)) = some child)
          ∧ (column < 0 →
              (createIndex row column (some child)).isValid = false
              ∧ createIndex row column (some child) ≠ QModelIndex.invalid
              ∧ m.idFromIndex (createIndex row column (some child)) = some NodeID.nil))
    ∧ (¬ (0 ≤ row ∧ row < node.children.length) →
        m.index row column p = some QModelIndex.invalid) := by
  refine ⟨?_, ?_, ?_⟩
  · simp only [NodeTreeModelBase.rowCount, hp, hn, toInt_small _ hsize]
  · rintro ⟨h0, h1⟩
    have hlt : row.toNat < node.children.length := by omega
    refine ⟨node.children[row.toNat], List.getElem?_eq_getElem hlt, ?_, rfl, rfl, ?_, ?_,
      ?_⟩
    · have hu := toUnsigned_nonneg row h0 hrow.2
      simp only [NodeTreeModelBase.index, hp, hn, hu, gt_iff_lt, h1, if_true, h0,
        List.getElem?_eq_getElem hlt]
    · simp [isValid_createIndex, h0]
    · intro hcol cn hcn
      simp only [NodeTreeModelBase.idFromIndex, nodeFromIndex_createIndex m _ _ _ h0 hcol,
        hcn, node_id_eq _ _ _ hcn]
    · intro hcol
      have hv : (createIndex row column (some node.children[row.toNat])).isValid = false := by
        have hc : ¬ 0 ≤ column := by omega
        simp [isValid_createIndex, hc]
      refine ⟨hv, ?_, ?_⟩
      · intro e
        have := congrArg QModelIndex.hasModel e
        simp [createIndex, QModelIndex.invalid] at this
      · simp only [NodeTreeModelBase.idFromIndex, nodeFromIndex_not_valid m _ hv]
  · intro hnot
    have hcond : ¬ ((node.children.length : Int) > toUnsigned row) := by
      by_cases h0 : 0 ≤ row
      · rw [toUnsigned_nonneg row h0 hrow.2]
        omega
      · have := toUnsigned_neg row (by omega) hrow.1
        have h2 : (node.children.length : Int) < 2 ^ 31 := by exact_mod_cast hsize
        omega
    simp only [NodeTreeModelBase.index, hp, hn, hcond, if_false]

theorem nodeFromIndex_some (m : NodeTreeModelBase) (p : QModelIndex NodeID) (ptr : NodeID)
    (h : m.nodeFromIndex p = some ptr) :
    p.isValid = true ∧ p.internalPointer = some ptr ∧ p.hasModel = true := by
  unfold NodeTreeModelBase.nodeFromIndex at h
  by_cases hv : p.isValid = true
  · rw [if_pos hv] at h
    refine ⟨hv, h, ?_⟩
    simp only [QModelIndex.isValid, Bool.and_eq_true] at hv
    exact hv.2
  · rw [if_neg hv] at h
    exact absurd h (by simp)

/-- Counterexample to C24: in the sample tree, with p the index of node 1 (one row),
index(0, -1, p) is createIndex(0, -1, node 3), which is not valid, so parent of it is
the invalid index and not p. -/
theorem C24_negative_column_counterexample :
    sampleModel.rowCount (createIndex 0 0 (some (NodeID.id 1))) = some 1
    ∧ sampleModel.index 0 (-1) (createIndex 0 0 (some (NodeID.id 1)))
        = some (createIndex 0 (-1) (some (NodeID.id 3)))
    ∧ sampleModel.parent samplePosition (createIndex 0 (-1) (some (NodeID.id 3)))
        = some QModelIndex.invalid
    ∧ (QModelIndex.invalid : QModelIndex NodeID) ≠ createIndex 0 0 (some (NodeID.id 1)) := by
  decide

/-- C24 as amended: under the tree invariant (the node of p is in the tree and
Node::index() of it is the row of p; the child at position row of that node is in the
tree and its parent is the node of p), for every valid index p in column 0, every row of
p (0 <= row < rowCount(p)) and every column, index(row, column, p) is
createIndex(row, column, child at that row); when the column is not negative,
parent(index(row, column, p)) is p itself: the same node at the same row; when the column
is negative, index(row, column, p) is not valid and parent of it is the invalid index,
which is not p.  Without any assumption on the tree, parent(i) is the invalid index when
i is not valid, and when the node of i has no parent. -/
theorem C24_parent_inverts_index (m : NodeTreeModelBase) (nodeIndex : Node → Int) :
    (∀ (p : QModelIndex NodeID) (ptr : NodeID) (node : Node) (row column : Int)
      (child : NodeID) (cn : Node),
      m.nodeFromIndex p = some ptr → p.column = 0 →
      m.node_tree_.node ptr = some node → p.row = nodeIndex node →
      node.children.length < 2 ^ 31 →
      0 ≤ row → node.children[row.toNat]? = some child →
      m.node_tree_.node child = some cn → cn.parent = some ptr →
        m.rowCount p = some (node.children.length : Int)
        ∧ row < node.children.length
        ∧ m.index row column p = some (createIndex row column (some child))
        ∧ (0 ≤ column →
            m.parent nodeIndex (createIndex row column (some child)) = some p)
        ∧ (column < 0 →
            (createIndex row column (some child)).isValid = false
            ∧ m.parent nodeIndex (createIndex row column (some child))
                = some QModelIndex.invalid
            ∧ QModelIndex.invalid ≠ p))
    ∧ (∀ i, i.isValid = false → m.parent nodeIndex i = some QModelIndex.invalid)
    ∧ (∀ i q qn, m.nodeFromIndex i = some q → m.node_tree_.node q = some qn →
        qn.parent = none → m.parent nodeIndex i = some QModelIndex.invalid) := by
  have hinv : ∀ i : QModelIndex NodeID, i.isValid = false →
      m.parent nodeIndex i = some QModelIndex.invalid := by
    intro i hi
    simp only [NodeTreeModelBase.parent, hi]
    rfl
  refine ⟨?_, hinv, ?_⟩
  · intro p ptr node row column child cn hp hcol0 hn hprow hsize hrow hchild hcn hpar
    obtain ⟨hv, hptr, hmodel⟩ := nodeFromIndex_some m p ptr hp
    have hlt : row.toNat < node.children.length := by
      by_contra hge
      rw [List.getElem?_eq_none (by omega)] at hchild
      exact absurd hchild (by simp)
    have hrow2 : row < 2 ^ 31 := by
      have h2 : (node.children.length : Int) < 2 ^ 31 := by exact_mod_cast hsize
      omega
    have h1 : row < node.children.length := by omega
    refine ⟨?_, h1, ?_, ?_, ?_⟩
    · simp only [NodeTreeModelBase.rowCount, hp, hn, toInt_small _ hsize]
    · have hu := toUnsigned_nonneg row hrow hrow2
      simp only [NodeTreeModelBase.index, hp, hn, hu, gt_iff_lt, h1, if_true, hrow, hchild]
    · intro hcol
      have hvc : (createIndex row column (some child)).isValid = true := by
        simp [isValid_createIndex, hrow, hcol]
      simp only [NodeTreeModelBase.parent, hvc, if_true,
        NodeTreeModelBase.parentNodeFromIndex,
        nodeFromIndex_createIndex m _ _ _ hrow hcol, hcn, hpar, hn]
      obtain ⟨r, c, ip, hm⟩ := p
      simp only at hcol0 hprow hptr hmodel
      subst hcol0
      subst hprow
      subst hptr
      subst hmodel
      rfl
    · intro hcol
      have hvc : (createIndex row column (some child)).isValid = false := by
        have hc : ¬ 0 ≤ column := by omega
        simp [isValid_createIndex, hc]
      refine ⟨hvc, hinv _ hvc, ?_⟩
      intro e
      rw [← e, isValid_invalid] at hv
      exact Bool.noConfusion hv
  · intro i q qn hq hqn hnone
    have hvi := (nodeFromIndex_some m i q hq).1
    simp only [NodeTreeModelBase.parent, hvi, if_true,
      NodeTreeModelBase.parentNodeFromIndex, hq, hqn, hnone]

/-- C26: in the top-level resources model, for every valid index p whose node is in the
tree (with fewer than 2^31 children), rowCount(p) is the number of children of that node
when the node is the root and 0 when it is any other node, even one with children, and
hasChildren(p) is true iff the node is the root and has at least one child; for every
index that is not valid (or has a null pointer) rowCount is 0 and hasChildren is
false. -/
theorem C26_top_level_rows (m : NodeTreeModelBase) (p : QModelIndex NodeID)
    (ptr : NodeID) (node : Node)
    (hp : m.nodeFromIndex p = some ptr) (hn : m.node_tree_.node ptr = some node)
    (hsize : node.children.length < 2 ^ 31) :
    (ptr = NodeID.root →
      TopLevelResourcesModel.rowCount m p = some (node.children.length : Int))
    ∧ (ptr ≠ NodeID.root → TopLevelResourcesModel.rowCount m p = some 0)
    ∧ (TopLevelResourcesModel.hasChildren m p = some true ↔
        (ptr = NodeID.root ∧ node.children ≠ []))
    ∧ (TopLevelResourcesModel.hasChildren m p = some true
        ∨ TopLevelResourcesModel.hasChildren m p = some false)
    ∧ (∀ q, m.nodeFromIndex q = none →
        TopLevelResourcesModel.rowCount m q = some 0
        ∧ TopLevelResourcesModel.hasChildren m q = some false) := by
  have hid := node_id_eq _ _ _ hn
  have hv := (nodeFromIndex_some m p ptr hp).1
  refine ⟨?_, ?_, ?_, ?_, ?_⟩
  · intro hr
    have hid2 : node.id = NodeID.root := by rw [hid, hr]
    simp only [TopLevelResourcesModel.rowCount, hp, hn, hid2, if_true,
      toInt_small _ hsize]
  · intro hr
    have hid2 : ¬ node.id = NodeID.root := by rw [hid]; exact hr
    simp only [TopLevelResourcesModel.rowCount, hp, hn, hid2, if_false]
  · simp only [TopLevelResourcesModel.hasChildren, hv, if_true, hp, hn, hid]
    cases hc : node.children <;> simp
  · simp only [TopLevelResourcesModel.hasChildren, hv, if_true, hp, hn]
    cases (decide (node.id = NodeID.root) && !node.children.isEmpty) <;> simp
  · intro q hq
    constructor
    · simp only [TopLevelResourcesModel.rowCount, hq]
    · simp only [TopLevelResourcesModel.hasChildren, hq]
      split <;> rfl

/-- Witness of C22: node 2 of the sample tree. -/
theorem C22_index_id_round_trip_witness :
    sampleModel.node_tree_.node (NodeID.id 2) = some sampleNode2
    ∧ sampleModel.indexFromId samplePosition (NodeID.id 2)
        = createIndex 1 0 (some (NodeID.id 2))
    ∧ sampleModel.idFromIndex (sampleModel.indexFromId samplePosition (NodeID.id 2))
        = some (NodeID.id 2) :=
  ⟨by decide, by decide,
   (C22_index_id_round_trip sampleModel samplePosition (NodeID.id 2) sampleNode2
      (by decide) (by decide)).1⟩

/-- Witness of C23 as amended: the index of the root of the sample tree, row 1 and row -1,
column 2. -/
theorem C23_rows_address_children_witness :
    sampleModel.nodeFromIndex (createIndex 0 0 (some NodeID.root)) = some NodeID.root
    ∧ sampleModel.rowCount (createIndex 0 0 (some NodeID.root)) = some 2
    ∧ sampleModel.index 1 2 (createIndex 0 0 (some NodeID.root))
        = some (createIndex 1 2 (some (NodeID.id 2)))
    ∧ sampleModel.index (-1) 2 (createIndex 0 0 (some NodeID.root))
        = some QModelIndex.invalid := by
  have h := C23_rows_address_children sampleModel (createIndex 0 0 (some NodeID.root))
    NodeID.root sampleRootNode (-1) 2 (by decide) (by decide) (by decide) (by decide)
  exact ⟨by decide, h.1, by decide, h.2.2 (by decide)⟩

/-- Witness of C24 as amended: the index of node 1 of the sample tree and its child at
row 0, node 3, in column 3 and in column -1; and the index of the root of the tree that
a reset leaves, whose node has no parent. -/
theorem C24_parent_inverts_index_witness :
    sampleModel.index 0 3 (createIndex 0 0 (some (NodeID.id 1)))
      = some (createIndex 0 3 (some (NodeID.id 3)))
    ∧ sampleModel.parent samplePosition (createIndex 0 3 (some (NodeID.id 3)))
      = some (createIndex 0 0 (some (NodeID.id 1)))
    ∧ sampleModel.parent samplePosition (createIndex 0 (-1) (some (NodeID.id 3)))
      = some QModelIndex.invalid
    ∧ NodeTreeModelBase.parent
        { node_tree_ := sampleTree.reset, root_ := NodeID.root } samplePosition
        (createIndex 0 0 (some NodeID.root))
      = some QModelIndex.invalid := by
  have h := (C24_parent_inverts_index sampleModel samplePosition).1
    (createIndex 0 0 (some (NodeID.id 1))) (NodeID.id 1) sampleNode1 0 3 (NodeID.id 3)
    sampleNode3 (by decide) (by decide) (by decide) (by decide) (by decide) (by decide)
    (by decide) (by decide) (by decide)
  have h2 := (C24_parent_inverts_index sampleModel samplePosition).1
    (createIndex 0 0 (some (NodeID.id 1))) (NodeID.id 1) sampleNode1 0 (-1) (NodeID.id 3)
    sampleNode3 (by decide) (by decide) (by decide) (by decide) (by decide) (by decide)
    (by decide) (by decide) (by decide)
  have h3 := (C24_parent_inverts_index
      { node_tree_ := sampleTree.reset, root_ := NodeID.root } samplePosition).2.2
    (createIndex 0 0 (some NodeID.root)) NodeID.root Node.freshRoot (by decide)
    (by decide) (by decide)
  exact ⟨h.2.2.1, h.2.2.2.1 (by decide), (h2.2.2.2.2 (by decide)).2.1, h3⟩

/-- Witness of C26: in the sample tree the index of the root has two rows and the index
of node 1, which has a child, has none. -/
theorem C26_top_level_rows_witness :
    TopLevelResourcesModel.rowCount sampleModel (createIndex 0 0 (some NodeID.root))
      = some 2
    ∧ TopLevelResourcesModel.rowCount sampleModel (createIndex 0 0 (some (NodeID.id 1)))
      = some 0 := by
  have h1 := C26_top_level_rows sampleModel (createIndex 0 0 (some NodeID.root))
    NodeID.root sampleRootNode (by decide) (by decide) (by decide)
  have h2 := C26_top_level_rows sampleModel (createIndex 0 0 (some (NodeID.id 1)))
    (NodeID.id 1) sampleNode1 (by decide) (by decide) (by decide)
  exact ⟨h1.1 rfl, h2.2.1 (by decide)⟩

theorem indexFromId_of_node (m : NodeTreeModelBase) (nodeIndex : Node → Int)
    (id : NodeID) (n : Node) (h : m.node_tree_.node id = some n) :
    m.indexFromId nodeIndex n.id = createIndex (nodeIndex n) 0 (some id) := by
  rw [node_id_eq _ _ _ h]
  simp only [NodeTreeModelBase.indexFromId, h]

theorem indexFromPosLoop_first (m : NodeTreeModelBase) (nodeIndex : Node → Int)
    (pos : Int) (l : List NodeID) :
    ∀ (k : Nat) (child : NodeID) (cn : Node), l[k]? = some child →
      m.node_tree_.node child = some cn → cn.start ≤ pos → pos < cn.end_ →
      (∀ j, j < k → ∀ cj, l[j]? = some cj →
        ∃ cjn, m.node_tree_.node cj = some cjn ∧ ¬ (cjn.start ≤ pos ∧ pos < cjn.end_)) →
      NodeTreeModel.indexFromPosLoop m nodeIndex pos l
        = some (createIndex (nodeIndex cn) 0 (some child)) := by
  induction l with
  | nil =>
    intro k child cn hk
    simp at hk
  | cons c rest ih =>
    intro k child cn hk hcn h1 h2 hbefore
    cases k with
    | zero =>
      simp only [List.getElem?_cons_zero, Option.some.injEq] at hk
      subst hk
      simp only [NodeTreeModel.indexFromPosLoop, hcn, ge_iff_le, h1, h2, and_self, if_true,
        indexFromId_of_node m nodeIndex _ _ hcn]
    | succ k =>
      obtain ⟨cjn, hcjn, hnot⟩ := hbefore 0 (Nat.succ_pos k) c (by simp)
      simp only [List.getElem?_cons_succ] at hk
      simp only [NodeTreeModel.indexFromPosLoop, hcjn, ge_iff_le, hnot, if_false]
      apply ih k child cn hk hcn h1 h2
      intro j hj cj hcj
      exact hbefore (j + 1) (Nat.succ_lt_succ hj) cj (by simpa using hcj)

theorem indexFromPosLoop_none (m : NodeTreeModelBase) (nodeIndex : Node → Int)
    (pos : Int) (l : List NodeID)
    (h : ∀ c ∈ l, ∃ cn, m.node_tree_.node c = some cn
      ∧ ¬ (cn.start ≤ pos ∧ pos < cn.end_)) :
    NodeTreeModel.indexFromPosLoop m nodeIndex pos l = some QModelIndex.invalid := by
  induction l with
  | nil => rfl
  | cons c rest ih =>
    obtain ⟨cn, hcn, hnot⟩ := h c (List.mem_cons_self _ _)
    simp only [NodeTreeModel.indexFromPosLoop, hcn, ge_iff_le, hnot, if_false]
    exact ih (fun c2 hc2 => h c2 (List.mem_cons_of_mem _ hc2))

/-- C27: for every valid parent index whose node is in the tree (with fewer than 2^32
children, all of them in the tree) and every position pos: when the child at position k
is the first, in child order, whose span satisfies start <= pos < end, indexFromPos
returns the index of that child, createIndex(Node::index() of the child, 0, the child);
the end is exclusive, so a child with pos = end does not match; when no child has such a
span the result is the invalid index, and so it is when the parent index is not
valid. -/
theorem C27_index_of_first_child_at_pos (m : NodeTreeModelBase) (nodeIndex : Node → Int)
    (pos : Int) (parent : QModelIndex NodeID) (ptr : NodeID) (node : Node)
    (hp : m.nodeFromIndex parent = some ptr) (hn : m.node_tree_.node ptr = some node)
    (_hsize : node.children.length < 2 ^ 32)
    (hlive : ∀ c ∈ node.children, (m.node_tree_.node c).isSome = true) :
    (∀ (k : Nat) (child : NodeID) (cn : Node), node.children[k]? = some child →
      m.node_tree_.node child = some cn → cn.start ≤ pos → pos < cn.end_ →
      (∀ j, j < k → ∀ cj cjn, node.children[j]? = some cj →
        m.node_tree_.node cj = some cjn → ¬ (cjn.start ≤ pos ∧ pos < cjn.end_)) →
      NodeTreeModel.indexFromPos m nodeIndex pos parent
        = some (createIndex (nodeIndex cn) 0 (some child)))
    ∧ ((∀ c ∈ node.children, ∀ cn, m.node_tree_.node c = some cn →
          ¬ (cn.start ≤ pos ∧ pos < cn.end_)) →
        NodeTreeModel.indexFromPos m nodeIndex pos parent = some QModelIndex.invalid)
    ∧ (∀ c ∈ node.children, ∀ cn, m.node_tree_.node c = some cn → pos = cn.end_ →
        ¬ (cn.start ≤ pos ∧ pos < cn.end_))
    ∧ (∀ q, m.nodeFromIndex q = none →
        NodeTreeModel.indexFromPos m nodeIndex pos q = some QModelIndex.invalid) := by
  refine ⟨?_, ?_, ?_, ?_⟩
  · intro k child cn hk hcn h1 h2 hbefore
    simp only [NodeTreeModel.indexFromPos, hp, hn]
    apply indexFromPosLoop_first m nodeIndex pos node.children k child cn hk hcn h1 h2
    intro j hj cj hcj
    obtain ⟨cjn, hcjn⟩ := Option.isSome_iff_exists.mp (hlive cj (List.getElem?_mem hcj))
    exact ⟨cjn, hcjn, hbefore j hj cj cjn hcj hcjn⟩
  · intro hnone
    simp only [NodeTreeModel.indexFromPos, hp, hn]
    apply indexFromPosLoop_none
    intro c hc
    obtain ⟨cn, hcn⟩ := Option.isSome_iff_exists.mp (hlive c hc)
    exact ⟨cn, hcn, hnone c hc cn hcn⟩
  · intro c _ cn _ he h
    omega
  · intro q hq
    simp only [NodeTreeModel.indexFromPos, hq]

/-- Witness of C27: under the root of the sample tree, position 16 is the end of node 1
and the start of node 2, so the index of node 2 is returned; position 70000 is in no
child. -/
theorem C27_index_of_first_child_at_pos_witness :
    NodeTreeModel.indexFromPos sampleModel samplePosition 16
        (createIndex 0 0 (some NodeID.root))
      = some (createIndex 1 0 (some (NodeID.id 2)))
    ∧ NodeTreeModel.indexFromPos sampleModel samplePosition 70000
        (createIndex 0 0 (some NodeID.root))
      = some QModelIndex.invalid := by
  have h := C27_index_of_first_child_at_pos sampleModel samplePosition 16
    (createIndex 0 0 (some NodeID.root)) NodeID.root sampleRootNode (by decide) (by decide)
    (by decide) (by decide)
  have h2 := C27_index_of_first_child_at_pos sampleModel samplePosition 70000
    (createIndex 0 0 (some NodeID.root)) NodeID.root sampleRootNode (by decide) (by decide)
    (by decide) (by decide)
  refine ⟨h.1 1 (NodeID.id 2) sampleNode2 (by decide) (by decide) (by decide) (by decide)
    ?_, h2.2.1 (by decide)⟩
  intro j hj cj cjn hcj hcjn
  have hj0 : j = 0 := by omega
  subst hj0
  have h3 : cj = NodeID.id 1 := by
    have : sampleRootNode.children[0]? = some (NodeID.id 1) := by decide
    rw [this] at hcj
    exact (Option.some.inj hcj).symm
  subst h3
  have h4 : cjn = sampleNode1 := by
    have : sampleModel.node_tree_.node (NodeID.id 1) = some sampleNode1 := by decide
    rw [this] at hcjn
    exact (Option.some.inj hcjn).symm
  subst h4
  decide

/-! ## Hexadecimal positions -/

theorem hexValue_digitChar (d : Nat) (h : d < 16) : hexValue (Nat.digitChar d) = some d := by
  interval_cases d <;> rfl

theorem digitChar_mem_hex (d : Nat) (h : d < 16) :
    Nat.digitChar d ∈ "0123456789abcdef".data := by
  interval_cases d <;> decide

theorem parseHex_append_digit (s : List Char) (a d : Nat) (c : Char)
    (hs : parseHex s = some a) (hc : hexValue c = some d) :
    parseHex (s ++ [c]) = some (a * 16 + d) := by
  unfold parseHex at hs ⊢
  rw [List.foldl_append, hs]
  simp [hc]

theorem parseHex_hexDigits (fuel : Nat) :
    ∀ n, n < 16 ^ fuel → parseHex (hexDigits fuel n) = some n := by
  induction fuel with
  | zero =>
    intro n hn
    have : n = 0 := by simpa using hn
    subst this
    rfl
  | succ fuel ih =>
    intro n hn
    unfold hexDigits
    split
    · rename_i hlt
      have := parseHex_append_digit [] 0 n (Nat.digitChar n) rfl (hexValue_digitChar n hlt)
      simpa using this
    · have hdiv : n / 16 < 16 ^ fuel := by
        rw [Nat.div_lt_iff_lt_mul (by norm_num)]
        rw [pow_succ] at hn
        exact hn
      have := parseHex_append_digit _ _ _ (Nat.digitChar (n % 16)) (ih _ hdiv)
        (hexValue_digitChar (n % 16) (Nat.mod_lt _ (by norm_num)))
      rw [this]
      congr 1
      omega

theorem parseHex_zero_cons (s : List Char) : parseHex ('0' :: s) = parseHex s := by
  unfold parseHex
  rw [List.foldl_cons]
  rfl

theorem parseHex_replicate_zero (k : Nat) (s : List Char) :
    parseHex (List.replicate k '0' ++ s) = parseHex s := by
  induction k with
  | zero => rfl
  | succ k ih => rw [List.replicate_succ, List.cons_append, parseHex_zero_cons, ih]

theorem zeroPadLoop_eq (fuel : Nat) :
    ∀ num : List Char, 4 - num.length ≤ fuel →
      zeroPadLoop fuel num = List.replicate (4 - num.length) '0' ++ num := by
  induction fuel with
  | zero =>
    intro num h
    have h0 : 4 - num.length = 0 := by omega
    simp [zeroPadLoop, h0]
  | succ fuel ih =>
    intro num h
    unfold zeroPadLoop
    split
    · rename_i hlt
      rw [ih ('0' :: num) (by simp only [List.length_cons]; omega)]
      have h1 : 4 - num.length = (4 - ('0' :: num).length) + 1 := by
        simp only [List.length_cons]; omega
      rw [h1, List.replicate_succ', List.append_assoc]
      rfl
    · rename_i hge
      have h0 : 4 - num.length = 0 := by omega
      simp [h0]

theorem hexDigits_mem_hex (fuel : Nat) :
    ∀ n, ∀ c ∈ hexDigits fuel n, c ∈ "0123456789abcdef".data := by
  induction fuel with
  | zero =>
    intro n c hc
    simp [hexDigits] at hc
  | succ fuel ih =>
    intro n c hc
    unfold hexDigits at hc
    split at hc
    · rename_i hlt
      rw [List.mem_singleton] at hc
      rw [hc]
      exact digitChar_mem_hex n hlt
    · rw [List.mem_append, List.mem_singleton] at hc
      rcases hc with hc | hc
      · exact ih _ c hc
      · rw [hc]
        exact digitChar_mem_hex _ (Nat.mod_lt _ (by norm_num))

theorem hexDigits_length (fuel : Nat) :
    ∀ n, n < 16 ^ fuel → 1 ≤ fuel → (hexDigits fuel n).length = Nat.log 16 n + 1 := by
  induction fuel with
  | zero =>
    intro n _ h1
    omega
  | succ fuel ih =>
    intro n hn _
    unfold hexDigits
    split
    · rename_i hlt
      rw [Nat.log_of_lt hlt]
      rfl
    · rename_i hge
      have hdiv : n / 16 < 16 ^ fuel := by
        rw [Nat.div_lt_iff_lt_mul (by norm_num)]
        rw [pow_succ] at hn
        exact hn
      have hfuel : 1 ≤ fuel := by
        rcases Nat.eq_zero_or_pos fuel with h0 | h0
        · subst h0
          simp at hn
          omega
        · exact h0
      rw [List.length_append, ih _ hdiv hfuel, List.length_singleton]
      have := Nat.log_of_one_lt_of_le (b := 16) (n := n) (by norm_num) (by omega)
      omega

theorem hexDigits_fuel (f1 : Nat) :
    ∀ f2 n, n < 16 ^ f1 → 1 ≤ f1 → f1 ≤ f2 → hexDigits f2 n = hexDigits f1 n := by
  induction f1 with
  | zero =>
    intro f2 n _ h1
    omega
  | succ f1 ih =>
    intro f2 n hn _ hle
    obtain ⟨g, rfl⟩ : ∃ g, f2 = g + 1 := ⟨f2 - 1, by omega⟩
    unfold hexDigits
    split
    · rfl
    · rename_i hge
      have hdiv : n / 16 < 16 ^ f1 := by
        rw [Nat.div_lt_iff_lt_mul (by norm_num)]
        rw [pow_succ] at hn
        exact hn
      have hfuel : 1 ≤ f1 := by
        rcases Nat.eq_zero_or_pos f1 with h0 | h0
        · subst h0
          simp at hn
          omega
        · exact h0
      rw [ih g (n / 16) hdiv hfuel (by omega)]

theorem number16_length (n : Nat) (h : n < 2 ^ 64) :
    (number16 n).length = Nat.log 16 n + 1 :=
  hexDigits_length 16 n (by norm_num at h ⊢; exact h) (by norm_num)

theorem zeroPaddedHexNumber_data (n : Nat) :
    (zeroPaddedHexNumber n).data
      = List.replicate (4 - (number16 n).length) '0' ++ number16 n := by
  unfold zeroPaddedHexNumber
  rw [zeroPadLoop_eq 4 _ (Nat.sub_le _ _)]

theorem zeroPaddedHexNumber_length (n : Nat) (h : n < 2 ^ 64) :
    (zeroPaddedHexNumber n).length = max 4 (Nat.log 16 n + 1) := by
  have hd := zeroPaddedHexNumber_data n
  have hl : (zeroPaddedHexNumber n).length = (zeroPaddedHexNumber n).data.length := rfl
  rw [hl, hd, List.length_append, List.length_replicate, number16_length n h]
  omega

/-- C29: for every unsigned 64-bit number n, zeroPaddedHexNumber(n) is the lowercase
hexadecimal representation of n preceded by as many '0' as are needed to reach the length
max(4, number of hexadecimal digits of n): no digit is dropped, every character is a
hexadecimal digit, and the string read as a hexadecimal number is n.  The loop ends:
within four rounds the length is at least 4, and more fuel does not change the
result. -/
theorem C29_zero_padded_hex (n : Nat) (h : n < 2 ^ 64) :
    (zeroPaddedHexNumber n).data
      = List.replicate (max 4 (Nat.log 16 n + 1) - (Nat.log 16 n + 1)) '0' ++ number16 n
    ∧ (number16 n).length = Nat.log 16 n + 1
    ∧ (zeroPaddedHexNumber n).length = max 4 (Nat.log 16 n + 1)
    ∧ (∀ c ∈ (zeroPaddedHexNumber n).data, c ∈ "0123456789abcdef".data)
    ∧ parseHex (number16 n) = some n
    ∧ parseHex (zeroPaddedHexNumber n).data = some n
    ∧ 4 ≤ (zeroPadLoop 4 (number16 n)).length
    ∧ (∀ fuel, 4 ≤ fuel → zeroPadLoop fuel (number16 n) = zeroPadLoop 4 (number16 n))
    ∧ (∀ fuel, 16 ≤ fuel → hexDigits fuel n = number16 n) := by
  have h16 : n < 16 ^ 16 := by norm_num at h ⊢; exact h
  have hlen := number16_length n h
  have hdata := zeroPaddedHexNumber_data n
  have hparse : parseHex (number16 n) = some n := parseHex_hexDigits 16 n h16
  refine ⟨?_, hlen, zeroPaddedHexNumber_length n h, ?_, hparse, ?_, ?_, ?_, ?_⟩
  · rw [hdata, hlen]
    congr 2
    omega
  · intro c hc
    rw [hdata, List.mem_append] at hc
    rcases hc with hc | hc
    · rw [List.eq_of_mem_replicate hc]
      decide
    · exact hexDigits_mem_hex 16 n c hc
  · rw [hdata, parseHex_replicate_zero, hparse]
  · rw [zeroPadLoop_eq 4 _ (Nat.sub_le _ _), List.length_append, List.length_replicate]
    omega
  · intro fuel hf
    rw [zeroPadLoop_eq fuel _ (by omega), zeroPadLoop_eq 4 _ (Nat.sub_le _ _)]
  · intro fuel hf
    exact hexDigits_fuel 16 fuel n h16 (by norm_num) hf

/-- Witness of C29: the number 48879, whose hexadecimal digits are beef. -/
theorem C29_zero_padded_hex_witness :
    (48879 : Nat) < 2 ^ 64
    ∧ zeroPaddedHexNumber 48879 = "beef"
    ∧ zeroPaddedHexNumber 255 = "00ff"
    ∧ parseHex (zeroPaddedHexNumber 48879).data = some 48879 :=
  ⟨by norm_num, by decide, by decide,
   (C29_zero_padded_hex 48879 (by norm_num)).2.2.2.2.2.1⟩

theorem toUInt64_lt (i : Int) : toUInt64 i < 2 ^ 64 := by
  unfold toUInt64
  have h1 : 0 ≤ i % 2 ^ 64 := Int.emod_nonneg _ (by norm_num)
  have h2 : i % 2 ^ 64 < 2 ^ 64 := Int.emod_lt_of_pos _ (by norm_num)
  omega

theorem positionColumnDisplay_length (node : Node) :
    (positionColumnDisplay node).length
      = (zeroPaddedHexNumber (toUInt64 node.start)).length + 1
        + (zeroPaddedHexNumber (toUInt64 node.end_)).length := by
  unfold positionColumnDisplay
  rw [String.length_append, String.length_append]
  rfl

/-- Counterexample to C25: node 1 of the sample tree (bytes 0 to 16) is shown as
0000:0010, nine characters, and node 2 (bytes 16 to 65536) as 0010:10000, ten
characters, its end written with five digits and its start with four. -/
theorem C25_position_width_counterexample :
    positionColumnDisplay sampleNode1 = "0000:0010"
    ∧ positionColumnDisplay sampleNode2 = "0010:10000"
    ∧ (positionColumnDisplay sampleNode1).length = 9
    ∧ (positionColumnDisplay sampleNode2).length = 10
    ∧ (zeroPaddedHexNumber 16).length = 4
    ∧ (zeroPaddedHexNumber 65536).length = 5 := by
  decide

theorem toUInt64_nonneg (v : Int) (h0 : 0 ≤ v) (h1 : v < 2 ^ 63) :
    toUInt64 v = v.toNat := by
  unfold toUInt64
  norm_num at h1 ⊢
  omega

theorem toUInt64_neg (v : Int) (h0 : -2 ^ 63 ≤ v) (h1 : v < 0) :
    toUInt64 v = (v + 2 ^ 64).toNat := by
  unfold toUInt64
  norm_num at h0 ⊢
  omega

/-- C25 as amended: for every node whose offsets are int64 values, the display text of
the Position column is zeroPaddedHexNumber of the start offset, a colon and
zeroPaddedHexNumber of the end offset, each offset converted to an unsigned 64-bit
number on the way: an offset that is not negative keeps its value and a negative offset
v becomes 2^64 + v.  An offset from 0 to 65535 is written with exactly four digits, an
offset of 65536 or more with all its digits, more than four, and a negative offset with
sixteen digits.  The text has nine characters exactly when both offsets are from 0 to
65535 and is longer otherwise. -/
theorem C25_position_padded_to_four (node : Node)
    (hs : -2 ^ 63 ≤ node.start ∧ node.start < 2 ^ 63)
    (he : -2 ^ 63 ≤ node.end_ ∧ node.end_ < 2 ^ 63) :
    positionColumnDisplay node
      = zeroPaddedHexNumber (toUInt64 node.start) ++ ":"
        ++ zeroPaddedHexNumber (toUInt64 node.end_)
    ∧ (∀ v : Int, 0 ≤ v → v < 2 ^ 63 → toUInt64 v = v.toNat)
    ∧ (∀ v : Int, -2 ^ 63 ≤ v → v < 0 →
        toUInt64 v = (v + 2 ^ 64).toNat ∧ (zeroPaddedHexNumber (toUInt64 v)).length = 16)
    ∧ (∀ v : Int, 0 ≤ v → v < 65536 → (zeroPaddedHexNumber (toUInt64 v)).length = 4)
    ∧ (∀ v : Int, 65536 ≤ v → v < 2 ^ 63 → 4 < (zeroPaddedHexNumber (toUInt64 v)).length)
    ∧ (positionColumnDisplay node).length
      = max 4 (Nat.log 16 (toUInt64 node.start) + 1) + 1
        + max 4 (Nat.log 16 (toUInt64 node.end_) + 1)
    ∧ (9 ≤ (positionColumnDisplay node).length)
    ∧ ((positionColumnDisplay node).length = 9
        ↔ (0 ≤ node.start ∧ node.start < 65536 ∧ 0 ≤ node.end_ ∧ node.end_ < 65536)) := by
  have hsmall : ∀ n, n < 65536 → Nat.log 16 n + 1 ≤ 4 := by
    intro n hn
    rcases Nat.eq_zero_or_pos n with h0 | h0
    · subst h0
      simp
    · have : Nat.log 16 n < 4 :=
        Nat.log_lt_of_lt_pow (by omega) (by norm_num; exact hn)
      omega
  have hbig : ∀ n, 65536 ≤ n → 4 < Nat.log 16 n + 1 := by
    intro n hn
    have : 4 ≤ Nat.log 16 n := Nat.le_log_of_pow_le (by norm_num) (by norm_num; exact hn)
    omega
  have hlen : (positionColumnDisplay node).length
      = max 4 (Nat.log 16 (toUInt64 node.start) + 1) + 1
        + max 4 (Nat.log 16 (toUInt64 node.end_) + 1) := by
    rw [positionColumnDisplay_length, zeroPaddedHexNumber_length _ (toUInt64_lt _),
      zeroPaddedHexNumber_length _ (toUInt64_lt _)]
  have hiff : ∀ v : Int, -2 ^ 63 ≤ v → v < 2 ^ 63 →
      (toUInt64 v < 65536 ↔ (0 ≤ v ∧ v < 65536)) := by
    intro v h0 h1
    by_cases hv : 0 ≤ v
    · rw [toUInt64_nonneg v hv h1]
      omega
    · rw [toUInt64_neg v h0 (by omega)]
      norm_num at h0 ⊢
      omega
  refine ⟨rfl, toUInt64_nonneg, ?_, ?_, ?_, hlen, ?_, ?_⟩
  · intro v h0 h1
    refine ⟨toUInt64_neg v h0 h1, ?_⟩
    rw [zeroPaddedHexNumber_length _ (toUInt64_lt _)]
    have hge : 16 ^ 15 ≤ toUInt64 v := by
      rw [toUInt64_neg v h0 h1]
      norm_num at h0 ⊢
      omega
    have h15 : 15 ≤ Nat.log 16 (toUInt64 v) := Nat.le_log_of_pow_le (by norm_num) hge
    have h16 : Nat.log 16 (toUInt64 v) < 16 :=
      Nat.log_lt_of_lt_pow (by omega) (by have := toUInt64_lt v; norm_num at this ⊢; exact this)
    omega
  · intro v h0 h1
    rw [zeroPaddedHexNumber_length _ (toUInt64_lt _)]
    have := hsmall _ ((hiff v (by omega) (by omega)).mpr ⟨h0, h1⟩)
    omega
  · intro v h0 h1
    rw [zeroPaddedHexNumber_length _ (toUInt64_lt _)]
    have hn : 65536 ≤ toUInt64 v := by
      rw [toUInt64_nonneg v (by omega) h1]
      omega
    have := hbig _ hn
    omega
  · rw [hlen]
    omega
  · rw [hlen]
    constructor
    · intro h9
      have hs2 : toUInt64 node.start < 65536 := by
        by_contra hs2
        have := hbig _ (not_lt.mp hs2)
        omega
      have he2 : toUInt64 node.end_ < 65536 := by
        by_contra he2
        have := hbig _ (not_lt.mp he2)
        omega
      have h1 := (hiff node.start hs.1 hs.2).mp hs2
      have h2 := (hiff node.end_ he.1 he.2).mp he2
      exact ⟨h1.1, h1.2, h2.1, h2.2⟩
    · rintro ⟨hs1, hs2, he1, he2⟩
      have h1 := hsmall _ ((hiff node.start hs.1 hs.2).mpr ⟨hs1, hs2⟩)
      have h2 := hsmall _ ((hiff node.end_ he.1 he.2).mpr ⟨he1, he2⟩)
      omega

/-- A span that starts at -1: the start is written as 2^64 - 1, with sixteen digits. -/
theorem positionColumnDisplay_negative_start :
    positionColumnDisplay { sampleNode2 with span := some (-1, 0) }
      = "ffffffffffffffff:0000" := by
  decide

/-- Witness of C25 as amended: node 2 of the sample tree, bytes 16 to 65536, whose text
has ten characters. -/
theorem C25_position_padded_to_four_witness :
    (-2 ^ 63 ≤ sampleNode2.start ∧ sampleNode2.start < 2 ^ 63)
    ∧ (-2 ^ 63 ≤ sampleNode2.end_ ∧ sampleNode2.end_ < 2 ^ 63)
    ∧ 9 ≤ (positionColumnDisplay sampleNode2).length
    ∧ ¬ (positionColumnDisplay sampleNode2).length = 9 :=
  have h := C25_position_padded_to_four sampleNode2 (by decide) (by decide)
  ⟨by decide, by decide, h.2.2.2.2.2.2.1, fun h9 =>
    absurd ((h.2.2.2.2.2.2.2.mp h9).2.2.2) (by decide)⟩

/-! ## The listing of the root -/

theorem find_eq_of_mem (l : List NodeID) (x : NodeID) (h : x ∈ l) :
    l.find? (fun y => decide (y = x)) = some x := by
  induction l with
  | nil => simp at h
  | cons a l ih =>
    by_cases ha : a = x
    · simp [List.find?, ha]
    · have hx : x ∈ l := by
        rcases List.mem_cons.mp h with e | e
        · exact absurd e.symm ha
        · exact e
      simp [List.find?, ha, ih hx]

theorem find_congr (l : List Node) (q r : Node → Bool) (h : ∀ a ∈ l, q a = r a) :
    l.find? q = l.find? r := by
  induction l with
  | nil => rfl
  | cons a l ih =>
    have ha : q a = r a := h a (List.mem_cons_self a l)
    have ih2 := ih (fun b hb => h b (List.mem_cons_of_mem a hb))
    simp only [List.find?, ha, ih2]

theorem node_none_iff (t : NodeTree) (id : NodeID) :
    t.node id = none ↔ ∀ n ∈ t.nodes, n.id ≠ id := by
  unfold NodeTree.node
  rw [List.find?_eq_none]
  simp

theorem applyChildren_node_parent (t : NodeTree) (parentId : NodeID) (cs : List NodeID)
    (p : Node) (h : t.node parentId = some p) (hn : parentId ∉ p.children) :
    (t.applyChildren parentId cs).node parentId
      = some { p with children := cs, fetched := true } := by
  have hid : p.id = parentId := node_id_eq t parentId p h
  unfold NodeTree.applyChildren
  simp only [h]
  unfold NodeTree.node at h ⊢
  simp only
  rw [List.find?_append, List.find?_map, List.find?_filter,
    find_congr t.nodes _ (fun a => decide (a.id = parentId)) ?_, h]
  · simp [hid]
  · intro a _
    have hf : parentId ∉ p.children.filter (fun id => decide (id ∉ cs)) :=
      fun hm => hn (List.mem_of_mem_filter hm)
    by_cases ha : a.id = parentId
    · simp [ha, hn]
    · simp [ha]

theorem applyChildren_node_stub (t : NodeTree) (parentId : NodeID) (cs : List NodeID)
    (p : Node) (h : t.node parentId = some p) (x : NodeID) (hx : x ∈ cs)
    (hnew : t.node x = none) :
    (t.applyChildren parentId cs).node x = some (Node.stub x parentId) := by
  have hall := (node_none_iff t x).mp hnew
  have hxp : x ≠ parentId := by
    intro e
    rw [e, h] at hnew
    exact Option.noConfusion hnew
  unfold NodeTree.applyChildren
  simp only [h]
  unfold NodeTree.node
  simp only
  rw [List.find?_append]
  have h1 : List.find? (fun n => decide (n.id = x))
      (List.map (fun n : Node =>
          if n.id = parentId then { n with children := cs, fetched := true } else n)
        (List.filter (fun n => decide (n.id ∉ p.children.filter (fun id => decide (id ∉ cs))))
          t.nodes)) = none := by
    rw [List.find?_eq_none]
    intro n hn
    obtain ⟨a, ha, rfl⟩ := List.mem_map.mp hn
    have ha2 : a.id ≠ x := hall a (List.mem_of_mem_filter ha)
    by_cases hap : a.id = parentId
    · have hpx : ¬ parentId = x := fun e => hxp e.symm
      simp [hap, hpx]
    · simp [hap, ha2]
  rw [h1, List.find?_map]
  have h2 : ((fun n : Node => decide (n.id = x)) ∘ fun id => Node.stub id parentId)
      = fun y : NodeID => decide (y = x) := by
    funext y
    rfl
  have hmem : x ∈ cs.dedup.filter (fun id => (t.node id).isNone) := by
    rw [List.mem_filter]
    refine ⟨List.mem_dedup.mpr hx, ?_⟩
    rw [hnew]
    rfl
  have h3 := find_eq_of_mem _ x hmem
  unfold NodeTree.node at h3
  rw [h2, h3]
  rfl

theorem dispatchToTree_get_list_reply (c : NetworkClient) (listing : NodeID × List NodeID)
    (qid : Nat) :
    (dispatchToTree c listing
        { object_type := "get_list_reply", body := MsgBody.MsgGetListReply qid }).node_tree_
      = c.node_tree_.applyChildren listing.1 listing.2 := by
  have hl : message_handlers_.lookup "get_list_reply"
      = some MessageHandler.handleNodeTreeRelatedMessage := by decide
  simp [dispatchToTree, dispatch, hl, invokeHandler, handleNodeTreeRelatedMessage,
    messageSignals, NodeTree.cacheUpdater]

/-- C21: the dispatch of a get_list_reply leaves the client as it is and forwards the
message once through messageReceived; with the forwarded message applied to the node
tree by the cache updater, for a listing of the root whose children are not yet cached
(the root itself is cached and is not among its own children), the root afterwards has
exactly the listed children in the listed order and is marked fetched, and every listed
child is present as a stub node with fetched = false. -/
theorem C21_root_listing_applied (c : NetworkClient) (qid : Nat) (p : Node)
    (cs : List NodeID) (hroot : c.node_tree_.node NodeID.root = some p)
    (hself : NodeID.root ∉ p.children) (hnew : ∀ x ∈ cs, c.node_tree_.node x = none) :
    (dispatch c { object_type := "get_list_reply", body := MsgBody.MsgGetListReply qid }).1
        = c
    ∧ messageSignals (dispatch c
        { object_type := "get_list_reply", body := MsgBody.MsgGetListReply qid }).2
        = [{ object_type := "get_list_reply", body := MsgBody.MsgGetListReply qid }]
    ∧ (dispatchToTree c (NodeID.root, cs)
        { object_type := "get_list_reply", body := MsgBody.MsgGetListReply qid }).node_tree_.node
          NodeID.root = some { p with children := cs, fetched := true }
    ∧ ∀ x ∈ cs,
        (dispatchToTree c (NodeID.root, cs)
          { object_type := "get_list_reply",
            body := MsgBody.MsgGetListReply qid }).node_tree_.node x
          = some (Node.stub x NodeID.root)
        ∧ (Node.stub x NodeID.root).fetched = false := by
  have hl : message_handlers_.lookup "get_list_reply"
      = some MessageHandler.handleNodeTreeRelatedMessage := by decide
  refine ⟨?_, ?_, ?_, ?_⟩
  · simp [dispatch, hl, invokeHandler, handleNodeTreeRelatedMessage]
  · simp [dispatch, hl, invokeHandler, handleNodeTreeRelatedMessage, messageSignals]
  · rw [dispatchToTree_get_list_reply]
    exact applyChildren_node_parent _ _ cs p hroot hself
  · intro x hx
    rw [dispatchToTree_get_list_reply]
    exact ⟨applyChildren_node_stub _ _ cs p hroot x hx (hnew x hx), rfl⟩

/-- Witness of C21: the connected sample client, whose tree was reset at the connection,
receives the listing [1, 2, 3] of the root. -/
theorem C21_root_listing_applied_witness :
    sampleConnected.node_tree_.node NodeID.root = some Node.freshRoot
    ∧ (dispatchToTree sampleConnected (NodeID.root, [NodeID.id 1, NodeID.id 2, NodeID.id 3])
        { object_type := "get_list_reply", body := MsgBody.MsgGetListReply 3 }).node_tree_.node
          NodeID.root
        = some { Node.freshRoot with
            children := [NodeID.id 1, NodeID.id 2, NodeID.id 3], fetched := true }
    ∧ (dispatchToTree sampleConnected (NodeID.root, [NodeID.id 1, NodeID.id 2, NodeID.id 3])
        { object_type := "get_list_reply", body := MsgBody.MsgGetListReply 3 }).node_tree_.node
          (NodeID.id 2)
        = some (Node.stub (NodeID.id 2) NodeID.root) :=
  have h := C21_root_listing_applied sampleConnected 3 Node.freshRoot
    [NodeID.id 1, NodeID.id 2, NodeID.id 3] (by decide) (by decide) (by decide)
  ⟨by decide, h.2.2.1, (h.2.2.2 (NodeID.id 2) (by decide)).1⟩

end client

namespace util
namespace settings
namespace shortcuts

/-! ## Keyboard shortcuts -/

theorem exists_ne_of_nodup (l : List Nat) (hn : l.Nodup) (i : Nat) (hi : i ∈ l)
    (hne : l ≠ [i]) : ∃ j ∈ l, j ≠ i := by
  match l, hn, hi, hne with
  | [a], _, hi, hne =>
    have : i = a := by simpa using hi
    subst this
    exact absurd rfl hne
  | a :: b :: t, hn, _, _ =>
    by_cases ha : a = i
    · refine ⟨b, by simp, ?_⟩
      intro hb
      have hab : a ≠ b := by
        intro h
        rw [h] at hn
        simp at hn
      exact hab (ha.trans hb.symm)
    · exact ⟨a, by simp, ha⟩

theorem length_gt_one_iff (l : List Nat) (hn : l.Nodup) (i : Nat) (hi : i ∈ l) :
    1 < l.length ↔ ∃ j ∈ l, j ≠ i := by
  constructor
  · intro h
    apply exists_ne_of_nodup l hn i hi
    intro he
    rw [he] at h
    simp at h
  · rintro ⟨j, hj, hji⟩
    match l, hi, hj with
    | [], hi, _ => simp at hi
    | [a], hi, hj =>
      have h1 : i = a := by simpa using hi
      have h2 : j = a := by simpa using hj
      exact absurd (h2.trans h1.symm) hji
    | _ :: _ :: _, _, _ => simp

theorem any_conflict_iff (sh : Nat → List QKeySequence) (seq : QKeySequence → List Nat)
    (ha : ∀ s i, i ∈ seq s ↔ s ∈ sh i) (hb : ∀ s, (seq s).Nodup) (i : Nat) :
    (sh i).any (fun s => decide ((seq s).length > 1)) = true
      ↔ ∃ s ∈ sh i, ∃ j, j ≠ i ∧ s ∈ sh j := by
  rw [List.any_eq_true]
  constructor
  · rintro ⟨s, hs, hlen⟩
    have hlen2 : 1 < (seq s).length := by simpa using hlen
    obtain ⟨j, hj, hji⟩ := (length_gt_one_iff _ (hb s) i ((ha s i).mpr hs)).mp hlen2
    exact ⟨s, hs, j, hji, (ha s j).mp hj⟩
  · rintro ⟨s, hs, j, hji, hj⟩
    refine ⟨s, hs, ?_⟩
    have := (length_gt_one_iff _ (hb s) i ((ha s i).mpr hs)).mpr ⟨j, (ha s j).mpr hj, hji⟩
    simpa using this

/-- The data after a key sequence was added to the list of an item that did not have
it stay consistent. -/
theorem consistent_add (sh sh2 : Nat → List QKeySequence)
    (seq seq2 : QKeySequence → List Nat) (flag flag2 : Nat → Bool)
    (h : ConsistentData sh seq flag) (it : Nat) (s0 : QKeySequence) (hnot : s0 ∉ sh it)
    (hsh : ∀ i, sh2 i = if i = it then sh it ++ [s0] else sh i)
    (hseq : ∀ s, seq2 s = if s = s0 then seq s0 ++ [it] else seq s)
    (hflag : ∀ i, flag2 i = if i = it then (flag it || decide (seq s0 ≠ []))
      else (flag i || decide (seq s0 = [i]))) :
    ConsistentData sh2 seq2 flag2 := by
  obtain ⟨ha, hb, hd⟩ := h
  have hit : it ∉ seq s0 := fun hm => hnot ((ha s0 it).mp hm)
  refine ⟨?_, ?_, ?_⟩
  · intro s i
    rw [hseq, hsh]
    by_cases hs : s = s0 <;> by_cases hi : i = it
    · subst hs; subst hi; simp
    · subst hs
      simp only [if_true, hi, if_false, List.mem_append, List.mem_singleton, or_false]
      exact ha s i
    · subst hi
      simp only [hs, if_false, if_true, List.mem_append, List.mem_singleton, or_false]
      exact ha s i
    · simp only [hs, hi, if_false]
      exact ha s i
  · intro s
    rw [hseq]
    by_cases hs : s = s0
    · simp only [hs, if_true]
      rw [List.nodup_append]
      refine ⟨hb s0, List.nodup_singleton it, ?_⟩
      intro a ha1 ha2
      have : a = it := by simpa using ha2
      subst this
      exact hit ha1
    · simp only [hs, if_false]
      exact hb s
  · intro i
    rw [hflag]
    by_cases hi : i = it
    · subst hi
      simp only [if_true, Bool.or_eq_true, decide_eq_true_eq, hd]
      constructor
      · rintro (⟨s, hs, j, hji, hj⟩ | hne)
        · refine ⟨s, ?_, j, hji, ?_⟩
          · rw [hsh]; simp [hs]
          · rw [hsh]; simp [hji, hj]
        · obtain ⟨j, hj⟩ := List.exists_mem_of_ne_nil _ hne
          have hji : j ≠ i := fun e => hit (e ▸ hj)
          refine ⟨s0, ?_, j, hji, ?_⟩
          · rw [hsh]; simp
          · rw [hsh]; simp only [hji, if_false]; exact (ha s0 j).mp hj
      · rintro ⟨s, hs, j, hji, hj⟩
        rw [hsh] at hs hj
        simp only [if_true, List.mem_append, List.mem_singleton] at hs
        simp only [hji, if_false] at hj
        rcases hs with hs | hs
        · exact Or.inl ⟨s, hs, j, hji, hj⟩
        · subst hs
          right
          exact List.ne_nil_of_mem ((ha s j).mpr hj)
    · simp only [hi, if_false, Bool.or_eq_true, decide_eq_true_eq, hd]
      constructor
      · rintro (⟨s, hs, j, hji, hj⟩ | he)
        · refine ⟨s, ?_, j, hji, ?_⟩
          · rw [hsh]; simp only [hi, if_false]; exact hs
          · rw [hsh]
            by_cases hj2 : j = it
            · simp only [hj2, if_true, List.mem_append]
              left
              exact hj2 ▸ hj
            · simp only [hj2, if_false]; exact hj
        · have hmem : i ∈ seq s0 := by rw [he]; simp
          refine ⟨s0, ?_, it, fun e => hi e.symm, ?_⟩
          · rw [hsh]; simp only [hi, if_false]; exact (ha s0 i).mp hmem
          · rw [hsh]; simp
      · rintro ⟨s, hs, j, hji, hj⟩
        rw [hsh] at hs hj
        simp only [hi, if_false] at hs
        by_cases hj2 : j = it
        · subst hj2
          simp only [if_true, List.mem_append, List.mem_singleton] at hj
          rcases hj with hj | hj
          · exact Or.inl ⟨s, hs, j, hji, hj⟩
          · subst hj
            by_cases he : seq s = [i]
            · exact Or.inr he
            · left
              obtain ⟨k, hk, hki⟩ := exists_ne_of_nodup _ (hb s) i ((ha s i).mpr hs) he
              exact ⟨s, hs, k, hki, (ha s k).mp hk⟩
        · simp only [hj2, if_false] at hj
          exact Or.inl ⟨s, hs, j, hji, hj⟩

/-- The data after a key sequence was removed from the list of an item that had it
stay consistent, the flags of the item and of a single remaining holder being cleared
when the recomputed check finds no conflict. -/
theorem consistent_remove (sh sh2 : Nat → List QKeySequence)
    (seq seq2 : QKeySequence → List Nat) (flag flag2 : Nat → Bool)
    (h : ConsistentData sh seq flag) (it : Nat) (s0 : QKeySequence)
    (hsh : ∀ i, sh2 i = if i = it then (sh it).filter (fun s => decide (s ≠ s0)) else sh i)
    (hseq : ∀ s, seq2 s = if s = s0 then (seq s0).filter (fun p => decide (p ≠ it))
      else seq s)
    (hflag : ∀ i, flag2 i =
      if i = it ∨ seq2 s0 = [i] then
        (flag i && (sh2 i).any (fun s => decide ((seq2 s).length > 1)))
      else flag i) :
    ConsistentData sh2 seq2 flag2 := by
  obtain ⟨ha, hb, hd⟩ := h
  have ha2 : ∀ s i, i ∈ seq2 s ↔ s ∈ sh2 i := by
    intro s i
    rw [hseq, hsh]
    by_cases hs : s = s0 <;> by_cases hi : i = it
    · subst hs; subst hi; simp
    · subst hs
      simp only [if_true, hi, if_false, List.mem_filter, decide_eq_true_eq, ne_eq,
        not_false_eq_true, and_true]
      exact ha s i
    · subst hi
      simp only [hs, if_false, if_true, List.mem_filter, decide_eq_true_eq, ne_eq,
        not_false_eq_true, and_true]
      exact ha s i
    · simp only [hs, hi, if_false]
      exact ha s i
  have hb2 : ∀ s, (seq2 s).Nodup := by
    intro s
    rw [hseq]
    by_cases hs : s = s0
    · simp only [hs, if_true]
      exact (hb s0).filter _
    · simp only [hs, if_false]
      exact hb s
  have hsub : ∀ s i, s ∈ sh2 i → s ∈ sh i := by
    intro s i hs
    rw [hsh] at hs
    by_cases hi : i = it
    · subst hi
      simp only [if_true] at hs
      exact List.mem_of_mem_filter hs
    · simpa only [hi, if_false] using hs
  have hmono : ∀ i, (∃ s ∈ sh2 i, ∃ j, j ≠ i ∧ s ∈ sh2 j)
      → ∃ s ∈ sh i, ∃ j, j ≠ i ∧ s ∈ sh j := by
    rintro i ⟨s, hs, j, hji, hj⟩
    exact ⟨s, hsub s i hs, j, hji, hsub s j hj⟩
  refine ⟨ha2, hb2, ?_⟩
  intro i
  rw [hflag]
  have hcheck := any_conflict_iff sh2 seq2 ha2 hb2 i
  by_cases hc : i = it ∨ seq2 s0 = [i]
  · simp only [hc, if_true, Bool.and_eq_true, hcheck, hd]
    constructor
    · exact fun h => h.2
    · exact fun h => ⟨hmono i h, h⟩
  · simp only [hc, if_false, hd]
    have hi : i ≠ it := fun e => hc (Or.inl e)
    have hne : seq2 s0 ≠ [i] := fun e => hc (Or.inr e)
    constructor
    · rintro ⟨s, hs, j, hji, hj⟩
      have hs2 : s ∈ sh2 i := by rw [hsh]; simp only [hi, if_false]; exact hs
      by_cases hcase : s = s0 ∧ j = it
      · obtain ⟨e1, _⟩ := hcase
        subst e1
        have hmem : i ∈ seq2 s := (ha2 s i).mpr hs2
        obtain ⟨k, hk, hki⟩ := exists_ne_of_nodup _ (hb2 s) i hmem hne
        exact ⟨s, hs2, k, hki, (ha2 s k).mp hk⟩
      · refine ⟨s, hs2, j, hji, ?_⟩
        rw [hsh]
        by_cases hj2 : j = it
        · have hss : s ≠ s0 := fun e => hcase ⟨e, hj2⟩
          subst hj2
          simp only [if_true, List.mem_filter, decide_eq_true_eq, ne_eq]
          exact ⟨hj, hss⟩
        · simp only [hj2, if_false]; exact hj
    · exact hmono i

theorem setItem_items (m : ShortcutsModel) (p : Nat) (it : ShortcutsItem) (q : Nat) :
    (m.setItem p it).items q = if q = p then it else m.items q := rfl

theorem setItem_seq (m : ShortcutsModel) (p : Nat) (it : ShortcutsItem) (s : QKeySequence) :
    (m.setItem p it).seq s = m.seq s := rfl

theorem setConflict_seq (m : ShortcutsModel) (p : Nat) (b : Bool) (s : QKeySequence) :
    (m.setConflict p b).seq s = m.seq s := rfl

theorem setConflict_shortcuts (m : ShortcutsModel) (p : Nat) (b : Bool) (q : Nat) :
    ((m.setConflict p b).items q).shortcuts_ = (m.items q).shortcuts_ := by
  unfold ShortcutsModel.setConflict
  rw [setItem_items]
  split_ifs with h
  · rw [h]
  · rfl

theorem setConflict_conflict (m : ShortcutsModel) (p : Nat) (b : Bool) (q : Nat) :
    ((m.setConflict p b).items q).conflict_ = if q = p then b else (m.items q).conflict_ := by
  unfold ShortcutsModel.setConflict
  rw [setItem_items]
  split_ifs with h <;> rfl

theorem setSeq_seq (m : ShortcutsModel) (s0 : QKeySequence) (l : List Nat)
    (s : QKeySequence) : (m.setSeq s0 l).seq s = if s = s0 then l else m.seq s := by
  unfold ShortcutsModel.setSeq ShortcutsModel.seq
  simp only
  split_ifs <;> rfl

theorem setSeq_items (m : ShortcutsModel) (s0 : QKeySequence) (l : List Nat) :
    (m.setSeq s0 l).items = m.items := rfl

theorem checkIfConflicts_congr (m m2 : ShortcutsModel) (i : Nat)
    (hsh : (m2.items i).shortcuts_ = (m.items i).shortcuts_) (hseq : ∀ s, m2.seq s = m.seq s) :
    m2.checkIfConflicts i = m.checkIfConflicts i := by
  unfold ShortcutsModel.checkIfConflicts
  rw [hsh]
  simp only [hseq]

theorem seq_of_none (m : ShortcutsModel) (s : QKeySequence)
    (h : m.sequence_to_shortcut_ s = none) : m.seq s = [] := by
  unfold ShortcutsModel.seq
  rw [h]
  rfl

theorem isSome_of_seq_ne_nil (m : ShortcutsModel) (s : QKeySequence) (h : m.seq s ≠ []) :
    (m.sequence_to_shortcut_ s).isSome = true := by
  rcases hq : m.sequence_to_shortcut_ s with _ | l
  · exact absurd (seq_of_none m s hq) h
  · rfl

/-- The function `addShortcut` keeps the data of the model consistent. -/
theorem addShortcut_consistent (m : ShortcutsModel) (h : m.Consistent) (type : ShortcutType)
    (s0 : QKeySequence) : (m.addShortcut type s0).Consistent := by
  unfold ShortcutsModel.addShortcut
  split_ifs with hempty
  · exact h
  rcases ht : m.type_to_shortcut_ type with _ | item
  · exact h
  simp only
  by_cases hmem : s0 ∈ (m.items item).shortcuts_
  · have hr : ((m.items item).addShortcut s0).2 = false := by
      unfold ShortcutsItem.addShortcut
      simp [hmem]
    simp only [hr]
    exact h
  have hr1 : (m.items item).addShortcut s0
      = ({ m.items item with shortcuts_ := (m.items item).shortcuts_ ++ [s0] }, true) := by
    unfold ShortcutsItem.addShortcut
    simp [hmem]
  simp only [hr1, if_true]
  have hitem : item ∉ m.seq s0 := fun hm => hmem ((h.1 s0 item).mp hm)
  have hshEq : ∀ (i : Nat),
      (((m.setItem item { m.items item with
          shortcuts_ := (m.items item).shortcuts_ ++ [s0] }).items i).shortcuts_)
        = if i = item then (m.items item).shortcuts_ ++ [s0] else (m.items i).shortcuts_ := by
    intro i
    rw [setItem_items]
    split_ifs with hi
    · rfl
    · rfl
  have hflEq : ∀ (i : Nat),
      (((m.setItem item { m.items item with
          shortcuts_ := (m.items item).shortcuts_ ++ [s0] }).items i).conflict_)
        = (m.items i).conflict_ := by
    intro i
    rw [setItem_items]
    split_ifs with hi
    · rw [hi]
    · rfl
  unfold ShortcutsModel.Consistent
  have hsome : m.seq s0 ≠ [] → (m.sequence_to_shortcut_ s0).isSome = true :=
    isSome_of_seq_ne_nil m s0
  rcases hl : m.seq s0 with _ | ⟨x, _ | ⟨y, t⟩⟩
  · apply consistent_add _ _ _ _ _ _ h item s0 hmem
    · intro i
      simp only [setItem_seq, hl, List.length_nil, gt_iff_lt, lt_self_iff_false, if_false,
        ite_self, setSeq_items]
      exact hshEq i
    · intro s
      simp only [setItem_seq, hl, List.length_nil, gt_iff_lt, lt_self_iff_false, if_false,
        ite_self, setSeq_seq, List.nil_append]
    · intro i
      simp only [setItem_seq, hl, List.length_nil, gt_iff_lt, lt_self_iff_false, if_false,
        ite_self, setSeq_items, hflEq]
      split_ifs with hi
      · rw [hi]; simp
      · simp
  · have hs := hsome (by rw [hl]; simp)
    have hs2 : ∀ it2, ((m.setItem item it2).sequence_to_shortcut_ s0).isSome = true :=
      fun _ => hs
    have hni : item ∉ [x] := hl ▸ hitem
    apply consistent_add _ _ _ _ _ _ h item s0 hmem
    · intro i
      simp only [setItem_seq, hl, hs2, hni, not_false_eq_true, and_self, if_true,
        List.length_singleton, gt_iff_lt, zero_lt_one, setSeq_items, setConflict_shortcuts]
      exact hshEq i
    · intro s
      simp only [setItem_seq, hl, hs2, hni, not_false_eq_true, and_self, if_true,
        List.length_singleton, gt_iff_lt, zero_lt_one, setSeq_seq, setConflict_seq,
        List.singleton_append]
    · intro i
      simp only [setItem_seq, hl, hs2, hni, not_false_eq_true, and_self, if_true,
        List.length_singleton, gt_iff_lt, zero_lt_one, setSeq_items, setConflict_conflict,
        hflEq]
      split_ifs with hi hx
      · simp
      · rw [hx]; simp
      · have : ¬ [x] = [i] := by
          intro e
          exact hx (by simpa using e.symm)
        simp [this]
  · have hs := hsome (by rw [hl]; simp)
    have hs2 : ∀ it2, ((m.setItem item it2).sequence_to_shortcut_ s0).isSome = true :=
      fun _ => hs
    have hni : item ∉ x :: y :: t := hl ▸ hitem
    apply consistent_add _ _ _ _ _ _ h item s0 hmem
    · intro i
      simp only [setItem_seq, hl, hs2, hni, not_false_eq_true, and_self, if_true,
        List.length_cons, gt_iff_lt, Nat.zero_lt_succ, setSeq_items, setConflict_shortcuts]
      exact hshEq i
    · intro s
      simp only [setItem_seq, hl, hs2, hni, not_false_eq_true, and_self, if_true,
        List.length_cons, gt_iff_lt, Nat.zero_lt_succ, setSeq_seq, setConflict_seq]
    · intro i
      simp only [setItem_seq, hl, hs2, hni, not_false_eq_true, and_self, if_true,
        List.length_cons, gt_iff_lt, Nat.zero_lt_succ, setSeq_items, setConflict_conflict,
        hflEq]
      split_ifs with hi
      · simp
      · simp

theorem consistentData_congr (sh sh2 : Nat → List QKeySequence)
    (seq seq2 : QKeySequence → List Nat) (flag flag2 : Nat → Bool)
    (h : ConsistentData sh seq flag) (hsh : ∀ i, sh2 i = sh i) (hseq : ∀ s, seq2 s = seq s)
    (hflag : ∀ i, flag2 i = flag i) : ConsistentData sh2 seq2 flag2 := by
  have e1 : sh2 = sh := funext hsh
  have e2 : seq2 = seq := funext hseq
  have e3 : flag2 = flag := funext hflag
  rw [e1, e2, e3]
  exact h

theorem clearConflict_shortcuts (m : ShortcutsModel) (c : Bool) (p i : Nat) :
    ((if c then m.setConflict p false else m).items i).shortcuts_
      = (m.items i).shortcuts_ := by
  split_ifs
  · exact setConflict_shortcuts m p false i
  · rfl

theorem clearConflict_seq (m : ShortcutsModel) (c : Bool) (p : Nat) (s : QKeySequence) :
    (if c then m.setConflict p false else m).seq s = m.seq s := by
  split_ifs <;> rfl

theorem clearConflict_conflict (m : ShortcutsModel) (b : Bool) (p i : Nat) :
    ((if !b then m.setConflict p false else m).items i).conflict_
      = if i = p then ((m.items p).conflict_ && b) else (m.items i).conflict_ := by
  cases b
  · simp only [Bool.not_false, if_true, Bool.and_false, setConflict_conflict]
  · simp only [Bool.not_true, Bool.false_eq_true, if_false, Bool.and_true]
    split_ifs with hi
    · rw [hi]
    · rfl

theorem clearConflict_check (m : ShortcutsModel) (c : Bool) (p i : Nat) :
    (if c then m.setConflict p false else m).checkIfConflicts i
      = m.checkIfConflicts i :=
  checkIfConflicts_congr m _ i (clearConflict_shortcuts m c p i) (clearConflict_seq m c p)

/-- The function `removeShortcut` keeps the data of the model consistent. -/
theorem removeShortcut_consistent (m : ShortcutsModel) (h : m.Consistent)
    (type : ShortcutType) (s0 : QKeySequence) : (m.removeShortcut type s0).Consistent := by
  unfold ShortcutsModel.removeShortcut
  split_ifs with hempty
  · exact h
  rcases ht : m.type_to_shortcut_ type with _ | item
  · exact h
  simp only [ShortcutsItem.deleteShortcut]
  have hshEq : ∀ (i : Nat),
      (((m.setItem item { m.items item with
          shortcuts_ := (m.items item).shortcuts_.filter (fun s => decide (s ≠ s0)) }).items
            i).shortcuts_)
        = if i = item then (m.items item).shortcuts_.filter (fun s => decide (s ≠ s0))
          else (m.items i).shortcuts_ := by
    intro i
    rw [setItem_items]
    split_ifs with hi
    · rfl
    · rfl
  have hflEq : ∀ (i : Nat),
      (((m.setItem item { m.items item with
          shortcuts_ := (m.items item).shortcuts_.filter (fun s => decide (s ≠ s0)) }).items
            i).conflict_)
        = (m.items i).conflict_ := by
    intro i
    rw [setItem_items]
    split_ifs with hi
    · rw [hi]
    · rfl
  by_cases hmem : s0 ∈ (m.items item).shortcuts_
  · simp only [hmem, decide_True, if_true]
    unfold ShortcutsModel.Consistent
    have hfm : ∀ i, i ∈ (m.seq s0).filter (fun p => decide (p ≠ item)) → i ≠ item := by
      intro i hi
      simpa using (List.mem_filter.mp hi).2
    rcases hl : (m.seq s0).filter (fun p => decide (p ≠ item)) with _ | ⟨x, _ | ⟨y, t⟩⟩
    · simp only [setSeq_seq, setItem_seq, if_true, hl]
      apply consistent_remove _ _ _ _ _ _ h item s0
      · intro i
        simp only [clearConflict_shortcuts, setSeq_items, hshEq]
      · intro s
        simp only [clearConflict_seq, setSeq_seq, setItem_seq, hl]
      · intro i
        simp only [clearConflict_conflict, clearConflict_seq, clearConflict_shortcuts,
          clearConflict_check]
        simp only [ShortcutsModel.checkIfConflicts, setSeq_items, hflEq, setSeq_seq, if_true]
        by_cases hi : i = item
        · simp [hi]
        · simp [hi]
    · have hxi : x ≠ item := hfm x (by rw [hl]; simp)
      simp only [setSeq_seq, setItem_seq, if_true, hl]
      apply consistent_remove _ _ _ _ _ _ h item s0
      · intro i
        simp only [clearConflict_shortcuts, setSeq_items, hshEq]
      · intro s
        simp only [clearConflict_seq, setSeq_seq, setItem_seq, hl]
      · intro i
        simp only [clearConflict_conflict, clearConflict_seq, clearConflict_shortcuts,
          clearConflict_check]
        simp only [ShortcutsModel.checkIfConflicts, setSeq_items, hflEq, setSeq_seq, if_true]
        by_cases hi : i = item
        · have hix : ¬ item = x := fun e => hxi e.symm
          simp [hi, hix]
        · by_cases hx : i = x
          · subst hx
            simp [hi]
          · have hx2 : ¬ x = i := fun e => hx e.symm
            simp [hi, hx, hx2]
    · simp only [setSeq_seq, setItem_seq, if_true, hl]
      apply consistent_remove _ _ _ _ _ _ h item s0
      · intro i
        simp only [clearConflict_shortcuts, setSeq_items, hshEq]
      · intro s
        simp only [clearConflict_seq, setSeq_seq, setItem_seq, hl]
      · intro i
        simp only [clearConflict_conflict, clearConflict_seq, clearConflict_shortcuts,
          clearConflict_check]
        simp only [ShortcutsModel.checkIfConflicts, setSeq_items, hflEq, setSeq_seq, if_true]
        by_cases hi : i = item
        · simp [hi]
        · simp [hi]
  · simp only [hmem, decide_False, Bool.false_eq_true, if_false]
    unfold ShortcutsModel.Consistent
    apply consistentData_congr _ _ _ _ _ _ h
    · intro i
      simp only [hshEq]
      split_ifs with hi
      · rw [hi]
        apply List.filter_eq_self.mpr
        intro a ha
        have : a ≠ s0 := fun e => hmem (e ▸ ha)
        simpa using this
      · rfl
    · intro s
      rfl
    · intro i
      exact hflEq i

theorem unassigned_consistent (m : ShortcutsModel) (h : m.Unassigned) : m.Consistent := by
  obtain ⟨hi, hs⟩ := h
  refine ⟨?_, ?_, ?_⟩
  · intro s i
    simp only [hs s, (hi i).1, List.not_mem_nil]
  · intro s
    rw [hs s]
    exact List.nodup_nil
  · intro i
    simp only [(hi i).2, (hi i).1, List.not_mem_nil, false_and, exists_false,
      Bool.false_eq_true]

theorem call_consistent (m : ShortcutsModel) (h : m.Consistent) (c : ShortcutsCall) :
    (m.call c).Consistent := by
  cases c with
  | addShortcut type shortcut => exact addShortcut_consistent m h type shortcut
  | removeShortcut type shortcut => exact removeShortcut_consistent m h type shortcut

theorem calls_consistent (cs : List ShortcutsCall) :
    ∀ (m : ShortcutsModel), m.Consistent → (m.calls cs).Consistent := by
  induction cs with
  | nil => intro m h; exact h
  | cons c cs ih =>
    intro m h
    exact ih (m.call c) (call_consistent m h c)

theorem unassigned_setItem (m : ShortcutsModel) (h : m.Unassigned) (p : Nat)
    (it : ShortcutsItem) (h1 : it.shortcuts_ = []) (h2 : it.conflict_ = false) :
    (m.setItem p it).Unassigned := by
  refine ⟨?_, h.2⟩
  intro i
  rw [setItem_items]
  split_ifs
  · exact ⟨h1, h2⟩
  · exact h.1 i

theorem unassigned_appendChild (m : ShortcutsModel) (h : m.Unassigned) (parent item : Nat) :
    (m.appendChild parent item).Unassigned :=
  unassigned_setItem m h parent _ (h.1 parent).1 (h.1 parent).2

theorem unassigned_newItem (m : ShortcutsModel) (h : m.Unassigned)
    (it : ShortcutsItem) (h1 : it.shortcuts_ = []) (h2 : it.conflict_ = false) :
    (m.newItem it).1.Unassigned :=
  unassigned_setItem m h m.allocated it h1 h2

theorem unassigned_addCategory (m : ShortcutsModel) (h : m.Unassigned) (name : String)
    (parent : Nat) : (m.addCategory name parent).1.Unassigned :=
  unassigned_appendChild _ (unassigned_newItem m h _ rfl rfl) parent _

theorem unassigned_addShortcutType (m : ShortcutsModel) (h : m.Unassigned)
    (gs : ShortcutType → List QKeySequence) (hgs : ∀ t, gs t = []) (type : ShortcutType)
    (parent : Nat) (name display_name : String) :
    (m.addShortcutType gs type parent name display_name).1.Unassigned := by
  unfold ShortcutsModel.addShortcutType
  simp only [hgs type, List.foldl_nil]
  apply unassigned_appendChild
  have h1 : (m.newItem (if display_name.isEmpty
      then ShortcutsItem.shortcut name name (some parent) type
      else ShortcutsItem.shortcut name display_name (some parent) type)).1.Unassigned := by
    apply unassigned_newItem m h
    · split_ifs <;> rfl
    · split_ifs <;> rfl
  exact h1

theorem unassigned_rootOnly : ShortcutsModel.rootOnly.Unassigned :=
  ⟨fun _ => ⟨rfl, rfl⟩, fun _ => rfl⟩

theorem unassigned_new (gs : ShortcutType → List QKeySequence) (hgs : ∀ t, gs t = []) :
    (ShortcutsModel.new gs).Unassigned := by
  unfold ShortcutsModel.new
  simp only []
  repeat (first
    | exact unassigned_rootOnly
    | refine unassigned_addShortcutType _ ?_ gs hgs _ _ _ _
    | refine unassigned_addCategory _ ?_ _ _)

theorem unassigned_sampleShortcuts : sampleShortcuts.Unassigned :=
  unassigned_new _ (fun _ => rfl)

/-- C28: starting from a model with no shortcut assigned, after every sequence of
`addShortcut` and `removeShortcut` calls the conflict flag of every item is set exactly
when a key sequence of its shortcut list is also in the shortcut list of a different
item. -/
theorem C28_conflict_flag_invariant (m0 : ShortcutsModel) (h0 : m0.Unassigned)
    (cs : List ShortcutsCall) (i : Nat) :
    ((m0.calls cs).items i).conflict_ = true ↔ (m0.calls cs).Conflicts i :=
  (calls_consistent cs m0 (unassigned_consistent m0 h0)).2.2 i

theorem C28_conflict_flag_invariant_witness :
    sampleShortcuts.Unassigned
    ∧ (((sampleShortcuts.calls
          [ShortcutsCall.addShortcut ShortcutType.COPY [67108931],
           ShortcutsCall.addShortcut ShortcutType.CREATE_CHUNK [67108931],
           ShortcutsCall.removeShortcut ShortcutType.COPY [67108931]]).items 26).conflict_
        = true
      ↔ (sampleShortcuts.calls
          [ShortcutsCall.addShortcut ShortcutType.COPY [67108931],
           ShortcutsCall.addShortcut ShortcutType.CREATE_CHUNK [67108931],
           ShortcutsCall.removeShortcut ShortcutType.COPY [67108931]]).Conflicts 26) :=
  ⟨unassigned_new _ (fun _ => rfl),
    C28_conflict_flag_invariant sampleShortcuts (unassigned_new _ (fun _ => rfl)) _ 26⟩

/-- The flags in a run from the empty settings: Ctrl+C given to COPY (item 17) and to
CREATE_CHUNK (item 26) sets both flags, and taking it from COPY clears both. -/
theorem sampleShortcuts_conflict_flags :
    ((sampleShortcuts.calls
        [ShortcutsCall.addShortcut ShortcutType.COPY [67108931]]).items 17).conflict_ = false
    ∧ ((sampleShortcuts.calls
        [ShortcutsCall.addShortcut ShortcutType.COPY [67108931],
         ShortcutsCall.addShortcut ShortcutType.CREATE_CHUNK [67108931]]).items 17).conflict_
        = true
    ∧ ((sampleShortcuts.calls
        [ShortcutsCall.addShortcut ShortcutType.COPY [67108931],
         ShortcutsCall.addShortcut ShortcutType.CREATE_CHUNK [67108931]]).items 26).conflict_
        = true
    ∧ ((sampleShortcuts.calls
        [ShortcutsCall.addShortcut ShortcutType.COPY [67108931],
         ShortcutsCall.addShortcut ShortcutType.CREATE_CHUNK [67108931],
         ShortcutsCall.removeShortcut ShortcutType.COPY [67108931]]).items 17).conflict_
        = false
    ∧ ((sampleShortcuts.calls
        [ShortcutsCall.addShortcut ShortcutType.COPY [67108931],
         ShortcutsCall.addShortcut ShortcutType.CREATE_CHUNK [67108931],
         ShortcutsCall.removeShortcut ShortcutType.COPY [67108931]]).items 26).conflict_
        = false := by
  decide

/-- The constructor with saved settings goes through `addShortcut` as well: with Ctrl+C
saved for COPY and for CREATE_CHUNK both items are flagged. -/
theorem sampleSettings_conflict_flags :
    ((ShortcutsModel.new sampleSettings).items 17).conflict_ = true
    ∧ ((ShortcutsModel.new sampleSettings).items 26).conflict_ = true
    ∧ ((ShortcutsModel.new sampleSettings).items 16).conflict_ = false := by
  decide

/-- C30 evaluated on the code: in the model that the constructor builds, the category
"Docks" is row 6 under "Global", so its index `p` has row 6 and column 0; `p` has 4
rows, and the parent of `index(0, 0, p)` comes out with row 0, the row of the child,
where `p` has row 6. For an item directly under the root the parent is the invalid
index, as claimed. -/
theorem C30_parent_takes_row_of_child :
    sampleShortcuts.index 0 0 client.QModelIndex.invalid
        = some (client.createIndex 0 0 (some 1))
    ∧ sampleShortcuts.index 6 0 (client.createIndex 0 0 (some 1))
        = some (client.createIndex 6 0 (some 8))
    ∧ (sampleShortcuts.items 8).display_name_ = "Docks"
    ∧ sampleShortcuts.rowCount (client.createIndex 6 0 (some 8)) = some 4
    ∧ sampleShortcuts.index 0 0 (client.createIndex 6 0 (some 8))
        = some (client.createIndex 0 0 (some 9))
    ∧ sampleShortcuts.parent (client.createIndex 0 0 (some 9))
        = some (client.createIndex 0 0 (some 8))
    ∧ (client.createIndex 0 0 (some 8) : client.QModelIndex Nat)
        ≠ client.createIndex 6 0 (some 8)
    ∧ sampleShortcuts.parent (client.createIndex 0 0 (some 1))
        = some client.QModelIndex.invalid := by
  decide

end shortcuts
end settings
end util
end veles
